import Mathlib

/-!
# Conway's game of life renderer (`src/main.cpp`): draw list and grid simulation

A shallow embedding of the draw list (`DrawList`, `drawRect`, `drawLine`) and of the
frame loop of `main` (tick sweep, shadow refresh, border pass, settings panel), followed
by the properties proved about them.

Conventions of the embedding
* `float` values are read as exact rationals (`ℚ`); the draw list only copies them.
* `uint32_t` and `size_t` values are natural numbers, reduced modulo `2 ^ 32` and
  `2 ^ 64` where the source arithmetic can wrap.
* A call that reads outside an array (undefined behaviour) or whose loop never
  terminates yields `none`.
* `spaces[i][j].alive` and `aliveSpaces[i][j]` are two functions `Nat → Nat → Bool`;
  the grid dimensions `W = spaces.size()` and `H = spaces[i].size()` are passed
  explicitly.  In the program both are `120`.
-/

namespace Cgol

/-! ## Constants -/

/-- Macro `CELL_SPACE_WIDTH`. -/
def CELL_SPACE_WIDTH : Nat := 120

/-- Macro `CELL_SPACE_HEIGHT`. -/
def CELL_SPACE_HEIGHT : Nat := 120

/-- Macro `CELL_SPACE_SCALE` (`13.0f`). -/
def CELL_SPACE_SCALE : ℚ := 13

/-- Largest value of a `uint16_t`. -/
def UINT16_MAX : Nat := 65535

/-- Constant `s_MaxVertices = UINT16_MAX * 4`, a `uint32_t`. -/
def s_MaxVertices : Nat := (UINT16_MAX * 4) % 2 ^ 32

/-- Constant `s_MaxIndices = s_MaxVertices * 6`, a `uint32_t`. -/
def s_MaxIndices : Nat := (s_MaxVertices * 6) % 2 ^ 32

/-- Modelled from the spec: `ogls.h` is not among the sources; a 2D position is two
floats `x`, `y`. -/
structure OglsVec2 where
  x : ℚ
  y : ℚ

/-- Modelled from the spec: `ogls.h` is not among the sources; a colour is three floats
`r`, `g`, `b`. -/
structure OglsVec3 where
  r : ℚ
  g : ℚ
  b : ℚ

/-- Byte size `sizeof(float)`. -/
def sizeofFloat : Nat := 4

/-- Byte size `sizeof(uint32_t)`. -/
def sizeofUint32 : Nat := 4

/-- Modelled from the spec: `sizeof(Vertex)`, a position of 2 floats followed by a colour
of 3 floats (stride 5 floats), `ogls.h` being absent from the sources. -/
def sizeofVertex : Nat := 5 * sizeofFloat

/-- Macro `COLOR_FG`. -/
def COLOR_FG : OglsVec3 := ⟨0.78, 0.82, 1.0⟩

/-- Macro `COLOR_FG2`. -/
def COLOR_FG2 : OglsVec3 := ⟨0.098, 0.094, 0.156⟩

/-- Macro `COLOR_RED`. -/
def COLOR_RED : OglsVec3 := ⟨0.97, 0.46, 0.55⟩

/-! ## Draw list -/

/-- Struct `DrawCommand`.  The two pointers are the caller's arrays. -/
structure DrawCommand where
  pVertices : List ℚ
  pIndices : List Nat
  vertexCount : Nat
  vertexSize : Nat
  vertexAttributeCount : Nat
  indexCount : Nat

/-- Class `DrawList`: the private members. -/
structure DrawList where
  m_VerticesRaw : List ℚ
  m_Indices : List Nat
  m_DrawCommands : List DrawCommand
  m_Vertices : Nat

namespace DrawList

/-- Method `DrawList::push_back`.

* `m_Indices.insert(end, pIndices, pIndices + indexCount)` appends the first `indexCount`
  indices; reading past the caller's array is undefined (`none`).
* The loop `for (uint32_t i = size - indexCount; i < size; i++) m_Indices[i] += m_Vertices`
  adds the running vertex count to each new index, in `uint32_t`.  Its counter is 32 bits
  wide while `size` is a `size_t`: once `size` reaches `2 ^ 32` the test `i < size` never
  fails and the call does not return (`none`).
* `vertexCount * vertexAttributeCount` is a `uint32_t` product; `m_Vertices` is a `size_t`. -/
def push_back (l : DrawList) (drawCmd : DrawCommand) : Option DrawList :=
  let nFloats := (drawCmd.vertexCount * drawCmd.vertexAttributeCount) % 2 ^ 32
  if drawCmd.pIndices.length < drawCmd.indexCount then none
  else if 2 ^ 32 ≤ l.m_Indices.length + drawCmd.indexCount then none
  else if drawCmd.pVertices.length < nFloats then none
  else some
    { m_DrawCommands := l.m_DrawCommands ++ [drawCmd]
      m_Indices := l.m_Indices ++
        (drawCmd.pIndices.take drawCmd.indexCount).map (fun v => (v + l.m_Vertices) % 2 ^ 32)
      m_VerticesRaw := l.m_VerticesRaw ++ drawCmd.pVertices.take nFloats
      m_Vertices := (l.m_Vertices + drawCmd.vertexCount) % 2 ^ 64 }

/-- Method `DrawList::clear`. -/
def clear (_l : DrawList) : DrawList :=
  { m_DrawCommands := [], m_VerticesRaw := [], m_Indices := [], m_Vertices := 0 }

/-- Method `DrawList::empty`. -/
def empty (l : DrawList) : Bool :=
  l.m_VerticesRaw.isEmpty && l.m_Indices.isEmpty && l.m_DrawCommands.isEmpty

/-- Method `DrawList::vertex_count`: the size of `m_VerticesRaw`, a number of floats. -/
def vertex_count (l : DrawList) : Nat := l.m_VerticesRaw.length

/-- Method `DrawList::vertex_size`. -/
def vertex_size (l : DrawList) : Nat := l.m_VerticesRaw.length * sizeofFloat

/-- Method `DrawList::index_count`. -/
def index_count (l : DrawList) : Nat := l.m_Indices.length

/-- Method `DrawList::index_size`. -/
def index_size (l : DrawList) : Nat := l.m_Indices.length * sizeofUint32

/-- Method `DrawList::drawcmd_count`. -/
def drawcmd_count (l : DrawList) : Nat := l.m_DrawCommands.length

/-- Successive `push_back` calls, left to right. -/
def pushAll : DrawList → List DrawCommand → Option DrawList
  | l, [] => some l
  | l, c :: cs => (l.push_back c).bind (fun l1 => pushAll l1 cs)

end DrawList

/-- Rounding of a rational to the nearest integer, a tie going to the even integer. -/
def roundHalfEven (t : ℚ) : Int :=
  let f := ⌊t⌋
  if t - f < 1 / 2 then f
  else if 1 / 2 < t - f then f + 1
  else if f % 2 = 0 then f else f + 1

/-- The `float` (IEEE 754 binary32, 24 significant bits) nearest to the number `r`, a tie
going to the even significand: with `2 ^ e ≤ |r| < 2 ^ (e + 1)`, the number is rounded to a
multiple of `2 ^ (e - 23)`, and to a multiple of `2 ^ (-149)` below the normal range
(`e < -126`).  A result of magnitude `2 ^ 128` or more stands for the overflow that the
source turns into an infinity. -/
def roundFloat (r : ℚ) : ℚ :=
  let e := max (Int.log 2 |r|) (-126)
  (roundHalfEven (r / 2 ^ (e - 23)) : ℚ) * 2 ^ (e - 23)

/-- The `float` sum `a + b`: the exact sum, rounded. -/
def floatAdd (a b : ℚ) : ℚ := roundFloat (a + b)

/-- Function `drawRect`, acting on `batch->list`.  The sums `pos.x + size.x` and
`pos.y + size.y` are `float` sums. -/
def drawRect (list : DrawList) (pos size : OglsVec2) (color : OglsVec3) : Option DrawList :=
  let vertices : List ℚ :=
    [ pos.x, floatAdd pos.y size.y, color.r, color.g, color.b,
      pos.x, pos.y, color.r, color.g, color.b,
      floatAdd pos.x size.x, pos.y, color.r, color.g, color.b,
      floatAdd pos.x size.x, floatAdd pos.y size.y, color.r, color.g, color.b ]
  let indices : List Nat := [0, 1, 2, 0, 2, 3]
  list.push_back
    { pVertices := vertices
      vertexCount := 4
      vertexSize := sizeofFloat
      vertexAttributeCount := 5
      pIndices := indices
      indexCount := indices.length }

/-- Function `drawLine`, acting on `batch->list`. -/
def drawLine (list : DrawList) (pos1 pos2 : OglsVec2) (color : OglsVec3) : Option DrawList :=
  let vertices : List ℚ :=
    [ pos1.x, pos1.y, color.r, color.g, color.b,
      pos2.x, pos2.y, color.r, color.g, color.b ]
  let indices : List Nat := [0, 1]
  list.push_back
    { pVertices := vertices
      vertexCount := 2
      vertexSize := sizeofFloat
      vertexAttributeCount := 5
      pIndices := indices
      indexCount := indices.length }

/-- Function `drawRectImmediate`, acting on `batch->list` (the upload and the draw call are
external). -/
def drawRectImmediate (list : DrawList) (pos size : OglsVec2) (color : OglsVec3) :
    Option DrawList :=
  drawRect list.clear pos size color

/-! ## Grid -/

/-- Alive flags of a grid: `spaces[i][j].alive`, or `aliveSpaces[i][j]`. -/
abbrev Cells := Nat → Nat → Bool

/-- Assignment `g[i][j] = v`. -/
def setAlive (g : Cells) (i j : Nat) (v : Bool) : Cells :=
  fun a b => if a = i ∧ b = j then v else g a b

/-- Bounds test for an access `g[x][y]` with `int` coordinates. -/
def inGrid (W H : Nat) (x y : Int) : Bool :=
  decide (0 ≤ x) && decide (x < (W : Int)) && decide (0 ≤ y) && decide (y < (H : Int))

/-- Coordinates visited by `for i in [1, W-1) for j in [1, H-1)`, in the order of the
source loops. -/
def interiorCells (W H : Nat) : List (Nat × Nat) :=
  (List.range' 1 (W - 2)).flatMap (fun i => (List.range' 1 (H - 2)).map (fun j => (i, j)))

/-- Coordinates visited by `for i in [0, W) for j in [0, H)`, in the order of the source
loops. -/
def allCells (W H : Nat) : List (Nat × Nat) :=
  (List.range W).flatMap (fun i => (List.range H).map (fun j => (i, j)))

/-- The neighbour count of the tick sweep: eight tests against `aliveSpaces`. -/
def countNeighbors (aliveSpaces : Cells) (i j : Nat) : Nat :=
  let neighbors := 0
  let neighbors := if aliveSpaces (i - 1) j then neighbors + 1 else neighbors
  let neighbors := if aliveSpaces (i + 1) j then neighbors + 1 else neighbors
  let neighbors := if aliveSpaces i (j - 1) then neighbors + 1 else neighbors
  let neighbors := if aliveSpaces i (j + 1) then neighbors + 1 else neighbors
  let neighbors := if aliveSpaces (i - 1) (j - 1) then neighbors + 1 else neighbors
  let neighbors := if aliveSpaces (i - 1) (j + 1) then neighbors + 1 else neighbors
  let neighbors := if aliveSpaces (i + 1) (j - 1) then neighbors + 1 else neighbors
  let neighbors := if aliveSpaces (i + 1) (j + 1) then neighbors + 1 else neighbors
  neighbors

/-- The `if / else if` chain of the tick sweep: the value of `cell.alive` after it. -/
def updateAlive (alive : Bool) (neighbors : Nat) : Bool :=
  if alive && decide (neighbors < 2) then false
  else if alive && decide (neighbors > 3) then false
  else if alive && (decide (neighbors = 2) || decide (neighbors = 3)) then true
  else if !alive && decide (neighbors = 3) then true
  else alive

/-- Position of the quad of cell `(i, j)`: `{cell.x * CELL_SPACE_SCALE, cell.y *
CELL_SPACE_SCALE}`.  `spaces[i][j].x` and `.y` are written once, at start-up, with `i`
and `j`.  The `float` product of an index below `2 ^ 20` and 13 is exact. -/
def cellPos (i j : Nat) : OglsVec2 := ⟨(i : ℚ) * CELL_SPACE_SCALE, (j : ℚ) * CELL_SPACE_SCALE⟩

/-- Position of the border marker of cell `(i, j)`: `{cell.x * CELL_SPACE_SCALE + 3.0f,
cell.y * CELL_SPACE_SCALE + 3.0f}`.  The `float` product and sum are exact for an index
below `2 ^ 20`. -/
def markerPos (i j : Nat) : OglsVec2 :=
  ⟨(i : ℚ) * CELL_SPACE_SCALE + 3, (j : ℚ) * CELL_SPACE_SCALE + 3⟩

/-- Body of the "calculate and draw cells" loops for one cell `(i, j)`: the update of
`cell.alive` when a tick is due, then the quad of the cell. -/
def sweepCell (doTick : Bool) (aliveSpaces : Cells) (st : Cells × DrawList) (ij : Nat × Nat) :
    Option (Cells × DrawList) :=
  let spaces :=
    if doTick then
      setAlive st.1 ij.1 ij.2 (updateAlive (st.1 ij.1 ij.2) (countNeighbors aliveSpaces ij.1 ij.2))
    else st.1
  let drawn :=
    if spaces ij.1 ij.2 then drawRect st.2 (cellPos ij.1 ij.2) ⟨10, 10⟩ COLOR_FG
    else drawRect st.2 (cellPos ij.1 ij.2) ⟨10, 10⟩ COLOR_FG2
  drawn.map (fun list => (spaces, list))

/-- A loop over the elements of a list with a fallible body: the body runs on each
element in turn, and the loop fails as soon as the body does. -/
def forEach {σ α : Type} (body : σ → α → Option σ) : List α → σ → Option σ
  | [], st => some st
  | a :: rest, st => (body st a).bind (forEach body rest)

/-- The "calculate and draw cells" loops, visiting the cells of `order` one after the
other.  The source order is `interiorCells W H`. -/
def sweep (doTick : Bool) (aliveSpaces : Cells) (order : List (Nat × Nat))
    (st : Cells × DrawList) : Option (Cells × DrawList) :=
  forEach (sweepCell doTick aliveSpaces) order st

/-- The shadow refresh loops: `aliveSpaces[i][j] = spaces[i][j].alive` for the visited
cells. -/
def refresh (spaces : Cells) (order : List (Nat × Nat)) (aliveSpaces : Cells) : Cells :=
  order.foldl (fun a ij => setAlive a ij.1 ij.2 (spaces ij.1 ij.2)) aliveSpaces

/-- Body of the first border loop for index `i`: `Cell& cell = spaces[i][0]` is a
reference, so `cell.alive = false` writes the grid; `Cell cell2 = spaces[i].back()` is a
copy, so `cell2.alive = false` changes the local `cell2` only.  Both get a marker. -/
def borderStepX (H : Nat) (st : Cells × DrawList) (i : Nat) : Option (Cells × DrawList) :=
  let spaces := setAlive st.1 i 0 false
  (drawRect st.2 (markerPos i 0) ⟨4, 4⟩ COLOR_RED).bind fun list =>
  (drawRect list (markerPos i (H - 1)) ⟨4, 4⟩ COLOR_RED).map fun list2 => (spaces, list2)

/-- Body of the second border loop for index `i`: `Cell& cell = spaces[0][i]` is a
reference; `Cell cell2 = spaces.back()[i]` is a copy. -/
def borderStepY (W : Nat) (st : Cells × DrawList) (i : Nat) : Option (Cells × DrawList) :=
  let spaces := setAlive st.1 0 i false
  (drawRect st.2 (markerPos 0 i) ⟨4, 4⟩ COLOR_RED).bind fun list =>
  (drawRect list (markerPos (W - 1) i) ⟨4, 4⟩ COLOR_RED).map fun list2 => (spaces, list2)

/-- The "check for cells on border" loops. -/
def borderPass (W H : Nat) (st : Cells × DrawList) : Option (Cells × DrawList) :=
  (forEach (borderStepX H) (List.range W) st).bind (forEach (borderStepY W) (List.range H))

/-! ## Program state -/

/-- The variables of `main` that the frame loop reads and writes (camera, timers and the
button caption left out). -/
structure Sim where
  spaces : Cells
  aliveSpaces : Cells
  list : DrawList
  generation : Nat
  pause : Bool
  iterate : Bool
  p_open : Bool
  pressOnce : Bool
  editx : Int
  edity : Int
  distribution : Int
  concentration : Int
  concRadius : Int

/-- Condition `(!pause && calculate) || iterate` under which a frame computes a tick. -/
def tickDue (s : Sim) (calculate : Bool) : Bool := (!s.pause && calculate) || s.iterate

/-- First half of a frame: `clearDrawList`, the generation counter, the sweep, the shadow
refresh and the border pass, up to `submitDrawList`.  `calculate` is the outcome of
`timeStep.elapsed() >= timeInt`. -/
def simPhase (W H : Nat) (s : Sim) (calculate : Bool) : Option Sim :=
  let list := s.list.clear
  let generation := if tickDue s calculate then (s.generation + 1) % 2 ^ 32 else s.generation
  (sweep (tickDue s calculate) s.aliveSpaces (interiorCells W H) (s.spaces, list)).bind fun st =>
  let aliveSpaces := refresh st.1 (interiorCells W H) s.aliveSpaces
  (borderPass W H st).map fun st2 =>
  { s with spaces := st2.1, aliveSpaces := aliveSpaces, list := st2.2, generation := generation }

/-! ## Settings panel -/

/-- What the window system and the UI library report during one frame: the timer test,
the keys, the buttons that return `true`, the open headers, the slider edits and the
values returned by the successive `rand()` calls. -/
structure Input where
  calculate : Bool := false
  keyC : Bool := false
  closeSettings : Bool := false
  btnPause : Bool := false
  btnIterate : Bool := false
  btnClear : Bool := false
  hdrEditor : Bool := false
  keyK : Bool := false
  keyH : Bool := false
  keyL : Bool := false
  keyJ : Bool := false
  keySpace : Bool := false
  btnUp : Bool := false
  btnLeft : Bool := false
  btnRight : Bool := false
  btnDown : Bool := false
  btnPlace : Bool := false
  btnRemove : Bool := false
  btnCursorToCenter : Bool := false
  btnFillAll : Bool := false
  btnRemoveAll : Bool := false
  btnFillRandomly : Bool := false
  rand : Nat → Nat := fun _ => 0
  sliderDistribution : Option Int := none
  sliderConcentration : Option Int := none
  sliderConcRadius : Option Int := none
  hdrPresets : Bool := false
  btnBeacon : Bool := false
  btnGlider : Bool := false
  btnGosper : Bool := false
  btnRPentomino : Bool := false
  btnPentaDecathlon : Bool := false
  btnReset : Bool := false

/-- The pair of assignments `spaces[i][j].alive = v; aliveSpaces[i][j] = v`. -/
def writeBoth (s : Sim) (i j : Nat) (v : Bool) : Sim :=
  { s with spaces := setAlive s.spaces i j v, aliveSpaces := setAlive s.aliveSpaces i j v }

/-- The same pair of assignments at `int` coordinates; outside the grid the access is
undefined. -/
def writeAt (W H : Nat) (s : Sim) (x y : Int) (v : Bool) : Option Sim :=
  if inGrid W H x y then some (writeBoth s x.toNat y.toNat v) else none

/-- The space key: `spaces[editx][edity].alive = !spaces[editx][edity].alive` and the same
for `aliveSpaces`, at the cursor as it stands. -/
def toggleAt (W H : Nat) (s : Sim) (x y : Int) : Option Sim :=
  if inGrid W H x y then
    some { s with
      spaces := setAlive s.spaces x.toNat y.toNat (!s.spaces x.toNat y.toNat)
      aliveSpaces := setAlive s.aliveSpaces x.toNat y.toNat (!s.aliveSpaces x.toNat y.toNat) }
  else none

/-- The loops `for i for j { spaces[i][j].alive = v; aliveSpaces[i][j] = v; }` over the
whole grid ("Clear", "Fill all cells", "Remove all cells"). -/
def fillBoth (W H : Nat) (v : Bool) (s : Sim) : Sim :=
  (allCells W H).foldl (fun t ij => writeBoth t ij.1 ij.2 v) s

/-- A preset button: the whole grid is cleared, then each listed offset from
`(x, y) = (W / 2, H / 2)` is set alive in both arrays. -/
def loadPattern (W H : Nat) (offsets : List (Int × Int)) (s : Sim) : Option Sim :=
  forEach
    (fun t d => writeAt W H t (((W / 2 : Nat) : Int) + d.1) (((H / 2 : Nat) : Int) + d.2) true)
    offsets (fillBoth W H false s)

/-- Offsets written by the "Beacon" button. -/
def beaconOffsets : List (Int × Int) :=
  [(0, 0), (1, 0), (0, -1), (3, -2), (3, -3), (2, -3)]

/-- Offsets written by the "Glider" button. -/
def gliderOffsets : List (Int × Int) :=
  [(0, 0), (1, 0), (2, 0), (1, 2), (2, 1)]

/-- Offsets written by the "Gosper glider gun" button. -/
def gosperOffsets : List (Int × Int) :=
  [(-1, -1), (-2, 0), (-2, -1), (-2, -2), (-3, 1), (-3, -3), (-4, -1), (-5, 2), (-5, -4),
   (-6, 2), (-6, -4), (-7, 1), (-7, -3), (-8, 0), (-8, -1), (-8, -2), (-17, 0), (-17, -1),
   (-18, 0), (-18, -1), (2, 0), (2, 1), (2, 2), (3, 0), (3, 1), (3, 2), (4, -1), (4, 3),
   (6, 3), (6, 4), (6, -1), (6, -2), (16, 1), (16, 2), (17, 1), (17, 2)]

/-- Offsets written by the "R-pentomino" button, by "Reset" and at start-up. -/
def rPentominoOffsets : List (Int × Int) :=
  [(0, 0), (0, 1), (-1, 0), (0, -1), (1, -1)]

/-- Offsets written by the "Penta-decathlon" button. -/
def pentaDecathlonOffsets : List (Int × Int) :=
  [(0, 0), (-1, 0), (-2, 1), (-2, -1), (-3, 0), (-4, 0), (1, 0), (2, 0), (3, 1), (3, -1),
   (4, 0), (5, 0)]

/-- Integers `lo, lo + 1, ..., hi - 1`: the values of a loop `for (int k = lo; k < hi; k++)`. -/
def intRange (lo hi : Int) : List Int :=
  (List.range (hi - lo).toNat).map (fun t => lo + (t : Int))

/-- Clamp of `left` in "Fill Randomly": first `< 0`, then `> CELL_SPACE_WIDTH - 1`. -/
def clampLeft (W : Nat) (k : Int) : Int :=
  let left := k
  let left := if left < 0 then 0 else left
  let left := if left > (W : Int) - 1 then (W : Int) - 1 else left
  left

/-- Clamp of `bottom` in "Fill Randomly": first `> CELL_SPACE_HEIGHT - 1`, then `< 0`. -/
def clampBottom (H : Nat) (l : Int) : Int :=
  let bottom := l
  let bottom := if bottom > (H : Int) - 1 then (H : Int) - 1 else bottom
  let bottom := if bottom < 0 then 0 else bottom
  bottom

/-- Grid and number of `rand()` calls made so far, inside "Fill Randomly". -/
structure RandGrid where
  sim : Sim
  calls : Nat

/-- Innermost body of "Fill Randomly" for the loop values `(k, l)`: one `rand()` call
decides the clamped cell. -/
def contaminate (W H : Nat) (rand : Nat → Nat) (concentration : Int) (st : RandGrid)
    (kl : Int × Int) : Option RandGrid :=
  let left := clampLeft W kl.1
  let bottom := clampBottom H kl.2
  let neighborAlive : Bool := decide (Int.tmod (rand st.calls : Int) 100 + 1 ≤ concentration)
  (writeAt W H st.sim left bottom neighborAlive).map fun t =>
    { sim := t, calls := st.calls + 1 }

/-- Values `(k, l)` of the two inner loops of "Fill Randomly" around `(i, j)`. -/
def neighbourhood (i j : Nat) (concRadius : Int) : List (Int × Int) :=
  (intRange ((i : Int) - concRadius) ((i : Int) + concRadius)).flatMap fun k =>
    (intRange ((j : Int) - concRadius) ((j : Int) + concRadius)).map fun l => (k, l)

/-- Body of the outer loops of "Fill Randomly" for the cell `(i, j)`.  `rand() %
distribution` with `distribution == 0` is undefined. -/
def fillRandomCell (W H : Nat) (rand : Nat → Nat) (distribution concentration concRadius : Int)
    (st : RandGrid) (ij : Nat × Nat) : Option RandGrid :=
  if distribution = 0 then none
  else
    let alive : Bool := decide (Int.tmod (rand st.calls : Int) distribution = 0)
    let st1 : RandGrid := { sim := writeBoth st.sim ij.1 ij.2 alive, calls := st.calls + 1 }
    if alive then
      forEach (contaminate W H rand concentration) (neighbourhood ij.1 ij.2 concRadius) st1
    else some st1

/-- The "Fill Randomly" button. -/
def fillRandomly (W H : Nat) (rand : Nat → Nat) (s : Sim) : Option Sim :=
  (forEach (fillRandomCell W H rand s.distribution s.concentration s.concRadius)
    (allCells W H) { sim := s, calls := 0 }).map fun st => st.sim

/-- Handling of the `c` key: the panel flips on a press that follows a release. -/
def panelToggle (s : Sim) (key : Bool) : Sim :=
  if key && !s.pressOnce then { s with p_open := !s.p_open, pressOnce := true }
  else if !key then { s with pressOnce := false }
  else s

/-- The "pause"/"Play" button. -/
def pauseButton (s : Sim) : Sim :=
  if s.pause then { s with pause := false } else { s with pause := true }

/-- Clamp of the edit cursor to the grid. -/
def clampCursor (W H : Nat) (s : Sim) : Sim :=
  let editx := if s.editx > (W : Int) - 1 then (W : Int) - 1 else s.editx
  let editx := if editx < 0 then 0 else editx
  let edity := if s.edity > (H : Int) - 1 then (H : Int) - 1 else s.edity
  let edity := if edity < 0 then 0 else edity
  { s with editx := editx, edity := edity }

/-- Value of an `int` after an optional slider edit. -/
def slide (v : Int) (edit : Option Int) : Int := edit.getD v

/-- A press that does `edity++` (key `k`, button `^`). -/
def cursorUp (pressed : Bool) (s : Sim) : Sim :=
  if pressed then { s with edity := s.edity + 1 } else s

/-- A press that does `editx--` (key `h`, button `<`). -/
def cursorLeft (pressed : Bool) (s : Sim) : Sim :=
  if pressed then { s with editx := s.editx - 1 } else s

/-- A press that does `editx++` (key `l`, button `>`). -/
def cursorRight (pressed : Bool) (s : Sim) : Sim :=
  if pressed then { s with editx := s.editx + 1 } else s

/-- A press that does `edity--` (key `j`, button `v`). -/
def cursorDown (pressed : Bool) (s : Sim) : Sim :=
  if pressed then { s with edity := s.edity - 1 } else s

/-- The "Cursor to center" button. -/
def cursorToCenter (W H : Nat) (pressed : Bool) (s : Sim) : Sim :=
  if pressed then { s with editx := ((W / 2 : Nat) : Int), edity := ((H / 2 : Nat) : Int) }
  else s

/-- The three sliders of the "Editor" header. -/
def sliders (s : Sim) (inp : Input) : Sim :=
  { s with
    distribution := slide s.distribution inp.sliderDistribution
    concentration := slide s.concentration inp.sliderConcentration
    concRadius := slide s.concRadius inp.sliderConcRadius }

/-- The cursor marker drawn at the end of the "Editor" header with `drawRectImmediate`. -/
def drawCursor (s : Sim) : Option Sim :=
  (drawRectImmediate s.list
      ⟨(s.editx : ℚ) * CELL_SPACE_SCALE + 3, (s.edity : ℚ) * CELL_SPACE_SCALE + 3⟩ ⟨4, 4⟩
      COLOR_RED).map fun list =>
  { s with list := list }

/-- Body of the "Editor" header, in the order of the source: the four keys, the space key
(before the clamp), the four buttons, the clamp, "Place Cell", "Remove Cell", "Cursor to
center", "Fill all cells", "Remove all cells", "Fill Randomly", the sliders, the cursor
marker. -/
def editorPanel (W H : Nat) (s : Sim) (inp : Input) : Option Sim :=
  let s := cursorUp inp.keyK s
  let s := cursorLeft inp.keyH s
  let s := cursorRight inp.keyL s
  let s := cursorDown inp.keyJ s
  (if inp.keySpace then toggleAt W H s s.editx s.edity else some s).bind fun s =>
  let s := cursorUp inp.btnUp s
  let s := cursorLeft inp.btnLeft s
  let s := cursorRight inp.btnRight s
  let s := cursorDown inp.btnDown s
  let s := clampCursor W H s
  (if inp.btnPlace then writeAt W H s s.editx s.edity true else some s).bind fun s =>
  (if inp.btnRemove then writeAt W H s s.editx s.edity false else some s).bind fun s =>
  let s := cursorToCenter W H inp.btnCursorToCenter s
  let s := if inp.btnFillAll then fillBoth W H true s else s
  let s := if inp.btnRemoveAll then fillBoth W H false s else s
  (if inp.btnFillRandomly then fillRandomly W H inp.rand s else some s).bind fun s =>
  drawCursor (sliders s inp)

/-- Body of the "Presets" header. -/
def presetsPanel (W H : Nat) (s : Sim) (inp : Input) : Option Sim :=
  (if inp.btnBeacon then loadPattern W H beaconOffsets s else some s).bind fun s =>
  (if inp.btnGlider then loadPattern W H gliderOffsets s else some s).bind fun s =>
  (if inp.btnGosper then loadPattern W H gosperOffsets s else some s).bind fun s =>
  (if inp.btnRPentomino then loadPattern W H rPentominoOffsets s else some s).bind fun s =>
  (if inp.btnPentaDecathlon then loadPattern W H pentaDecathlonOffsets s else some s)

/-- The "Reset" button. -/
def resetButton (W H : Nat) (s : Sim) : Option Sim :=
  loadPattern W H rPentominoOffsets { s with generation := 0 }

/-- The close box of the settings window: `ImGui::Begin("Settings", &p_open)`. -/
def closeBox (pressed : Bool) (s : Sim) : Sim :=
  if pressed then { s with p_open := false } else s

/-- The statements `iterate = false; if (ImGui::Button("Iterate")) iterate = true;`. -/
def iterateButton (pressed : Bool) (s : Sim) : Sim :=
  let s1 := { s with iterate := false }
  if pressed then { s1 with iterate := true } else s1

/-- Body of `if (p_open) { ... }`: the settings window. -/
def settingsPanel (W H : Nat) (s : Sim) (inp : Input) : Option Sim :=
  let s := closeBox inp.closeSettings s
  let s := if inp.btnPause then pauseButton s else s
  let s := iterateButton inp.btnIterate s
  let s := if inp.btnClear then fillBoth W H false s else s
  (if inp.hdrEditor then editorPanel W H s inp else some s).bind fun s =>
  (if inp.hdrPresets then presetsPanel W H s inp else some s).bind fun s =>
  (if inp.btnReset then resetButton W H s else some s)

/-- Second half of a frame: the `c` key, then the settings window when it is open. -/
def uiPhase (W H : Nat) (s : Sim) (inp : Input) : Option Sim :=
  let s := panelToggle s inp.keyC
  if s.p_open then settingsPanel W H s inp else some s

/-- One iteration of the frame loop of `main`. -/
def frame (W H : Nat) (s : Sim) (inp : Input) : Option Sim :=
  (simPhase W H s inp.calculate).bind fun s1 => uiPhase W H s1 inp

/-- Successive frames, one per input. -/
def run (W H : Nat) (s : Sim) (inps : List Input) : Option Sim :=
  forEach (frame W H) inps s

/-- The variables of `main` before the grid is filled: both arrays dead, an empty draw
list, the declared initial values. -/
def blankSim : Sim :=
  { spaces := fun _ _ => false
    aliveSpaces := fun _ _ => false
    list := { m_VerticesRaw := [], m_Indices := [], m_DrawCommands := [], m_Vertices := 0 }
    generation := 0
    pause := false
    iterate := false
    p_open := false
    pressOnce := false
    editx := ((CELL_SPACE_WIDTH / 2 : Nat) : Int)
    edity := ((CELL_SPACE_HEIGHT / 2 : Nat) : Int)
    distribution := 2
    concentration := 33
    concRadius := 6 }

/-- The state of `main` when the frame loop is entered: the R-pentomino around the centre. -/
def initSim : Option Sim :=
  forEach
    (fun t d => writeAt CELL_SPACE_WIDTH CELL_SPACE_HEIGHT t
      (((CELL_SPACE_WIDTH / 2 : Nat) : Int) + d.1) (((CELL_SPACE_HEIGHT / 2 : Nat) : Int) + d.2)
      true)
    rPentominoOffsets blankSim

/-! ## Closed forms used in the statements -/

/-- Indices stored by `k` successive quads on a cleared list, without any reduction
modulo `2 ^ 32`: quad number `q` contributes `4 q + 0, 1, 2, 0, 2, 3`. -/
def quadIndices (k : Nat) : List Nat :=
  (List.range k).flatMap (fun q => [4 * q, 4 * q + 1, 4 * q + 2, 4 * q, 4 * q + 2, 4 * q + 3])

/-- Shape of a draw list that holds exactly `k` quads: `4 k` vertices, `20 k` floats, the
indices `quadIndices k`, and `k` commands as `drawRect` builds them. -/
def QuadInv (k : Nat) (l : DrawList) : Prop :=
  l.m_Vertices = 4 * k ∧ l.m_Indices = quadIndices k ∧ l.m_VerticesRaw.length = 20 * k ∧
    l.m_DrawCommands.length = k ∧
    ∀ c ∈ l.m_DrawCommands, c.pIndices = [0, 1, 2, 0, 2, 3] ∧ c.indexCount = 6 ∧ c.vertexCount = 4

/-- Grid part of `sweepCell`. -/
def sweepCellGrid (doTick : Bool) (aliveSpaces : Cells) (g : Cells) (ij : Nat × Nat) : Cells :=
  if doTick then
    setAlive g ij.1 ij.2 (updateAlive (g ij.1 ij.2) (countNeighbors aliveSpaces ij.1 ij.2))
  else g

/-- Grid part of `borderPass`. -/
def borderGrid (W H : Nat) (g : Cells) : Cells :=
  (List.range H).foldl (fun t i => setAlive t 0 i false)
    ((List.range W).foldl (fun t i => setAlive t i 0 false) g)

/-- Number of quads of one frame. -/
def quadCount (W H : Nat) : Nat := (W - 2) * (H - 2) + 2 * W + 2 * H

/-- Test `1 <= x < W - 1` and `1 <= y < H - 1`: the cell is visited by the sweep. -/
def isInterior (W H x y : Nat) : Bool :=
  decide (1 ≤ x) && decide (x + 1 < W) && decide (1 ≤ y) && decide (y + 1 < H)

/-- Cells written by the references of the border pass: `spaces[i][0]` and `spaces[0][i]`. -/
def isCleared (W H x y : Nat) : Bool :=
  (decide (y = 0) && decide (x < W)) || (decide (x = 0) && decide (y < H))

/-- Closed form of `spaces` after the first half of a frame. -/
def nextSpaces (W H : Nat) (doTick : Bool) (spaces aliveSpaces : Cells) : Cells :=
  fun x y =>
    if isCleared W H x y then false
    else if doTick && isInterior W H x y then
      updateAlive (spaces x y) (countNeighbors aliveSpaces x y)
    else spaces x y

/-- Closed form of `aliveSpaces` after the first half of a frame. -/
def nextAlive (W H : Nat) (doTick : Bool) (spaces aliveSpaces : Cells) : Cells :=
  fun x y =>
    if isInterior W H x y then
      (if doTick then updateAlive (spaces x y) (countNeighbors aliveSpaces x y) else spaces x y)
    else aliveSpaces x y

/-- Closed form of `spaces` after the sweep alone. -/
def sweptSpaces (W H : Nat) (doTick : Bool) (spaces aliveSpaces : Cells) : Cells :=
  fun x y =>
    if doTick && isInterior W H x y then
      updateAlive (spaces x y) (countNeighbors aliveSpaces x y)
    else spaces x y

/-! ## Specification-side definitions for the tick rule -/

/-- Transition table `next(alive, liveNeighborCount)` of the specification (§4.4). -/
def specNext (alive : Bool) (neighbors : Nat) : Bool :=
  match alive with
  | true => if neighbors < 2 then false else if neighbors = 2 ∨ neighbors = 3 then true else false
  | false => if neighbors = 3 then true else false

/-- The eight cells of the Moore neighbourhood of `(x, y)`. -/
def mooreNeighbours (x y : Nat) : List (Nat × Nat) :=
  [(x - 1, y - 1), (x - 1, y), (x - 1, y + 1), (x, y - 1), (x, y + 1),
   (x + 1, y - 1), (x + 1, y), (x + 1, y + 1)]

/-- Number of Moore neighbours of `(x, y)` that are alive in `alive`. -/
def liveNeighbours (alive : Cells) (x y : Nat) : Nat :=
  ((mooreNeighbours x y).filter (fun p => alive p.1 p.2)).length

/-! ## Closed forms of the bulk operations -/

/-- Closed form of a grid after the loops of `fillBoth`. -/
def filled (W H : Nat) (v : Bool) (g : Cells) : Cells :=
  fun x y => if x < W ∧ y < H then v else g x y


/-! ## Patterns -/

/-- Closed form of a grid after a preset button: alive at the listed offsets from the
centre, dead elsewhere on the grid. -/
def patternCells (W H : Nat) (offsets : List (Int × Int)) (g : Cells) : Cells :=
  fun x y =>
    if ((x : Int) - ((W / 2 : Nat) : Int), (y : Int) - ((H / 2 : Nat) : Int)) ∈ offsets then true
    else filled W H false g x y

/-- Grid whose alive cells are the listed ones. -/
def ofList (L : List (Nat × Nat)) : Cells := fun x y => decide ((x, y) ∈ L)

/-- On the `W x H` grid, the alive cells of `g` are exactly the cells of `L`. -/
def LiveExactly (W H : Nat) (g : Cells) (L : List (Nat × Nat)) : Prop :=
  ∀ x y, x < W → y < H → (g x y = true ↔ (x, y) ∈ L)

/-- Frame input: the timer test `calculate`, and nothing pressed. -/
def timerOnly (calculate : Bool) : Input := { calculate := calculate }

/-! ## The glider -/

/-- The five cells of the Glider preset with origin `(x, y)`. -/
def gliderAt (x y : Nat) : List (Nat × Nat) :=
  [(x, y), (x + 1, y), (x + 2, y), (x + 1, y + 2), (x + 2, y + 1)]

/-- Frame input: the "Glider" button of the open "Presets" header. -/
def pressGlider (calculate : Bool) : Input :=
  { calculate := calculate, hdrPresets := true, btnGlider := true }

/-- Second generation of the glider loaded at the centre of the 120 x 120 grid. -/
def gliderGen1 : List (Nat × Nat) := [(60, 61), (61, 59), (61, 60), (62, 60), (62, 61)]

/-- Third generation of that glider. -/
def gliderGen2 : List (Nat × Nat) := [(60, 60), (61, 59), (62, 59), (62, 60), (62, 61)]

/-- Fourth generation of that glider. -/
def gliderGen3 : List (Nat × Nat) := [(61, 59), (61, 61), (62, 59), (62, 60), (63, 60)]

/-! ## Commands and lists for the draw list properties -/

/-- Well-formed command for `push_back`: the fields are `uint32_t` values, the index array
holds `indexCount` indices, each below `vertexCount`, and the vertex array holds
`vertexCount * vertexAttributeCount` floats. -/
def DrawCommand.WellFormed (c : DrawCommand) : Prop :=
  c.vertexCount < 2 ^ 32 ∧ c.vertexAttributeCount < 2 ^ 32 ∧ c.indexCount < 2 ^ 32 ∧
    c.pIndices.length = c.indexCount ∧ (∀ v ∈ c.pIndices, v < c.vertexCount) ∧
    c.pVertices.length = c.vertexCount * c.vertexAttributeCount

/-- Indices the specification expects in the list: for each command in turn, its local
indices plus the number of vertices of the commands before it (`before` to start with). -/
def offsetIndices (before : Nat) : List DrawCommand → List Nat
  | [] => []
  | c :: cs =>
    (c.pIndices.take c.indexCount).map (fun v => v + before) ++
      offsetIndices (before + c.vertexCount) cs

/-- Sum of the `vertexCount` fields. -/
def totalVertices (cmds : List DrawCommand) : Nat := (cmds.map (fun c => c.vertexCount)).sum

/-- Sum of the `indexCount` fields. -/
def totalIndices (cmds : List DrawCommand) : Nat := (cmds.map (fun c => c.indexCount)).sum

/-- A command of `2 ^ 32 - 1` vertices that carry no attribute, and no index. -/
def wideCmd : DrawCommand :=
  { pVertices := [], pIndices := [], vertexCount := 4294967295, vertexSize := 4,
    vertexAttributeCount := 0, indexCount := 0 }

/-- A command of one vertex without attribute, referenced by `n` indices. -/
def manyIndexCmd (n : Nat) : DrawCommand :=
  { pVertices := [], pIndices := List.replicate n 0, vertexCount := 1, vertexSize := 4,
    vertexAttributeCount := 0, indexCount := n }

/-- A line command as `drawLine` builds it: two vertices of five floats, indices `0, 1`. -/
def lineCmd : DrawCommand :=
  { pVertices := [0, 0, 1, 1, 1, 1, 1, 1, 1, 1], pIndices := [0, 1], vertexCount := 2,
    vertexSize := 4, vertexAttributeCount := 5, indexCount := 2 }

/-- An empty draw list. -/
def emptyList : DrawList :=
  { m_VerticesRaw := [], m_Indices := [], m_DrawCommands := [], m_Vertices := 0 }

/-- A draw list that holds one line. -/
def usedList : DrawList :=
  { m_VerticesRaw := lineCmd.pVertices, m_Indices := [0, 1], m_DrawCommands := [lineCmd],
    m_Vertices := 2 }

/-- The calls `drawRect` then `drawLine` on `batch->list`. -/
def rectThenLine (list : DrawList) (pos size : OglsVec2) (color : OglsVec3)
    (pos1 pos2 : OglsVec2) (color2 : OglsVec3) : Option DrawList :=
  (drawRect list pos size color).bind fun l1 => drawLine l1 pos1 pos2 color2

/-! ## Randomize -/

/-- Both arrays hold `true` at `(x, y)`. -/
def AliveBoth (x y : Nat) (s : Sim) : Prop := s.spaces x y = true ∧ s.aliveSpaces x y = true

/-! ## Frame inputs for the panel -/

/-- Whether the settings window is processed in a frame: `p_open` after the `c` key. -/
def panelShown (s : Sim) (inp : Input) : Bool :=
  if inp.keyC && !s.pressOnce then !s.p_open else s.p_open

/-- Frame input: the `c` key held down. -/
def pressC (calculate : Bool) : Input := { calculate := calculate, keyC := true }

/-- Frame input: the "pause" button. -/
def clickPause (calculate : Bool) : Input := { calculate := calculate, btnPause := true }

/-- Frame input: the "Iterate" button. -/
def clickIterate (calculate : Bool) : Input := { calculate := calculate, btnIterate := true }

/-! ## Frame inputs and lists for the border properties -/

/-- The draw list left by `drawRectImmediate`: one quad. -/
def immediateRect (pos size : OglsVec2) (color : OglsVec3) : DrawList :=
  { m_VerticesRaw :=
      [ pos.x, floatAdd pos.y size.y, color.r, color.g, color.b,
        pos.x, pos.y, color.r, color.g, color.b,
        floatAdd pos.x size.x, pos.y, color.r, color.g, color.b,
        floatAdd pos.x size.x, floatAdd pos.y size.y, color.r, color.g, color.b ]
    m_Indices := [0, 1, 2, 0, 2, 3]
    m_DrawCommands :=
      [ { pVertices :=
            [ pos.x, floatAdd pos.y size.y, color.r, color.g, color.b,
              pos.x, pos.y, color.r, color.g, color.b,
              floatAdd pos.x size.x, pos.y, color.r, color.g, color.b,
              floatAdd pos.x size.x, floatAdd pos.y size.y, color.r, color.g, color.b ]
          pIndices := [0, 1, 2, 0, 2, 3]
          vertexCount := 4
          vertexSize := sizeofFloat
          vertexAttributeCount := 5
          indexCount := 6 } ]
    m_Vertices := 4 }

/-- Frame input: the "Fill all cells" button of the open "Editor" header. -/
def clickFillAll (calculate : Bool) : Input :=
  { calculate := calculate, hdrEditor := true, btnFillAll := true }

/-! ## Counting single steps -/

/-- Number of inputs of a run in which "Iterate" is pressed. -/
def iterateClicks (inps : List Input) : Nat := (inps.filter (fun inp => inp.btnIterate)).length

/-- Ticks owed by a state: `1` when `iterate` is set, `0` otherwise. -/
def pendingTick (s : Sim) : Nat := if s.iterate then 1 else 0

/-! ## Agreement of the two arrays -/

/-- The shadow array agrees with the cell array at `(x, y)`. -/
def InSync (x y : Nat) (s : Sim) : Prop := s.aliveSpaces x y = s.spaces x y

/-- States of the program at the start of a frame: the state in which the frame loop is
entered, and every state a frame returns from such a state, whatever the input (the edits
and the bulk operations are part of a frame). -/
inductive Reachable : Sim → Prop
  | start (s : Sim) : initSim = some s → Reachable s
  | step (s s1 : Sim) (inp : Input) : Reachable s →
      frame CELL_SPACE_WIDTH CELL_SPACE_HEIGHT s inp = some s1 → Reachable s1

/-! ## Geometry of a quad -/

/-- The command that `drawRect` hands to `push_back`: its local `vertices` and `indices`
arrays and the four counts. -/
def rectCommand (pos size : OglsVec2) (color : OglsVec3) : DrawCommand :=
  { pVertices :=
      [ pos.x, floatAdd pos.y size.y, color.r, color.g, color.b,
        pos.x, pos.y, color.r, color.g, color.b,
        floatAdd pos.x size.x, pos.y, color.r, color.g, color.b,
        floatAdd pos.x size.x, floatAdd pos.y size.y, color.r, color.g, color.b ]
    vertexCount := 4
    vertexSize := sizeofFloat
    vertexAttributeCount := 5
    pIndices := [0, 1, 2, 0, 2, 3]
    indexCount := 6 }

/-- Position attribute of vertex `k` of an interleaved array of 5 floats per vertex. -/
def vertexPos (floats : List ℚ) (k : Nat) : ℚ × ℚ :=
  (floats.getD (5 * k) 0, floats.getD (5 * k + 1) 0)

/-- Colour attribute of vertex `k` of an interleaved array of 5 floats per vertex. -/
def vertexColor (floats : List ℚ) (k : Nat) : ℚ × ℚ × ℚ :=
  (floats.getD (5 * k + 2) 0, floats.getD (5 * k + 3) 0, floats.getD (5 * k + 4) 0)

/-- Twice the signed area of the triangle `a b c`. -/
def twiceArea (a b c : ℚ × ℚ) : ℚ :=
  (b.1 - a.1) * (c.2 - a.2) - (c.1 - a.1) * (b.2 - a.2)

/-- Triangle number `t` of an index array: the positions of its three corners. -/
def trianglePos (floats : List ℚ) (indices : List Nat) (t : Nat) : (ℚ × ℚ) × (ℚ × ℚ) × (ℚ × ℚ) :=
  (vertexPos floats (indices.getD (3 * t) 0), vertexPos floats (indices.getD (3 * t + 1) 0),
   vertexPos floats (indices.getD (3 * t + 2) 0))

/-- Twice the signed area of triangle number `t` of an index array. -/
def triangleTwiceArea (floats : List ℚ) (indices : List Nat) (t : Nat) : ℚ :=
  twiceArea (trianglePos floats indices t).1 (trianglePos floats indices t).2.1
    (trianglePos floats indices t).2.2

/-- The point `p` lies in the closed triangle `a b c`, whose corners are listed so that
`twiceArea a b c` is positive. -/
def InTriangle (a b c p : ℚ × ℚ) : Prop :=
  0 ≤ twiceArea a b p ∧ 0 ≤ twiceArea b c p ∧ 0 ≤ twiceArea c a p

/-! ## The preset buttons -/

/-- The five buttons of the "Presets" header. -/
inductive Preset
  | beacon
  | glider
  | gosper
  | rPentomino
  | pentaDecathlon

/-- Offsets from the centre that the button of a preset writes. -/
def Preset.offsets : Preset → List (Int × Int)
  | .beacon => beaconOffsets
  | .glider => gliderOffsets
  | .gosper => gosperOffsets
  | .rPentomino => rPentominoOffsets
  | .pentaDecathlon => pentaDecathlonOffsets

/-- Input of the "Presets" header with the button of one preset pressed. -/
def Preset.press : Preset → Input
  | .beacon => { hdrPresets := true, btnBeacon := true }
  | .glider => { hdrPresets := true, btnGlider := true }
  | .gosper => { hdrPresets := true, btnGosper := true }
  | .rPentomino => { hdrPresets := true, btnRPentomino := true }
  | .pentaDecathlon => { hdrPresets := true, btnPentaDecathlon := true }

/-! ## The quads of the sweep -/

/-- The command of the quad that the sweep draws for cell `ij` when the alive flags are
`spaces`: position `cellPos`, size `10 x 10`, `COLOR_FG` for a live cell and `COLOR_FG2`
for a dead one. -/
def cellQuad (spaces : Cells) (ij : Nat × Nat) : DrawCommand :=
  rectCommand (cellPos ij.1 ij.2) ⟨10, 10⟩ (if spaces ij.1 ij.2 then COLOR_FG else COLOR_FG2)

/-- The list `l1` continues `l`: the commands and the floats of `l` are a prefix of those
of `l1`. -/
def DrawList.Continues (l l1 : DrawList) : Prop :=
  l.m_DrawCommands <+: l1.m_DrawCommands ∧ l.m_VerticesRaw <+: l1.m_VerticesRaw

/-- A state whose only live cell is `(1, 1)`, in both arrays. -/
def loneCell : Sim :=
  { blankSim with spaces := ofList [(1, 1)], aliveSpaces := ofList [(1, 1)] }

/-! ## Editing on the bottom row -/

/-- Frame input with the "Editor" header open: the keys `j` and `h`, the space key, and
the buttons "Place Cell" and "Remove all cells". -/
def editorInput (keyJ keyH keySpace place removeAll : Bool) : Input :=
  { hdrEditor := true, keyJ := keyJ, keyH := keyH, keySpace := keySpace, btnPlace := place,
    btnRemoveAll := removeAll }

/-- The settings window is open on the 120 x 120 grid, the simulation runs, no single step
is pending, the cursor is at `(cx, cy)`, and the live cells of the cell array and of the
shadow array are those of `Ls` and of `La`. -/
def Editing (s : Sim) (cx cy : Nat) (Ls La : List (Nat × Nat)) : Prop :=
  s.p_open = true ∧ s.iterate = false ∧ s.pause = false ∧
    s.editx = (cx : Int) ∧ s.edity = (cy : Int) ∧
    LiveExactly CELL_SPACE_WIDTH CELL_SPACE_HEIGHT s.spaces Ls ∧
    LiveExactly CELL_SPACE_WIDTH CELL_SPACE_HEIGHT s.aliveSpaces La

/-! ## The edit cursor -/

/-- The edit cursor of `s` is `(a, b)`. -/
def CursorAt (a b : Int) (s : Sim) : Prop := s.editx = a ∧ s.edity = b

/-! ## Samples for the tick rule and for the float sums -/

/-- The `float` sum `a + b` is exact: the exact sum is a `float`, within the finite
range. -/
def ExactSum (a b : ℚ) : Prop := floatAdd a b = a + b ∧ |a + b| < 2 ^ 128

/-- A state with six live cells, in both arrays: `(10, 10)` alone, and the R-pentomino
`(60, 60)`, `(60, 61)`, `(59, 60)`, `(60, 59)`, `(61, 59)`. -/
def ruleSample : Sim :=
  { blankSim with
    spaces := ofList [(10, 10), (60, 60), (60, 61), (59, 60), (60, 59), (61, 59)]
    aliveSpaces := ofList [(10, 10), (60, 60), (60, 61), (59, 60), (60, 59), (61, 59)] }

/-- A quad command as `drawRect` builds it: four vertices of five floats, indices
`0, 1, 2, 0, 2, 3`. -/
def quadCmd : DrawCommand :=
  { pVertices := [0, 1, 1, 1, 1, 0, 0, 1, 1, 1, 1, 0, 1, 1, 1, 1, 1, 1, 1, 1],
    pIndices := [0, 1, 2, 0, 2, 3], vertexCount := 4, vertexSize := 4,
    vertexAttributeCount := 5, indexCount := 6 }

/-! # Theorems -/

/-! ## The draw list and the first half of a frame -/

theorem push_back_eq_some (l : DrawList) (c : DrawCommand)
    (h1 : c.indexCount ≤ c.pIndices.length)
    (h2 : l.m_Indices.length + c.indexCount < 2 ^ 32)
    (h3 : (c.vertexCount * c.vertexAttributeCount) % 2 ^ 32 ≤ c.pVertices.length) :
    l.push_back c = some
      { m_DrawCommands := l.m_DrawCommands ++ [c]
        m_Indices := l.m_Indices ++
          (c.pIndices.take c.indexCount).map (fun v => (v + l.m_Vertices) % 2 ^ 32)
        m_VerticesRaw := l.m_VerticesRaw ++
          c.pVertices.take ((c.vertexCount * c.vertexAttributeCount) % 2 ^ 32)
        m_Vertices := (l.m_Vertices + c.vertexCount) % 2 ^ 64 } := by
  unfold DrawList.push_back
  rw [if_neg (by omega), if_neg (by omega), if_neg (by omega)]

theorem quadIndices_length (k : Nat) : (quadIndices k).length = 6 * k := by
  induction k with
  | zero => rfl
  | succ n ih =>
    unfold quadIndices at ih ⊢
    rw [List.range_succ, List.flatMap_append, List.length_append, ih]
    simp
    omega

theorem quadIndices_succ (k : Nat) :
    quadIndices (k + 1) =
      quadIndices k ++ [4 * k, 4 * k + 1, 4 * k + 2, 4 * k, 4 * k + 2, 4 * k + 3] := by
  unfold quadIndices
  rw [List.range_succ, List.flatMap_append]
  simp

theorem drawRect_quad (l : DrawList) (pos size : OglsVec2) (color : OglsVec3) (k : Nat)
    (hl : QuadInv k l) (hk : 6 * (k + 1) < 2 ^ 32) :
    ∃ l1, drawRect l pos size color = some l1 ∧ QuadInv (k + 1) l1 := by
  obtain ⟨hv, hi, hr, hc, hs⟩ := hl
  have hlen : l.m_Indices.length = 6 * k := by rw [hi, quadIndices_length]
  unfold drawRect
  rw [push_back_eq_some _ _ (by simp) (by simp; omega) (by simp)]
  refine ⟨_, rfl, ?_, ?_, ?_, ?_, ?_⟩
  · simp only [hv]
    have : 4 * k + 4 < 2 ^ 64 := by omega
    rw [Nat.mod_eq_of_lt this]; ring
  · simp only [hv, hi, quadIndices_succ]
    congr 1
    simp
    omega
  · simp [hr]; omega
  · simp [hc]
  · intro c hcm
    simp only [List.mem_append, List.mem_singleton] at hcm
    rcases hcm with hcm | hcm
    · exact hs c hcm
    · subst hcm
      exact ⟨rfl, rfl, rfl⟩

theorem forEach_quads {α : Type} (body : Cells × DrawList → α → Option (Cells × DrawList))
    (f : Cells → α → Cells) (c : Nat)
    (hbody : ∀ g l a k, QuadInv k l → 6 * (k + c) < 2 ^ 32 →
      ∃ l1, body (g, l) a = some (f g a, l1) ∧ QuadInv (k + c) l1) :
    ∀ (as : List α) (g : Cells) (l : DrawList) (k : Nat), QuadInv k l →
      6 * (k + c * as.length) < 2 ^ 32 →
      ∃ l1, forEach body as (g, l) = some (as.foldl f g, l1) ∧
        QuadInv (k + c * as.length) l1 := by
  intro as
  induction as with
  | nil =>
    intro g l k hl _
    exact ⟨l, rfl, by simpa using hl⟩
  | cons a rest ih =>
    intro g l k hl hk
    simp only [List.length_cons] at hk
    obtain ⟨l1, h1, hq1⟩ := hbody g l a k hl (by nlinarith)
    obtain ⟨l2, h2, hq2⟩ := ih (f g a) l1 (k + c) hq1 (by nlinarith)
    refine ⟨l2, ?_, ?_⟩
    · simp only [forEach, h1, Option.some_bind, List.foldl_cons]
      exact h2
    · have e : k + c * (a :: rest).length = k + c + c * rest.length := by
        simp only [List.length_cons]; ring
      rw [e]; exact hq2

theorem sweepCell_quad (doTick : Bool) (alive : Cells) (g : Cells) (l : DrawList)
    (ij : Nat × Nat) (k : Nat) (hl : QuadInv k l) (hk : 6 * (k + 1) < 2 ^ 32) :
    ∃ l1, sweepCell doTick alive (g, l) ij = some (sweepCellGrid doTick alive g ij, l1) ∧
      QuadInv (k + 1) l1 := by
  unfold sweepCell sweepCellGrid
  simp only
  split_ifs with h1 h2 h2
  all_goals
    first
    | (obtain ⟨l1, e, hq⟩ := drawRect_quad l (cellPos ij.1 ij.2) ⟨10, 10⟩ COLOR_FG k hl hk
       exact ⟨l1, by rw [e]; rfl, hq⟩)
    | (obtain ⟨l1, e, hq⟩ := drawRect_quad l (cellPos ij.1 ij.2) ⟨10, 10⟩ COLOR_FG2 k hl hk
       exact ⟨l1, by rw [e]; rfl, hq⟩)

theorem borderStepX_quad (H : Nat) (g : Cells) (l : DrawList) (i : Nat) (k : Nat)
    (hl : QuadInv k l) (hk : 6 * (k + 2) < 2 ^ 32) :
    ∃ l1, borderStepX H (g, l) i = some (setAlive g i 0 false, l1) ∧ QuadInv (k + 2) l1 := by
  obtain ⟨l1, e1, hq1⟩ := drawRect_quad l (markerPos i 0) ⟨4, 4⟩ COLOR_RED k hl (by omega)
  obtain ⟨l2, e2, hq2⟩ :=
    drawRect_quad l1 (markerPos i (H - 1)) ⟨4, 4⟩ COLOR_RED (k + 1) hq1 (by omega)
  exact ⟨l2, by simp [borderStepX, e1, e2], hq2⟩

theorem borderStepY_quad (W : Nat) (g : Cells) (l : DrawList) (i : Nat) (k : Nat)
    (hl : QuadInv k l) (hk : 6 * (k + 2) < 2 ^ 32) :
    ∃ l1, borderStepY W (g, l) i = some (setAlive g 0 i false, l1) ∧ QuadInv (k + 2) l1 := by
  obtain ⟨l1, e1, hq1⟩ := drawRect_quad l (markerPos 0 i) ⟨4, 4⟩ COLOR_RED k hl (by omega)
  obtain ⟨l2, e2, hq2⟩ :=
    drawRect_quad l1 (markerPos (W - 1) i) ⟨4, 4⟩ COLOR_RED (k + 1) hq1 (by omega)
  exact ⟨l2, by simp [borderStepY, e1, e2], hq2⟩

theorem interiorCells_length (W H : Nat) : (interiorCells W H).length = (W - 2) * (H - 2) := by
  unfold interiorCells
  simp [List.length_flatMap, Function.comp_def, List.map_const', List.sum_replicate]

theorem quadInv_clear (l : DrawList) : QuadInv 0 l.clear := by
  simp [QuadInv, DrawList.clear, quadIndices]

/-- The first half of a frame returns, and its result is given field by field. -/
theorem simPhase_eq (W H : Nat) (s : Sim) (calculate : Bool)
    (hWH : 6 * quadCount W H < 2 ^ 32) :
    ∃ l1, QuadInv (quadCount W H) l1 ∧
      simPhase W H s calculate = some
        { s with
          spaces := borderGrid W H
            ((interiorCells W H).foldl (sweepCellGrid (tickDue s calculate) s.aliveSpaces)
              s.spaces)
          aliveSpaces := refresh
            ((interiorCells W H).foldl (sweepCellGrid (tickDue s calculate) s.aliveSpaces)
              s.spaces) (interiorCells W H) s.aliveSpaces
          list := l1
          generation :=
            if tickDue s calculate then (s.generation + 1) % 2 ^ 32 else s.generation } := by
  unfold quadCount at hWH
  obtain ⟨l1, e1, hq1⟩ := forEach_quads (sweepCell (tickDue s calculate) s.aliveSpaces)
    (sweepCellGrid (tickDue s calculate) s.aliveSpaces) 1
    (fun g l a k hl hk => sweepCell_quad _ _ g l a k hl hk)
    (interiorCells W H) s.spaces s.list.clear 0 (quadInv_clear _)
    (by rw [interiorCells_length]; omega)
  obtain ⟨l2, e2, hq2⟩ := forEach_quads (borderStepX H) (fun g i => setAlive g i 0 false) 2
    (fun g l a k hl hk => borderStepX_quad H g l a k hl hk)
    (List.range W)
    ((interiorCells W H).foldl (sweepCellGrid (tickDue s calculate) s.aliveSpaces) s.spaces)
    l1 _ hq1
    (by rw [interiorCells_length, List.length_range]; omega)
  obtain ⟨l3, e3, hq3⟩ := forEach_quads (borderStepY W) (fun g i => setAlive g 0 i false) 2
    (fun g l a k hl hk => borderStepY_quad W g l a k hl hk)
    (List.range H)
    ((List.range W).foldl (fun g i => setAlive g i 0 false)
      ((interiorCells W H).foldl (sweepCellGrid (tickDue s calculate) s.aliveSpaces) s.spaces))
    l2 _ hq2
    (by rw [interiorCells_length, List.length_range, List.length_range]; omega)
  refine ⟨l3, ?_, ?_⟩
  · have e : quadCount W H =
        0 + 1 * (interiorCells W H).length + 2 * (List.range W).length +
          2 * (List.range H).length := by
      rw [interiorCells_length, List.length_range, List.length_range]; unfold quadCount; ring
    rw [e]; exact hq3
  · simp only [simPhase, sweep, e1, Option.some_bind, borderPass, e2, e3, Option.map_some',
      borderGrid]

theorem setAlive_apply (g : Cells) (i j : Nat) (v : Bool) (x y : Nat) :
    setAlive g i j v x y = if x = i ∧ y = j then v else g x y := rfl

theorem mem_interiorCells (W H x y : Nat) :
    (x, y) ∈ interiorCells W H ↔ (1 ≤ x ∧ x + 1 < W) ∧ (1 ≤ y ∧ y + 1 < H) := by
  unfold interiorCells
  simp only [List.mem_flatMap, List.mem_map, List.mem_range'_1, Prod.mk.injEq]
  constructor
  · rintro ⟨a, ha, b, hb, rfl, rfl⟩
    omega
  · rintro ⟨hx, hy⟩
    exact ⟨x, by omega, y, by omega, rfl, rfl⟩

theorem nodup_interiorCells (W H : Nat) : (interiorCells W H).Nodup := by
  unfold interiorCells
  rw [List.nodup_flatMap]
  refine ⟨fun i _ => ?_, ?_⟩
  · exact (List.nodup_range' 1 (H - 2)).map (fun a b h => by simpa using h)
  · refine List.Pairwise.imp ?_ (List.nodup_range' 1 (W - 2))
    intro a b hab p hpa hpb
    simp only [List.mem_map] at hpa hpb
    obtain ⟨_, _, rfl⟩ := hpa
    obtain ⟨_, _, h⟩ := hpb
    exact hab (by simpa using (congrArg Prod.fst h).symm)

theorem foldl_sweepCellGrid_false (alive : Cells) (order : List (Nat × Nat)) (g : Cells) :
    order.foldl (sweepCellGrid false alive) g = g := by
  induction order generalizing g with
  | nil => rfl
  | cons a rest ih => simpa [sweepCellGrid] using ih g

theorem foldl_sweepCellGrid_apply (alive : Cells) (order : List (Nat × Nat))
    (hnd : order.Nodup) (g : Cells) (x y : Nat) :
    order.foldl (sweepCellGrid true alive) g x y =
      if (x, y) ∈ order then updateAlive (g x y) (countNeighbors alive x y) else g x y := by
  induction order generalizing g with
  | nil => simp
  | cons a rest ih =>
    obtain ⟨ha, hrest⟩ := List.nodup_cons.mp hnd
    rw [List.foldl_cons, ih hrest]
    by_cases hxa : (x, y) = a
    · subst hxa
      simp [ha, sweepCellGrid, setAlive_apply]
    · have hne : ¬ (x = a.1 ∧ y = a.2) := fun h => hxa (Prod.ext h.1 h.2)
      simp [hxa, sweepCellGrid, setAlive_apply, hne]

theorem refresh_apply (spaces : Cells) (order : List (Nat × Nat)) (a : Cells) (x y : Nat) :
    refresh spaces order a x y = if (x, y) ∈ order then spaces x y else a x y := by
  unfold refresh
  induction order generalizing a with
  | nil => simp
  | cons c rest ih =>
    rw [List.foldl_cons, ih]
    by_cases hxc : (x, y) = c
    · subst hxc
      by_cases hm : (x, y) ∈ rest <;> simp [hm, setAlive_apply]
    · have hne : ¬ (x = c.1 ∧ y = c.2) := fun h => hxc (Prod.ext h.1 h.2)
      simp [hxc, setAlive_apply, hne]

theorem foldl_clearColumn_apply (n : Nat) (g : Cells) (x y : Nat) :
    (List.range n).foldl (fun t i => setAlive t i 0 false) g x y =
      if y = 0 ∧ x < n then false else g x y := by
  induction n with
  | zero => simp
  | succ m ih =>
    rw [List.range_succ, List.foldl_append, List.foldl_cons, List.foldl_nil, setAlive_apply, ih]
    by_cases hy : y = 0 <;> by_cases hx : x = m <;> by_cases hx2 : x < m <;>
      simp [hy, hx, hx2] <;> omega

theorem foldl_clearRow_apply (n : Nat) (g : Cells) (x y : Nat) :
    (List.range n).foldl (fun t i => setAlive t 0 i false) g x y =
      if x = 0 ∧ y < n then false else g x y := by
  induction n with
  | zero => simp
  | succ m ih =>
    rw [List.range_succ, List.foldl_append, List.foldl_cons, List.foldl_nil, setAlive_apply, ih]
    by_cases hy : x = 0 <;> by_cases hx : y = m <;> by_cases hx2 : y < m <;>
      simp [hy, hx, hx2] <;> omega

theorem borderGrid_apply (W H : Nat) (g : Cells) (x y : Nat) :
    borderGrid W H g x y = if (y = 0 ∧ x < W) ∨ (x = 0 ∧ y < H) then false else g x y := by
  unfold borderGrid
  rw [foldl_clearRow_apply, foldl_clearColumn_apply]
  by_cases h1 : x = 0 ∧ y < H
  · rw [if_pos h1, if_pos (Or.inr h1)]
  · rw [if_neg h1]
    by_cases h2 : y = 0 ∧ x < W
    · rw [if_pos h2, if_pos (Or.inl h2)]
    · rw [if_neg h2, if_neg (by tauto)]

theorem isInterior_iff (W H x y : Nat) :
    isInterior W H x y = true ↔ (x, y) ∈ interiorCells W H := by
  rw [mem_interiorCells]
  simp [isInterior, and_assoc]

theorem isCleared_iff (W H x y : Nat) :
    isCleared W H x y = true ↔ (y = 0 ∧ x < W) ∨ (x = 0 ∧ y < H) := by
  simp [isCleared]

theorem foldl_sweepCellGrid_interior (W H : Nat) (doTick : Bool) (alive g : Cells) (x y : Nat) :
    (interiorCells W H).foldl (sweepCellGrid doTick alive) g x y =
      if doTick && isInterior W H x y then updateAlive (g x y) (countNeighbors alive x y)
      else g x y := by
  cases doTick with
  | false => simp [foldl_sweepCellGrid_false]
  | true =>
    rw [foldl_sweepCellGrid_apply _ _ (nodup_interiorCells W H)]
    by_cases h : (x, y) ∈ interiorCells W H
    · simp [h, (isInterior_iff W H x y).mpr h]
    · have : isInterior W H x y = false := by
        simpa using (not_congr (isInterior_iff W H x y)).mpr h
      simp [h, this]

/-- The first half of a frame returns; its grid, shadow, generation counter and draw list
are given in closed form, and nothing else changes. -/
theorem simPhase_spec (W H : Nat) (s : Sim) (calculate : Bool)
    (hWH : 6 * quadCount W H < 2 ^ 32) :
    ∃ l1, QuadInv (quadCount W H) l1 ∧
      simPhase W H s calculate = some
        { s with
          spaces := nextSpaces W H (tickDue s calculate) s.spaces s.aliveSpaces
          aliveSpaces := nextAlive W H (tickDue s calculate) s.spaces s.aliveSpaces
          list := l1
          generation :=
            if tickDue s calculate then (s.generation + 1) % 2 ^ 32 else s.generation } := by
  obtain ⟨l1, hq, e⟩ := simPhase_eq W H s calculate hWH
  refine ⟨l1, hq, ?_⟩
  rw [e]
  have h1 : borderGrid W H
      ((interiorCells W H).foldl (sweepCellGrid (tickDue s calculate) s.aliveSpaces) s.spaces) =
      nextSpaces W H (tickDue s calculate) s.spaces s.aliveSpaces := by
    funext x y
    rw [borderGrid_apply, foldl_sweepCellGrid_interior]
    unfold nextSpaces
    by_cases hc : isCleared W H x y = true
    · rw [if_pos ((isCleared_iff W H x y).mp hc), if_pos hc]
    · rw [if_neg (fun h => hc ((isCleared_iff W H x y).mpr h)), if_neg hc]
  have h2 : refresh
      ((interiorCells W H).foldl (sweepCellGrid (tickDue s calculate) s.aliveSpaces) s.spaces)
      (interiorCells W H) s.aliveSpaces =
      nextAlive W H (tickDue s calculate) s.spaces s.aliveSpaces := by
    funext x y
    rw [refresh_apply, foldl_sweepCellGrid_interior]
    unfold nextAlive
    by_cases hi : isInterior W H x y = true
    · rw [if_pos ((isInterior_iff W H x y).mp hi), if_pos hi]
      cases tickDue s calculate <;> simp [hi]
    · rw [if_neg (fun h => hi ((isInterior_iff W H x y).mpr h)), if_neg hi]
  rw [h1, h2]

/-! ## C1: the tick rule -/

theorem countNeighbors_eq (alive : Cells) (x y : Nat) :
    countNeighbors alive x y = liveNeighbours alive x y := by
  unfold countNeighbors liveNeighbours mooreNeighbours
  simp only [List.filter_cons, List.filter_nil]
  cases alive (x - 1) (y - 1) <;> cases alive (x - 1) y <;> cases alive (x - 1) (y + 1) <;>
    cases alive x (y - 1) <;> cases alive x (y + 1) <;> cases alive (x + 1) (y - 1) <;>
    cases alive (x + 1) y <;> cases alive (x + 1) (y + 1) <;> rfl

theorem updateAlive_eq (alive : Bool) (n : Nat) : updateAlive alive n = specNext alive n := by
  cases alive <;> by_cases h2 : n < 2 <;> by_cases h3 : n > 3 <;> by_cases e2 : n = 2 <;>
    by_cases e3 : n = 3 <;> simp [updateAlive, specNext, *] <;> omega

theorem foldl_sweepCellGrid_perm (W H : Nat) (doTick : Bool) (alive g : Cells)
    (order : List (Nat × Nat)) (hp : order.Perm (interiorCells W H)) :
    order.foldl (sweepCellGrid doTick alive) g = sweptSpaces W H doTick g alive := by
  funext x y
  unfold sweptSpaces
  cases doTick with
  | false => simp [foldl_sweepCellGrid_false]
  | true =>
    rw [foldl_sweepCellGrid_apply _ _ (hp.nodup_iff.mpr (nodup_interiorCells W H))]
    by_cases h : (x, y) ∈ interiorCells W H
    · simp [hp.mem_iff.mpr h, (isInterior_iff W H x y).mpr h]
    · have : isInterior W H x y = false := by
        simpa using (not_congr (isInterior_iff W H x y)).mpr h
      simp [mt hp.mem_iff.mp h, this]

theorem sweep_perm (W H : Nat) (doTick : Bool) (alive g : Cells) (l : DrawList)
    (hl : QuadInv 0 l) (hWH : 6 * quadCount W H < 2 ^ 32) (order : List (Nat × Nat))
    (hp : order.Perm (interiorCells W H)) :
    ∃ l1, sweep doTick alive order (g, l) = some (sweptSpaces W H doTick g alive, l1) := by
  unfold quadCount at hWH
  obtain ⟨l1, e1, _⟩ := forEach_quads (sweepCell doTick alive) (sweepCellGrid doTick alive) 1
    (fun g l a k hl hk => sweepCell_quad _ _ g l a k hl hk) order g l 0 hl
    (by rw [hp.length_eq, interiorCells_length]; omega)
  refine ⟨l1, ?_⟩
  rw [sweep, e1, foldl_sweepCellGrid_perm W H doTick alive g order hp]

/-- The tick rule on a `W x H` grid whose frame fits the 32-bit loop counter of the draw
list: on a frame that computes a tick, every interior cell `(x, y)` ends with
`next(a, n)`, where `a` is its alive flag before the frame and `n` the number of its eight
Moore neighbours alive in the shadow array before the frame: a live cell with `n < 2` or
`n > 3` dies, a live cell with `n = 2` or `n = 3` lives, a dead cell with `n = 3` becomes
alive, any other dead cell stays dead.  The grid `G` left by the sweep is the same for every
order in which the interior cells are visited. -/
theorem tick_rule_on_grid (W H : Nat) (s : Sim) (calculate : Bool) (x y : Nat)
    (hWH : 6 * quadCount W H < 2 ^ 32)
    (hx : 1 ≤ x ∧ x ≤ W - 2) (hy : 1 ≤ y ∧ y ≤ H - 2)
    (htick : tickDue s calculate = true) :
    ∃ s1 G, simPhase W H s calculate = some s1 ∧
      (∀ order : List (Nat × Nat), order.Perm (interiorCells W H) →
        ∃ l, sweep true s.aliveSpaces order (s.spaces, s.list.clear) = some (G, l)) ∧
      G x y = s1.spaces x y ∧
      s1.spaces x y = specNext (s.spaces x y) (liveNeighbours s.aliveSpaces x y) ∧
      (s.spaces x y = true →
        liveNeighbours s.aliveSpaces x y < 2 ∨ 3 < liveNeighbours s.aliveSpaces x y →
        s1.spaces x y = false) ∧
      (s.spaces x y = true →
        liveNeighbours s.aliveSpaces x y = 2 ∨ liveNeighbours s.aliveSpaces x y = 3 →
        s1.spaces x y = true) ∧
      (s.spaces x y = false → liveNeighbours s.aliveSpaces x y = 3 → s1.spaces x y = true) ∧
      (s.spaces x y = false → liveNeighbours s.aliveSpaces x y ≠ 3 → s1.spaces x y = false) := by
  obtain ⟨l1, _, e⟩ := simPhase_spec W H s calculate hWH
  have hi : isInterior W H x y = true := by
    simp only [isInterior, Bool.and_eq_true, decide_eq_true_eq]; omega
  have hc : isCleared W H x y = false := by
    rw [← Bool.not_eq_true, isCleared_iff]; omega
  have hval : nextSpaces W H (tickDue s calculate) s.spaces s.aliveSpaces x y =
      specNext (s.spaces x y) (liveNeighbours s.aliveSpaces x y) := by
    simp [nextSpaces, hc, hi, htick, updateAlive_eq, countNeighbors_eq]
  refine ⟨_, sweptSpaces W H true s.spaces s.aliveSpaces, e, ?_, ?_, hval, ?_, ?_, ?_, ?_⟩
  · intro order hp
    exact sweep_perm W H true s.aliveSpaces s.spaces _ (quadInv_clear _) hWH order hp
  · simp [sweptSpaces, nextSpaces, hc, hi, htick]
  · intro ha hn
    simp only [hval, ha, specNext]
    rcases hn with hn | hn
    · simp [hn]
    · have h1 : ¬ liveNeighbours s.aliveSpaces x y < 2 := by omega
      have h2 : ¬ (liveNeighbours s.aliveSpaces x y = 2 ∨
          liveNeighbours s.aliveSpaces x y = 3) := by omega
      simp [h1, h2]
  · intro ha hn
    have h1 : ¬ liveNeighbours s.aliveSpaces x y < 2 := by omega
    simp [hval, ha, specNext, h1, hn]
  · intro ha hn
    simp [hval, ha, specNext, hn]
  · intro ha hn
    simp [hval, ha, specNext, hn]

/-- C1. On the 120 x 120 grid of the program, for every state and every interior cell
`(x, y)`, a frame that computes a tick returns and sets the alive flag of the cell to
`next(a, n)`, where `a` is its alive flag before the frame and `n` the number of its eight
Moore neighbours alive in the shadow array before the frame: a live cell with `n < 2` or
`n > 3` dies, a live cell with `n = 2` or `n = 3` lives, a dead cell with `n = 3` becomes
alive, any other dead cell stays dead.  The grid `G` left by the sweep is the same for every
order in which the interior cells are visited. -/
theorem tick_applies_next (s : Sim) (calculate : Bool) (x y : Nat)
    (hx : 1 ≤ x ∧ x ≤ CELL_SPACE_WIDTH - 2) (hy : 1 ≤ y ∧ y ≤ CELL_SPACE_HEIGHT - 2)
    (htick : tickDue s calculate = true) :
    ∃ s1 G, simPhase CELL_SPACE_WIDTH CELL_SPACE_HEIGHT s calculate = some s1 ∧
      (∀ order : List (Nat × Nat),
        order.Perm (interiorCells CELL_SPACE_WIDTH CELL_SPACE_HEIGHT) →
        ∃ l, sweep true s.aliveSpaces order (s.spaces, s.list.clear) = some (G, l)) ∧
      G x y = s1.spaces x y ∧
      s1.spaces x y = specNext (s.spaces x y) (liveNeighbours s.aliveSpaces x y) ∧
      (s.spaces x y = true →
        liveNeighbours s.aliveSpaces x y < 2 ∨ 3 < liveNeighbours s.aliveSpaces x y →
        s1.spaces x y = false) ∧
      (s.spaces x y = true →
        liveNeighbours s.aliveSpaces x y = 2 ∨ liveNeighbours s.aliveSpaces x y = 3 →
        s1.spaces x y = true) ∧
      (s.spaces x y = false → liveNeighbours s.aliveSpaces x y = 3 → s1.spaces x y = true) ∧
      (s.spaces x y = false → liveNeighbours s.aliveSpaces x y ≠ 3 → s1.spaces x y = false) :=
  tick_rule_on_grid CELL_SPACE_WIDTH CELL_SPACE_HEIGHT s calculate x y (by decide) hx hy htick

/-- Witness of C1: one tick of `ruleSample`.  The lone cell `(10, 10)`, with no live
neighbour, and the crowded cell `(60, 60)`, with four, die; `(60, 61)`, with two, and
`(59, 60)`, with three, live on; the dead cell `(59, 61)`, with three, becomes alive; the
dead cell `(61, 61)`, with two, stays dead. -/
theorem tick_applies_next_witness :
    ∃ s1, simPhase CELL_SPACE_WIDTH CELL_SPACE_HEIGHT ruleSample true = some s1 ∧
      (ruleSample.spaces 10 10 = true ∧ liveNeighbours ruleSample.aliveSpaces 10 10 = 0 ∧
        s1.spaces 10 10 = false) ∧
      (ruleSample.spaces 60 60 = true ∧ liveNeighbours ruleSample.aliveSpaces 60 60 = 4 ∧
        s1.spaces 60 60 = false) ∧
      (ruleSample.spaces 60 61 = true ∧ liveNeighbours ruleSample.aliveSpaces 60 61 = 2 ∧
        s1.spaces 60 61 = true) ∧
      (ruleSample.spaces 59 60 = true ∧ liveNeighbours ruleSample.aliveSpaces 59 60 = 3 ∧
        s1.spaces 59 60 = true) ∧
      (ruleSample.spaces 59 61 = false ∧ liveNeighbours ruleSample.aliveSpaces 59 61 = 3 ∧
        s1.spaces 59 61 = true) ∧
      (ruleSample.spaces 61 61 = false ∧ liveNeighbours ruleSample.aliveSpaces 61 61 = 2 ∧
        s1.spaces 61 61 = false) := by
  obtain ⟨s1, _, e, _, _, h1, _⟩ :=
    tick_applies_next ruleSample true 10 10 (by decide) (by decide) (by decide)
  obtain ⟨t2, _, e2, _, _, h2, _⟩ :=
    tick_applies_next ruleSample true 60 60 (by decide) (by decide) (by decide)
  obtain ⟨t3, _, e3, _, _, h3, _⟩ :=
    tick_applies_next ruleSample true 60 61 (by decide) (by decide) (by decide)
  obtain ⟨t4, _, e4, _, _, h4, _⟩ :=
    tick_applies_next ruleSample true 59 60 (by decide) (by decide) (by decide)
  obtain ⟨t5, _, e5, _, _, h5, _⟩ :=
    tick_applies_next ruleSample true 59 61 (by decide) (by decide) (by decide)
  obtain ⟨t6, _, e6, _, _, h6, _⟩ :=
    tick_applies_next ruleSample true 61 61 (by decide) (by decide) (by decide)
  obtain rfl : t2 = s1 := Option.some.inj (e2.symm.trans e)
  obtain rfl : t3 = t2 := Option.some.inj (e3.symm.trans e)
  obtain rfl : t4 = t3 := Option.some.inj (e4.symm.trans e)
  obtain rfl : t5 = t4 := Option.some.inj (e5.symm.trans e)
  obtain rfl : t6 = t5 := Option.some.inj (e6.symm.trans e)
  refine ⟨_, e, ⟨by decide, by decide, ?_⟩, ⟨by decide, by decide, ?_⟩,
    ⟨by decide, by decide, ?_⟩, ⟨by decide, by decide, ?_⟩, ⟨by decide, by decide, ?_⟩,
    ⟨by decide, by decide, ?_⟩⟩
  · rw [h1]; decide
  · rw [h2]; decide
  · rw [h3]; decide
  · rw [h4]; decide
  · rw [h5]; decide
  · rw [h6]; decide

/-! ## Bulk writes and the far border -/

theorem mem_allCells (W H x y : Nat) : (x, y) ∈ allCells W H ↔ x < W ∧ y < H := by
  unfold allCells
  simp only [List.mem_flatMap, List.mem_map, List.mem_range, Prod.mk.injEq]
  constructor
  · rintro ⟨a, ha, b, hb, rfl, rfl⟩
    exact ⟨ha, hb⟩
  · rintro ⟨hx, hy⟩
    exact ⟨x, hx, y, hy, rfl, rfl⟩

theorem foldl_writeBoth (cells : List (Nat × Nat)) (v : Bool) (s : Sim) :
    cells.foldl (fun t ij => writeBoth t ij.1 ij.2 v) s =
      { s with
        spaces := fun x y => if (x, y) ∈ cells then v else s.spaces x y
        aliveSpaces := fun x y => if (x, y) ∈ cells then v else s.aliveSpaces x y } := by
  induction cells generalizing s with
  | nil => simp
  | cons c rest ih =>
    rw [List.foldl_cons, ih]
    simp only [writeBoth, setAlive_apply]
    congr 1 <;> funext x y <;> by_cases hr : (x, y) ∈ rest <;> by_cases hc : (x, y) = c
    all_goals
      first
      | (subst hc; simp [hr])
      | (have hne : ¬ (x = c.1 ∧ y = c.2) := fun h => hc (Prod.ext h.1 h.2)
         simp [hr, hc, hne])

theorem fillBoth_eq (W H : Nat) (v : Bool) (s : Sim) :
    fillBoth W H v s =
      { s with spaces := filled W H v s.spaces, aliveSpaces := filled W H v s.aliveSpaces } := by
  unfold fillBoth
  rw [foldl_writeBoth]
  simp only [mem_allCells]
  rfl

theorem quadCount_program : 6 * quadCount CELL_SPACE_WIDTH CELL_SPACE_HEIGHT < 2 ^ 32 := by
  decide

/-- The border pass leaves the last row and the last column as they were: for every state,
a cell `(x, H-1)` or `(W-1, y)` with `x >= 1` and `y >= 1` keeps its alive flag through
the first half of a frame. -/
theorem simPhase_far_border (W H : Nat) (s : Sim) (calculate : Bool)
    (hWH : 6 * quadCount W H < 2 ^ 32) (x y : Nat)
    (h : 1 ≤ x ∧ 1 ≤ y ∧ (y + 1 = H ∨ x + 1 = W)) :
    ∃ s1, simPhase W H s calculate = some s1 ∧ s1.spaces x y = s.spaces x y := by
  obtain ⟨l1, _, e⟩ := simPhase_spec W H s calculate hWH
  refine ⟨_, e, ?_⟩
  have hc : isCleared W H x y = false := by
    rw [← Bool.not_eq_true, isCleared_iff]; omega
  have hi : isInterior W H x y = false := by
    rw [← Bool.not_eq_true]
    simp only [isInterior, Bool.and_eq_true, decide_eq_true_eq]; omega
  simp [nextSpaces, hc, hi]

/-! ## Preset loading and ticks of a sparse pattern -/

theorem writeAt_eq_some (W H : Nat) (s : Sim) (x y : Int) (v : Bool)
    (h : inGrid W H x y = true) : writeAt W H s x y v = some (writeBoth s x.toNat y.toNat v) := by
  simp [writeAt, h]

theorem forEach_cons {σ α : Type} (body : σ → α → Option σ) (a : α) (rest : List α) (st : σ) :
    forEach body (a :: rest) st = (body st a).bind (forEach body rest) := rfl

theorem forEach_writeAt_offsets (W H : Nat) (offsets : List (Int × Int))
    (hin : ∀ d ∈ offsets,
      inGrid W H (((W / 2 : Nat) : Int) + d.1) (((H / 2 : Nat) : Int) + d.2) = true)
    (s : Sim) :
    forEach
      (fun t d => writeAt W H t (((W / 2 : Nat) : Int) + d.1) (((H / 2 : Nat) : Int) + d.2) true)
      offsets s =
    some { s with
      spaces := fun x y =>
        if ((x : Int) - ((W / 2 : Nat) : Int), (y : Int) - ((H / 2 : Nat) : Int)) ∈ offsets
        then true else s.spaces x y
      aliveSpaces := fun x y =>
        if ((x : Int) - ((W / 2 : Nat) : Int), (y : Int) - ((H / 2 : Nat) : Int)) ∈ offsets
        then true else s.aliveSpaces x y } := by
  induction offsets generalizing s with
  | nil => simp [forEach]
  | cons d rest ih =>
    have hd := hin d (List.mem_cons_self _ _)
    have hrest : ∀ e ∈ rest,
        inGrid W H (((W / 2 : Nat) : Int) + e.1) (((H / 2 : Nat) : Int) + e.2) = true :=
      fun e he => hin e (List.mem_cons_of_mem _ he)
    rw [forEach_cons, writeAt_eq_some W H s _ _ true hd, Option.some_bind, ih hrest]
    simp only [inGrid, Bool.and_eq_true, decide_eq_true_eq] at hd
    simp only [writeBoth, setAlive_apply]
    congr 2 <;> funext x y
    all_goals
      have hiff : (x = (((W / 2 : Nat) : Int) + d.1).toNat ∧
          y = (((H / 2 : Nat) : Int) + d.2).toNat) ↔
          ((x : Int) - ((W / 2 : Nat) : Int), (y : Int) - ((H / 2 : Nat) : Int)) = d := by
        rw [Prod.ext_iff]
        simp only
        constructor <;> rintro ⟨h1, h2⟩ <;> constructor <;> omega
      by_cases hr : ((x : Int) - ((W / 2 : Nat) : Int), (y : Int) - ((H / 2 : Nat) : Int)) ∈ rest
      · rw [if_pos hr, if_pos (List.mem_cons_of_mem _ hr)]
      · rw [if_neg hr]
        by_cases hd1 : x = (((W / 2 : Nat) : Int) + d.1).toNat ∧
            y = (((H / 2 : Nat) : Int) + d.2).toNat
        · rw [if_pos hd1, if_pos (List.mem_cons.mpr (Or.inl (hiff.mp hd1)))]
        · rw [if_neg hd1, if_neg]
          intro hm
          rcases List.mem_cons.mp hm with h | h
          · exact hd1 (hiff.mpr h)
          · exact hr h

theorem loadPattern_eq (W H : Nat) (offsets : List (Int × Int))
    (hin : ∀ d ∈ offsets,
      inGrid W H (((W / 2 : Nat) : Int) + d.1) (((H / 2 : Nat) : Int) + d.2) = true)
    (s : Sim) :
    loadPattern W H offsets s =
      some { s with
        spaces := patternCells W H offsets s.spaces
        aliveSpaces := patternCells W H offsets s.aliveSpaces } := by
  unfold loadPattern
  rw [forEach_writeAt_offsets W H offsets hin, fillBoth_eq]
  rfl

theorem countNeighbors_congr (f g : Cells) (x y : Nat)
    (h : ∀ p ∈ mooreNeighbours x y, f p.1 p.2 = g p.1 p.2) :
    countNeighbors f x y = countNeighbors g x y := by
  rw [countNeighbors_eq, countNeighbors_eq]
  unfold liveNeighbours
  congr 1
  exact List.filter_congr h

theorem liveExactly_iff (W H : Nat) (g : Cells) (L : List (Nat × Nat)) :
    LiveExactly W H g L ↔ ∀ x y, x < W → y < H → g x y = ofList L x y := by
  unfold LiveExactly ofList
  constructor
  · intro h x y hx hy
    have := h x y hx hy
    by_cases hm : (x, y) ∈ L
    · simp [hm, this.mpr hm]
    · have hg : g x y = false := by
        rw [← Bool.not_eq_true]; exact fun e => hm (this.mp e)
      simp [hm, hg]
  · intro h x y hx hy
    rw [h x y hx hy]
    simp

/-- One tick of a pattern that stays inside a window `[x0, x0+n) x [y0, y0+m)` of interior
cells: the cells of the window are checked one by one, every other cell stays dead. -/
theorem tick_in_window (W H : Nat) (L L1 : List (Nat × Nat)) (x0 y0 n m : Nat)
    (hwin : 1 ≤ x0 ∧ x0 + n + 1 ≤ W ∧ 1 ≤ y0 ∧ y0 + m + 1 ≤ H)
    (hL : ∀ p ∈ L, x0 + 1 ≤ p.1 ∧ p.1 + 2 ≤ x0 + n ∧ y0 + 1 ≤ p.2 ∧ p.2 + 2 ≤ y0 + m)
    (hL1 : ∀ p ∈ L1, x0 ≤ p.1 ∧ p.1 < x0 + n ∧ y0 ≤ p.2 ∧ p.2 < y0 + m)
    (hcheck : ∀ dx < n, ∀ dy < m,
      updateAlive (ofList L (x0 + dx) (y0 + dy)) (countNeighbors (ofList L) (x0 + dx) (y0 + dy)) =
        ofList L1 (x0 + dx) (y0 + dy))
    (spaces alive : Cells) (hs : LiveExactly W H spaces L) (ha : LiveExactly W H alive L) :
    LiveExactly W H (nextSpaces W H true spaces alive) L1 ∧
      LiveExactly W H (nextAlive W H true spaces alive) L1 := by
  rw [liveExactly_iff] at hs ha
  have hout : ∀ a b, ¬ (x0 + 1 ≤ a ∧ a + 2 ≤ x0 + n ∧ y0 + 1 ≤ b ∧ b + 2 ≤ y0 + m) →
      ofList L a b = false := by
    intro a b hab
    simp only [ofList, decide_eq_false_iff_not]
    exact fun hm => hab (hL (a, b) hm)
  have hout1 : ∀ a b, ¬ (x0 ≤ a ∧ a < x0 + n ∧ y0 ≤ b ∧ b < y0 + m) → ofList L1 a b = false := by
    intro a b hab
    simp only [ofList, decide_eq_false_iff_not]
    exact fun hm => hab (hL1 (a, b) hm)
  -- value computed by the sweep at an interior cell
  have hrule : ∀ x y, isInterior W H x y = true →
      updateAlive (spaces x y) (countNeighbors alive x y) = ofList L1 x y := by
    intro x y hi
    simp only [isInterior, Bool.and_eq_true, decide_eq_true_eq] at hi
    have e1 : spaces x y = ofList L x y := hs x y (by omega) (by omega)
    have e2 : countNeighbors alive x y = countNeighbors (ofList L) x y := by
      apply countNeighbors_congr
      intro p hp
      simp only [mooreNeighbours, List.mem_cons, List.mem_singleton, List.not_mem_nil,
        or_false] at hp
      rcases hp with h | h | h | h | h | h | h | h <;> subst h <;>
        exact ha _ _ (by simp only; omega) (by simp only; omega)
    rw [e1, e2]
    by_cases hw : x0 ≤ x ∧ x < x0 + n ∧ y0 ≤ y ∧ y < y0 + m
    · have := hcheck (x - x0) (by omega) (y - y0) (by omega)
      have ex : x0 + (x - x0) = x := by omega
      have ey : y0 + (y - y0) = y := by omega
      rw [ex, ey] at this
      exact this
    · rw [hout1 x y hw, hout x y (by omega)]
      have hz : countNeighbors (ofList L) x y = 0 := by
        unfold countNeighbors
        rw [hout (x - 1) y (by omega), hout (x + 1) y (by omega), hout x (y - 1) (by omega),
          hout x (y + 1) (by omega), hout (x - 1) (y - 1) (by omega),
          hout (x - 1) (y + 1) (by omega), hout (x + 1) (y - 1) (by omega),
          hout (x + 1) (y + 1) (by omega)]
        rfl
      rw [hz]
      rfl
  have hborder : ∀ x y, x < W → y < H → isInterior W H x y = false →
      spaces x y = false ∧ alive x y = false ∧ ofList L1 x y = false := by
    intro x y hx hy hi
    rw [← Bool.not_eq_true] at hi
    simp only [isInterior, Bool.and_eq_true, decide_eq_true_eq] at hi
    refine ⟨?_, ?_, ?_⟩
    · rw [hs x y hx hy]; exact hout x y (by omega)
    · rw [ha x y hx hy]; exact hout x y (by omega)
    · exact hout1 x y (by omega)
  constructor
  · rw [liveExactly_iff]
    intro x y hx hy
    unfold nextSpaces
    by_cases hi : isInterior W H x y = true
    · have hc : isCleared W H x y = false := by
        rw [← Bool.not_eq_true, isCleared_iff]
        simp only [isInterior, Bool.and_eq_true, decide_eq_true_eq] at hi
        omega
      simp only [hc, hi, Bool.and_self, if_true, Bool.false_eq_true, if_false]
      exact hrule x y hi
    · rw [Bool.not_eq_true] at hi
      obtain ⟨h1, _, h3⟩ := hborder x y hx hy hi
      rw [h3]
      by_cases hc : isCleared W H x y = true
      · simp [hc]
      · simp [hc, hi, h1]
  · rw [liveExactly_iff]
    intro x y hx hy
    unfold nextAlive
    by_cases hi : isInterior W H x y = true
    · simp only [hi, if_true]
      exact hrule x y hi
    · rw [Bool.not_eq_true] at hi
      obtain ⟨_, h2, h3⟩ := hborder x y hx hy hi
      simp [hi, h2, h3]

/-! ## C3: the glider -/

theorem frame_timerOnly (W H : Nat) (s : Sim) (c : Bool) (hWH : 6 * quadCount W H < 2 ^ 32) :
    ∃ l, QuadInv (quadCount W H) l ∧
      frame W H s (timerOnly c) = some
        { s with
          spaces := nextSpaces W H (tickDue s c) s.spaces s.aliveSpaces
          aliveSpaces := nextAlive W H (tickDue s c) s.spaces s.aliveSpaces
          list := l
          generation := if tickDue s c then (s.generation + 1) % 2 ^ 32 else s.generation
          pressOnce := false
          iterate := if s.p_open then false else s.iterate } := by
  obtain ⟨l, hq, e⟩ := simPhase_spec W H s c hWH
  refine ⟨l, hq, ?_⟩
  simp only [frame, timerOnly, e, Option.some_bind, uiPhase, panelToggle, settingsPanel]
  cases hp : s.p_open <;> simp [hp, closeBox, iterateButton]

theorem glider_step1 : ∀ dx < 8, ∀ dy < 8,
    updateAlive (ofList (gliderAt 60 60) (58 + dx) (57 + dy))
        (countNeighbors (ofList (gliderAt 60 60)) (58 + dx) (57 + dy)) =
      ofList gliderGen1 (58 + dx) (57 + dy) := by
  decide

theorem glider_step2 : ∀ dx < 8, ∀ dy < 8,
    updateAlive (ofList gliderGen1 (58 + dx) (57 + dy))
        (countNeighbors (ofList gliderGen1) (58 + dx) (57 + dy)) =
      ofList gliderGen2 (58 + dx) (57 + dy) := by
  decide

theorem glider_step3 : ∀ dx < 8, ∀ dy < 8,
    updateAlive (ofList gliderGen2 (58 + dx) (57 + dy))
        (countNeighbors (ofList gliderGen2) (58 + dx) (57 + dy)) =
      ofList gliderGen3 (58 + dx) (57 + dy) := by
  decide

theorem glider_step4 : ∀ dx < 8, ∀ dy < 8,
    updateAlive (ofList gliderGen3 (58 + dx) (57 + dy))
        (countNeighbors (ofList gliderGen3) (58 + dx) (57 + dy)) =
      ofList (gliderAt 61 59) (58 + dx) (57 + dy) := by
  decide

theorem frame_pressGlider (s : Sim) (c : Bool) (hp : s.p_open = true) :
    ∃ l, QuadInv (quadCount CELL_SPACE_WIDTH CELL_SPACE_HEIGHT) l ∧
      frame CELL_SPACE_WIDTH CELL_SPACE_HEIGHT s (pressGlider c) = some
        { s with
          spaces := patternCells CELL_SPACE_WIDTH CELL_SPACE_HEIGHT gliderOffsets
            (nextSpaces CELL_SPACE_WIDTH CELL_SPACE_HEIGHT (tickDue s c) s.spaces s.aliveSpaces)
          aliveSpaces := patternCells CELL_SPACE_WIDTH CELL_SPACE_HEIGHT gliderOffsets
            (nextAlive CELL_SPACE_WIDTH CELL_SPACE_HEIGHT (tickDue s c) s.spaces s.aliveSpaces)
          list := l
          generation := if tickDue s c then (s.generation + 1) % 2 ^ 32 else s.generation
          pressOnce := false
          iterate := false } := by
  obtain ⟨l, hq, e⟩ := simPhase_spec CELL_SPACE_WIDTH CELL_SPACE_HEIGHT s c quadCount_program
  refine ⟨l, hq, ?_⟩
  have hlp := loadPattern_eq CELL_SPACE_WIDTH CELL_SPACE_HEIGHT gliderOffsets (by decide)
  simp [frame, pressGlider, e, uiPhase, panelToggle, settingsPanel, closeBox, iterateButton,
    presetsPanel, hp, hlp]

theorem liveExactly_glider_preset (g : Cells) :
    LiveExactly CELL_SPACE_WIDTH CELL_SPACE_HEIGHT
      (patternCells CELL_SPACE_WIDTH CELL_SPACE_HEIGHT gliderOffsets g) (gliderAt 60 60) := by
  intro x y hx hy
  simp only [CELL_SPACE_WIDTH, CELL_SPACE_HEIGHT] at hx hy
  simp only [patternCells, filled, gliderOffsets, gliderAt, CELL_SPACE_WIDTH, CELL_SPACE_HEIGHT,
    hx, hy, List.mem_cons, List.mem_singleton, List.not_mem_nil, or_false, Prod.mk.injEq,
    and_self, if_true, Bool.if_false_right, Bool.and_true, decide_eq_true_eq]
  omega

/-- A frame with the timer elapsed and nothing pressed, on a state that is not paused and
whose pattern stays inside a window of interior cells. -/
theorem frame_tick_window (W H : Nat) (hWH : 6 * quadCount W H < 2 ^ 32)
    (L L1 : List (Nat × Nat)) (x0 y0 n m : Nat)
    (hwin : 1 ≤ x0 ∧ x0 + n + 1 ≤ W ∧ 1 ≤ y0 ∧ y0 + m + 1 ≤ H)
    (hL : ∀ p ∈ L, x0 + 1 ≤ p.1 ∧ p.1 + 2 ≤ x0 + n ∧ y0 + 1 ≤ p.2 ∧ p.2 + 2 ≤ y0 + m)
    (hL1 : ∀ p ∈ L1, x0 ≤ p.1 ∧ p.1 < x0 + n ∧ y0 ≤ p.2 ∧ p.2 < y0 + m)
    (hcheck : ∀ dx < n, ∀ dy < m,
      updateAlive (ofList L (x0 + dx) (y0 + dy)) (countNeighbors (ofList L) (x0 + dx) (y0 + dy)) =
        ofList L1 (x0 + dx) (y0 + dy))
    (t : Sim) (hpause : t.pause = false)
    (hs : LiveExactly W H t.spaces L) (ha : LiveExactly W H t.aliveSpaces L) :
    ∃ t1, frame W H t (timerOnly true) = some t1 ∧ t1.pause = false ∧
      t1.generation = (t.generation + 1) % 2 ^ 32 ∧
      LiveExactly W H t1.spaces L1 ∧ LiveExactly W H t1.aliveSpaces L1 := by
  obtain ⟨l, _, e⟩ := frame_timerOnly W H t true hWH
  have htick : tickDue t true = true := by simp [tickDue, hpause]
  rw [htick] at e
  obtain ⟨h1, h2⟩ := tick_in_window W H L L1 x0 y0 n m hwin hL hL1 hcheck _ _ hs ha
  exact ⟨_, e, hpause, by simp, h1, h2⟩

/-- C3. On the 120 x 120 grid, with the settings panel open and the simulation not paused:
the frame in which "Glider" is pressed returns with exactly the five preset cells
`(60,60), (61,60), (62,60), (61,62), (62,61)` alive; four further frames with the timer
elapsed return, advance the generation counter by four, and leave exactly the five cells
`(61,59), (62,59), (63,59), (62,61), (63,60)` alive: the preset moved by `+1` in `x` and `-1`
in `y`. -/
theorem glider_translates_diagonally (s : Sim) (c : Bool) (hp : s.p_open = true)
    (hpause : s.pause = false) :
    ∃ s0 s4,
      frame CELL_SPACE_WIDTH CELL_SPACE_HEIGHT s (pressGlider c) = some s0 ∧
      LiveExactly CELL_SPACE_WIDTH CELL_SPACE_HEIGHT s0.spaces (gliderAt 60 60) ∧
      run CELL_SPACE_WIDTH CELL_SPACE_HEIGHT s0
        [timerOnly true, timerOnly true, timerOnly true, timerOnly true] = some s4 ∧
      s4.generation = (s0.generation + 4) % 2 ^ 32 ∧
      LiveExactly CELL_SPACE_WIDTH CELL_SPACE_HEIGHT s4.spaces (gliderAt (60 + 1) (60 - 1)) := by
  obtain ⟨s0, e0, hp0, hs0, ha0⟩ : ∃ s0,
      frame CELL_SPACE_WIDTH CELL_SPACE_HEIGHT s (pressGlider c) = some s0 ∧ s0.pause = false ∧
      LiveExactly CELL_SPACE_WIDTH CELL_SPACE_HEIGHT s0.spaces (gliderAt 60 60) ∧
      LiveExactly CELL_SPACE_WIDTH CELL_SPACE_HEIGHT s0.aliveSpaces (gliderAt 60 60) := by
    obtain ⟨l, _, e0⟩ := frame_pressGlider s c hp
    exact ⟨_, e0, hpause, liveExactly_glider_preset _, liveExactly_glider_preset _⟩
  have hwin : 1 ≤ 58 ∧ 58 + 8 + 1 ≤ CELL_SPACE_WIDTH ∧ 1 ≤ 57 ∧ 57 + 8 + 1 ≤ CELL_SPACE_HEIGHT := by
    decide
  obtain ⟨s1, e1, hp1, hg1, hs1, ha1⟩ := frame_tick_window CELL_SPACE_WIDTH CELL_SPACE_HEIGHT
    quadCount_program (gliderAt 60 60) gliderGen1 58 57 8 8 hwin (by decide) (by decide)
    glider_step1 s0 hp0 hs0 ha0
  obtain ⟨s2, e2, hp2, hg2, hs2, ha2⟩ := frame_tick_window CELL_SPACE_WIDTH CELL_SPACE_HEIGHT
    quadCount_program gliderGen1 gliderGen2 58 57 8 8 hwin (by decide) (by decide)
    glider_step2 s1 hp1 hs1 ha1
  obtain ⟨s3, e3, hp3, hg3, hs3, ha3⟩ := frame_tick_window CELL_SPACE_WIDTH CELL_SPACE_HEIGHT
    quadCount_program gliderGen2 gliderGen3 58 57 8 8 hwin (by decide) (by decide)
    glider_step3 s2 hp2 hs2 ha2
  obtain ⟨s4, e4, hp4, hg4, hs4, ha4⟩ := frame_tick_window CELL_SPACE_WIDTH CELL_SPACE_HEIGHT
    quadCount_program gliderGen3 (gliderAt 61 59) 58 57 8 8 hwin (by decide) (by decide)
    glider_step4 s3 hp3 hs3 ha3
  refine ⟨s0, s4, e0, hs0, ?_, ?_, hs4⟩
  · simp only [run, forEach, e1, e2, e3, e4, Option.some_bind]
  · rw [hg4, hg3, hg2, hg1]
    omega

/-- Witness of C3: the start-up values with the panel open. -/
theorem glider_translates_diagonally_witness :
    ∃ s0 s4,
      frame CELL_SPACE_WIDTH CELL_SPACE_HEIGHT { blankSim with p_open := true }
        (pressGlider false) = some s0 ∧
      LiveExactly CELL_SPACE_WIDTH CELL_SPACE_HEIGHT s0.spaces (gliderAt 60 60) ∧
      run CELL_SPACE_WIDTH CELL_SPACE_HEIGHT s0
        [timerOnly true, timerOnly true, timerOnly true, timerOnly true] = some s4 ∧
      s4.generation = (s0.generation + 4) % 2 ^ 32 ∧
      LiveExactly CELL_SPACE_WIDTH CELL_SPACE_HEIGHT s4.spaces (gliderAt (60 + 1) (60 - 1)) :=
  glider_translates_diagonally { blankSim with p_open := true } false rfl rfl

/-! ## C4, C5, C6: the draw list -/

theorem pushAll_invariant_from (cmds : List DrawCommand) :
    ∀ (l : DrawList), (∀ c ∈ cmds, c.WellFormed) →
      l.m_Vertices + totalVertices cmds ≤ 2 ^ 32 →
      l.m_Indices.length + totalIndices cmds < 2 ^ 32 →
      (∀ v ∈ l.m_Indices, v < l.m_Vertices) →
      ∃ l1, l.pushAll cmds = some l1 ∧
        l1.m_Indices.length = l.m_Indices.length + totalIndices cmds ∧
        l1.m_Vertices = l.m_Vertices + totalVertices cmds ∧
        (∀ v ∈ l1.m_Indices, v < l1.m_Vertices) ∧
        l1.m_Indices = l.m_Indices ++ offsetIndices l.m_Vertices cmds := by
  induction cmds with
  | nil =>
    intro l _ _ _ hlt
    exact ⟨l, rfl, by simp [totalIndices], by simp [totalVertices], hlt, by simp [offsetIndices]⟩
  | cons c cs ih =>
    intro l hwf hv hi hlt
    obtain ⟨hc1, hc2, hc3, hc4, hc5, hc6⟩ := hwf c (List.mem_cons_self _ _)
    simp only [totalVertices, totalIndices, List.map_cons, List.sum_cons] at hv hi
    have hpush := push_back_eq_some l c (by omega) (by omega)
      (by rw [hc6]; exact Nat.mod_le _ _)
    have hmap : (c.pIndices.take c.indexCount).map (fun v => (v + l.m_Vertices) % 2 ^ 32) =
        (c.pIndices.take c.indexCount).map (fun v => v + l.m_Vertices) := by
      apply List.map_congr_left
      intro v hv1
      have := hc5 v (List.mem_of_mem_take hv1)
      exact Nat.mod_eq_of_lt (by omega)
    have hvert : (l.m_Vertices + c.vertexCount) % 2 ^ 64 = l.m_Vertices + c.vertexCount :=
      Nat.mod_eq_of_lt (by omega)
    rw [hmap, hvert] at hpush
    obtain ⟨l2, e2, hv2, hi2⟩ : ∃ l2, l.push_back c = some l2 ∧
        l2.m_Vertices = l.m_Vertices + c.vertexCount ∧
        l2.m_Indices = l.m_Indices ++
          (c.pIndices.take c.indexCount).map (fun v => v + l.m_Vertices) :=
      ⟨_, hpush, rfl, rfl⟩
    have hlen2 : l2.m_Indices.length = l.m_Indices.length + c.indexCount := by
      rw [hi2, List.length_append, List.length_map, List.length_take]; omega
    obtain ⟨l1, e1, h1, h2, h3, h4⟩ := ih l2 (fun d hd => hwf d (List.mem_cons_of_mem _ hd))
      (by simp only [totalVertices]; omega)
      (by simp only [totalIndices]; omega)
      (by
        intro v hv1
        rw [hi2] at hv1
        simp only [List.mem_append, List.mem_map] at hv1
        rcases hv1 with hv1 | ⟨w, hw, rfl⟩
        · have := hlt v hv1; omega
        · have := hc5 w (List.mem_of_mem_take hw); omega)
    refine ⟨l1, ?_, ?_, ?_, h3, ?_⟩
    · simp only [DrawList.pushAll, e2, Option.some_bind, e1]
    · rw [h1, hlen2]
      simp only [totalIndices, List.map_cons, List.sum_cons]
      omega
    · rw [h2, hv2]
      simp only [totalVertices, List.map_cons, List.sum_cons]
      omega
    · rw [h4, hi2, hv2]
      simp only [offsetIndices, List.append_assoc]

theorem manyIndexCmd_wellFormed (n : Nat) (hn : n < 2 ^ 32) : (manyIndexCmd n).WellFormed := by
  refine ⟨by simp [manyIndexCmd], by simp [manyIndexCmd], hn, ?_, ?_, ?_⟩
  · simp [manyIndexCmd]
  · intro v hv
    have : v = 0 := List.eq_of_mem_replicate hv
    subst this
    simp [manyIndexCmd]
  · simp [manyIndexCmd]

theorem pushAll_manyIndex_none (n : Nat) (hn : n < 2 ^ 32) (hn2 : 2 ^ 32 ≤ n + 2) :
    emptyList.clear.pushAll [manyIndexCmd n, lineCmd] = none := by
  have h1 := push_back_eq_some emptyList.clear (manyIndexCmd n)
    (by simp [manyIndexCmd]) (by simpa [manyIndexCmd, DrawList.clear] using hn)
    (by simp [manyIndexCmd])
  rw [DrawList.pushAll, h1, Option.some_bind, DrawList.pushAll]
  have h2 : ∀ l : DrawList, l.m_Indices.length = n → l.push_back lineCmd = none := by
    intro l hl
    unfold DrawList.push_back
    rw [if_neg (by decide), if_pos (by rw [hl]; exact hn2)]
  rw [h2 _ (by simp [manyIndexCmd, DrawList.clear])]
  rfl

/-- C4 (as stated, refuted). Two well-formed commands pushed on a cleared list: the calls
return, and the second index of the line is stored as `0`, not as its local index `1` plus
the `4294967295` vertices accumulated before it.  And with two well-formed commands whose
index counts sum to `2 ^ 32 + 1`, the second call does not return. -/
theorem push_back_offset_wraps :
    wideCmd.WellFormed ∧ lineCmd.WellFormed ∧
    (∃ l, emptyList.clear.pushAll [wideCmd, lineCmd] = some l ∧
      l.m_Indices = [4294967295, 0] ∧
      offsetIndices 0 [wideCmd, lineCmd] = [4294967295, 4294967296] ∧
      l.m_Indices ≠ offsetIndices 0 [wideCmd, lineCmd]) ∧
    (manyIndexCmd 4294967295).WellFormed ∧
    emptyList.clear.pushAll [manyIndexCmd 4294967295, lineCmd] = none := by
  refine ⟨?_, ?_, ?_, manyIndexCmd_wellFormed _ (by decide),
    pushAll_manyIndex_none 4294967295 (by decide) (by decide)⟩
  · simp [DrawCommand.WellFormed, wideCmd]
  · simp [DrawCommand.WellFormed, lineCmd]
  · refine ⟨_, rfl, ?_, ?_, ?_⟩ <;> decide

/-- C4 (amended). Well-formed commands whose vertex counts sum to at most `2 ^ 32` and whose
index counts sum to less than `2 ^ 32`, pushed on a cleared list: every call returns, the
stored index count is the sum of the `indexCount`, the running vertex count is the sum of
the `vertexCount`, every stored index is below the running vertex count, and the stored
indices are the local indices of each command plus the number of vertices accumulated
before it. -/
theorem pushAll_invariant (l0 : DrawList) (cmds : List DrawCommand)
    (hwf : ∀ c ∈ cmds, c.WellFormed)
    (hv : totalVertices cmds ≤ 2 ^ 32) (hi : totalIndices cmds < 2 ^ 32) :
    ∃ l, l0.clear.pushAll cmds = some l ∧
      l.index_count = totalIndices cmds ∧
      l.m_Vertices = totalVertices cmds ∧
      (∀ v ∈ l.m_Indices, v < l.m_Vertices) ∧
      l.m_Indices = offsetIndices 0 cmds := by
  obtain ⟨l, e, h1, h2, h3, h4⟩ := pushAll_invariant_from cmds l0.clear hwf
    (by simpa [DrawList.clear] using hv) (by simpa [DrawList.clear] using hi)
    (by simp [DrawList.clear])
  refine ⟨l, e, ?_, ?_, h3, ?_⟩
  · simpa [DrawList.index_count, DrawList.clear] using h1
  · simpa [DrawList.clear] using h2
  · simpa [DrawList.clear] using h4

/-- Witness of C4 (amended): a line, a quad and a line pushed on a cleared list that held
a line before.  The three calls return, 10 indices and 8 vertices are stored, and the
stored indices are `0, 1`, then `2, 3, 4, 2, 4, 5` (the quad, offset by 2), then `6, 7`
(the second line, offset by 6). -/
theorem pushAll_invariant_witness :
    ∃ l, usedList.clear.pushAll [lineCmd, quadCmd, lineCmd] = some l ∧
      l.index_count = 10 ∧ l.m_Vertices = 8 ∧
      (∀ v ∈ l.m_Indices, v < l.m_Vertices) ∧
      l.m_Indices = [0, 1, 2, 3, 4, 2, 4, 5, 6, 7] := by
  obtain ⟨l, e, h1, h2, h3, h4⟩ := pushAll_invariant usedList [lineCmd, quadCmd, lineCmd]
    (by simp [DrawCommand.WellFormed, lineCmd, quadCmd]) (by decide) (by decide)
  refine ⟨l, e, ?_, ?_, h3, ?_⟩
  · rw [h1]; decide
  · rw [h2]; decide
  · rw [h4]; decide

theorem rectThenLine_eq (l0 : DrawList) (pos size : OglsVec2) (color : OglsVec3)
    (pos1 pos2 : OglsVec2) (color2 : OglsVec3) :
    ∃ l, rectThenLine l0.clear pos size color pos1 pos2 color2 = some l ∧
      l.m_VerticesRaw.length = 30 ∧ l.m_Vertices = 6 ∧ l.m_Indices = [0, 1, 2, 0, 2, 3, 4, 5] := by
  simp only [rectThenLine, drawRect, drawLine, DrawList.clear]
  rw [push_back_eq_some _ _ (by simp) (by simp) (by simp), Option.some_bind,
    push_back_eq_some _ _ (by simp) (by simp) (by simp)]
  exact ⟨_, rfl, by simp, by simp, by simp⟩

/-- C5 (as stated, refuted). After `drawRect` then `drawLine` on a cleared list,
`vertex_count()` is not `6`: it returns `30`, the number of stored floats. -/
theorem rect_line_vertex_count_is_30 :
    ∃ l, rectThenLine emptyList.clear ⟨0, 0⟩ ⟨10, 10⟩ COLOR_FG ⟨0, 0⟩ ⟨10, 10⟩ COLOR_RED = some l ∧
      l.vertex_count = 30 ∧ l.vertex_count ≠ 6 := by
  obtain ⟨l, e, h1, _, _⟩ :=
    rectThenLine_eq emptyList ⟨0, 0⟩ ⟨10, 10⟩ COLOR_FG ⟨0, 0⟩ ⟨10, 10⟩ COLOR_RED
  refine ⟨l, e, h1, ?_⟩
  rw [DrawList.vertex_count, h1]
  decide

/-- C5 (amended). For every rectangle and every line, `drawRect` then `drawLine` on a
cleared list return a list whose running vertex count `m_Vertices` is `6`, whose
`vertex_count()` is `30` (the six vertices of five floats each), whose `index_count()` is
`8`, and whose stored indices are `0, 1, 2, 0, 2, 3, 4, 5`, each smaller than `6`. -/
theorem rect_line_counts (l0 : DrawList) (pos size : OglsVec2) (color : OglsVec3)
    (pos1 pos2 : OglsVec2) (color2 : OglsVec3) :
    ∃ l, rectThenLine l0.clear pos size color pos1 pos2 color2 = some l ∧
      l.m_Vertices = 6 ∧ l.vertex_count = 30 ∧ l.index_count = 8 ∧
      l.m_Indices = [0, 1, 2, 0, 2, 3, 4, 5] ∧ ∀ v ∈ l.m_Indices, v < 6 := by
  obtain ⟨l, e, h1, h2, h3⟩ := rectThenLine_eq l0 pos size color pos1 pos2 color2
  refine ⟨l, e, h2, h1, ?_, h3, ?_⟩
  · rw [DrawList.index_count, h3]; rfl
  · rw [h3]; decide

/-- C6. For every draw list (so for every one reached through `push_back` and `clear`),
after `clear()` the list is `empty()`, `vertex_size()`, `index_size()`, `index_count()` and
`drawcmd_count()` are `0` and the running vertex count is `0`; the next `push_back` of a
command with `uint32_t` indices returns and stores the indices of the command unchanged. -/
theorem clear_resets (l : DrawList) (c : DrawCommand)
    (hidx : c.indexCount ≤ c.pIndices.length) (hcount : c.indexCount < 2 ^ 32)
    (hfloats : (c.vertexCount * c.vertexAttributeCount) % 2 ^ 32 ≤ c.pVertices.length)
    (hu32 : ∀ v ∈ c.pIndices, v < 2 ^ 32) :
    l.clear.empty = true ∧ l.clear.vertex_size = 0 ∧ l.clear.index_size = 0 ∧
      l.clear.index_count = 0 ∧ l.clear.drawcmd_count = 0 ∧ l.clear.m_Vertices = 0 ∧
      ∃ l1, l.clear.push_back c = some l1 ∧ l1.m_Indices = c.pIndices.take c.indexCount := by
  refine ⟨rfl, rfl, rfl, rfl, rfl, rfl, ?_⟩
  rw [push_back_eq_some _ _ hidx (by simpa [DrawList.clear] using hcount) hfloats]
  refine ⟨_, rfl, ?_⟩
  simp only [DrawList.clear, List.nil_append, Nat.add_zero]
  conv_rhs => rw [← List.map_id (c.pIndices.take c.indexCount)]
  apply List.map_congr_left
  intro v hv
  exact Nat.mod_eq_of_lt (hu32 v (List.mem_of_mem_take hv))

/-- Witness of C6: the list that holds a line, cleared, then a line pushed again. -/
theorem clear_resets_witness :
    usedList.clear.empty = true ∧ usedList.clear.vertex_size = 0 ∧
      usedList.clear.index_size = 0 ∧ usedList.clear.index_count = 0 ∧
      usedList.clear.drawcmd_count = 0 ∧ usedList.clear.m_Vertices = 0 ∧
      ∃ l1, usedList.clear.push_back lineCmd = some l1 ∧
        l1.m_Indices = lineCmd.pIndices.take lineCmd.indexCount :=
  clear_resets usedList lineCmd (by decide) (by decide) (by decide) (by decide)

/-! ## C7: Fill Randomly with distribution 1 and concentration 100 -/

theorem forEach_total_preserve {σ α : Type} (body : σ → α → Option σ) (Q : σ → Prop)
    (l : List α)
    (hbody : ∀ st a, a ∈ l → ∃ st1, body st a = some st1 ∧ (Q st → Q st1)) :
    ∀ st, ∃ st1, forEach body l st = some st1 ∧ (Q st → Q st1) := by
  induction l with
  | nil => exact fun st => ⟨st, rfl, id⟩
  | cons a rest ih =>
    intro st
    obtain ⟨st1, e1, h1⟩ := hbody st a (List.mem_cons_self _ _)
    obtain ⟨st2, e2, h2⟩ := ih (fun st b hb => hbody st b (List.mem_cons_of_mem _ hb)) st1
    exact ⟨st2, by rw [forEach_cons, e1, Option.some_bind, e2], fun h => h2 (h1 h)⟩

theorem forEach_establish {σ α : Type} (body : σ → α → Option σ) (Q : σ → Prop) (a0 : α)
    (l : List α)
    (hbody : ∀ st a, a ∈ l →
      ∃ st1, body st a = some st1 ∧ (Q st → Q st1) ∧ (a = a0 → Q st1)) :
    ∀ st, ∃ st1, forEach body l st = some st1 ∧ (Q st → Q st1) ∧ (a0 ∈ l → Q st1) := by
  induction l with
  | nil => exact fun st => ⟨st, rfl, id, fun h => absurd h (List.not_mem_nil _)⟩
  | cons a rest ih =>
    intro st
    obtain ⟨st1, e1, h1, h1a⟩ := hbody st a (List.mem_cons_self _ _)
    obtain ⟨st2, e2, h2, h2a⟩ :=
      ih (fun st b hb => hbody st b (List.mem_cons_of_mem _ hb)) st1
    refine ⟨st2, by rw [forEach_cons, e1, Option.some_bind, e2], fun h => h2 (h1 h), ?_⟩
    intro hm
    rcases List.mem_cons.mp hm with h | h
    · exact h2 (h1a h.symm)
    · exact h2a h

theorem inGrid_clamp (W H : Nat) (hW : 0 < W) (hH : 0 < H) (k l : Int) :
    inGrid W H (clampLeft W k) (clampBottom H l) = true := by
  simp only [inGrid, clampLeft, clampBottom, Bool.and_eq_true, decide_eq_true_eq]
  split_ifs <;> omega

theorem aliveBoth_writeBoth_true (x y i j : Nat) (s : Sim) (h : AliveBoth x y s ∨ (x = i ∧ y = j)) :
    AliveBoth x y (writeBoth s i j true) := by
  unfold AliveBoth writeBoth
  simp only [setAlive_apply]
  rcases h with ⟨h1, h2⟩ | h
  · by_cases hc : x = i ∧ y = j <;> simp [hc, h1, h2]
  · simp [h]

theorem contaminate_full (W H : Nat) (hW : 0 < W) (hH : 0 < H) (rand : Nat → Nat)
    (x y : Nat) (st : RandGrid) (kl : Int × Int) :
    ∃ st1, contaminate W H rand 100 st kl = some st1 ∧
      (AliveBoth x y st.sim → AliveBoth x y st1.sim) := by
  have hroll : decide (Int.tmod (rand st.calls : Int) 100 + 1 ≤ 100) = true := by
    have := Int.tmod_lt_of_pos (rand st.calls : Int) (show (0 : Int) < 100 by decide)
    simp only [decide_eq_true_eq]
    omega
  unfold contaminate
  simp only [hroll]
  rw [writeAt_eq_some W H st.sim _ _ true (inGrid_clamp W H hW hH kl.1 kl.2)]
  exact ⟨_, rfl, fun h => aliveBoth_writeBoth_true x y _ _ st.sim (Or.inl h)⟩

theorem fillRandomCell_full (W H : Nat) (rand : Nat → Nat) (concRadius : Int) (x y : Nat)
    (st : RandGrid) (ij : Nat × Nat) (hij : ij ∈ allCells W H) :
    ∃ st1, fillRandomCell W H rand 1 100 concRadius st ij = some st1 ∧
      (AliveBoth x y st.sim → AliveBoth x y st1.sim) ∧
      (ij = (x, y) → AliveBoth x y st1.sim) := by
  have hin : ij.1 < W ∧ ij.2 < H := (mem_allCells W H ij.1 ij.2).mp hij
  unfold fillRandomCell
  simp only [Int.tmod_one, decide_True, if_true, one_ne_zero, if_false]
  obtain ⟨st1, e1, h1⟩ := forEach_total_preserve (contaminate W H rand 100)
    (fun t => AliveBoth x y t.sim) (neighbourhood ij.1 ij.2 concRadius)
    (fun t kl _ => contaminate_full W H (by omega) (by omega) rand x y t kl)
    { sim := writeBoth st.sim ij.1 ij.2 true, calls := st.calls + 1 }
  refine ⟨st1, e1, fun h => h1 (aliveBoth_writeBoth_true x y _ _ st.sim (Or.inl h)), ?_⟩
  intro h
  refine h1 (aliveBoth_writeBoth_true x y _ _ st.sim (Or.inr ?_))
  rw [h]
  exact ⟨rfl, rfl⟩

/-- C7. For every prior state, every sequence of `rand()` values and every concentration
radius (so for each radius in 1..50), "Fill Randomly" with `distribution = 1` and
`concentration = 100` returns and leaves every interior cell alive in `spaces` and in
`aliveSpaces`. -/
theorem fillRandomly_full (W H : Nat) (rand : Nat → Nat) (s : Sim)
    (hd : s.distribution = 1) (hc : s.concentration = 100)
    (_hr : 1 ≤ s.concRadius ∧ s.concRadius ≤ 50) :
    ∃ s1, fillRandomly W H rand s = some s1 ∧
      ∀ x y, 1 ≤ x ∧ x ≤ W - 2 → 1 ≤ y ∧ y ≤ H - 2 →
        s1.spaces x y = true ∧ s1.aliveSpaces x y = true := by
  obtain ⟨st0, e0, _⟩ := forEach_establish (fillRandomCell W H rand 1 100 s.concRadius)
    (fun _ => True) (0, 0) (allCells W H)
    (fun st a ha => by
      obtain ⟨st1, e1, _, _⟩ := fillRandomCell_full W H rand s.concRadius 0 0 st a ha
      exact ⟨st1, e1, fun _ => trivial, fun _ => trivial⟩)
    { sim := s, calls := 0 }
  refine ⟨st0.sim, by simp [fillRandomly, hd, hc, e0], ?_⟩
  intro x y hx hy
  obtain ⟨st1, e1, _, h1⟩ := forEach_establish (fillRandomCell W H rand 1 100 s.concRadius)
    (fun t => AliveBoth x y t.sim) (x, y) (allCells W H)
    (fun st a ha => fillRandomCell_full W H rand s.concRadius x y st a ha)
    { sim := s, calls := 0 }
  have hst : st1 = st0 := Option.some.inj (e1.symm.trans e0)
  rw [← hst]
  exact h1 ((mem_allCells W H x y).mpr ⟨by omega, by omega⟩)

/-- Witness of C7: the start-up values with the two sliders set, on the 120 x 120 grid. -/
theorem fillRandomly_full_witness :
    ∃ s1, fillRandomly 120 120 (fun n => 7 * n + 3)
        { blankSim with distribution := 1, concentration := 100 } = some s1 ∧
      ∀ x y, 1 ≤ x ∧ x ≤ 120 - 2 → 1 ≤ y ∧ y ≤ 120 - 2 →
        s1.spaces x y = true ∧ s1.aliveSpaces x y = true :=
  fillRandomly_full 120 120 (fun n => 7 * n + 3)
    { blankSim with distribution := 1, concentration := 100 } rfl rfl (by decide)

/-! ## C8: paused single steps -/

/-- A frame in which no header is open and neither "Clear" nor "Reset" is pressed: it
returns, and only the panel flags, the pause flag, the iterate flag, the generation counter,
the draw list and the tick of the grid are affected. -/
theorem frame_controls (W H : Nat) (s : Sim) (inp : Input) (hWH : 6 * quadCount W H < 2 ^ 32)
    (h1 : inp.hdrEditor = false) (h2 : inp.hdrPresets = false) (h3 : inp.btnReset = false)
    (h4 : inp.btnClear = false) :
    ∃ l, frame W H s inp = some
      { s with
        spaces := nextSpaces W H (tickDue s inp.calculate) s.spaces s.aliveSpaces
        aliveSpaces := nextAlive W H (tickDue s inp.calculate) s.spaces s.aliveSpaces
        list := l
        generation :=
          if tickDue s inp.calculate then (s.generation + 1) % 2 ^ 32 else s.generation
        p_open := panelShown s inp && !inp.closeSettings
        pressOnce := inp.keyC
        pause := if panelShown s inp && inp.btnPause then !s.pause else s.pause
        iterate := if panelShown s inp then inp.btnIterate else s.iterate } := by
  obtain ⟨l, _, e⟩ := simPhase_spec W H s inp.calculate hWH
  refine ⟨l, ?_⟩
  cases hk : inp.keyC <;> cases hpo : s.pressOnce <;> cases hop : s.p_open <;>
    cases hc : inp.closeSettings <;> cases hbp : inp.btnPause <;>
    cases hbi : inp.btnIterate <;> cases hpa : s.pause <;>
    simp [frame, e, uiPhase, panelToggle, settingsPanel, closeBox, iterateButton, h1, h2, h3,
      h4, panelShown,
      pauseButton, hk, hpo, hop, hc, hbp, hbi, hpa]

theorem frame_controls_fields (W H : Nat) (s : Sim) (inp : Input)
    (hWH : 6 * quadCount W H < 2 ^ 32)
    (h1 : inp.hdrEditor = false) (h2 : inp.hdrPresets = false) (h3 : inp.btnReset = false)
    (h4 : inp.btnClear = false) :
    ∃ s1, frame W H s inp = some s1 ∧
      s1.spaces = nextSpaces W H (tickDue s inp.calculate) s.spaces s.aliveSpaces ∧
      s1.aliveSpaces = nextAlive W H (tickDue s inp.calculate) s.spaces s.aliveSpaces ∧
      s1.generation =
        (if tickDue s inp.calculate then (s.generation + 1) % 2 ^ 32 else s.generation) ∧
      s1.p_open = (panelShown s inp && !inp.closeSettings) ∧
      s1.pressOnce = inp.keyC ∧
      s1.pause = (if panelShown s inp && inp.btnPause then !s.pause else s.pause) ∧
      s1.iterate = (if panelShown s inp then inp.btnIterate else s.iterate) := by
  obtain ⟨l, e⟩ := frame_controls W H s inp hWH h1 h2 h3 h4
  exact ⟨_, e, rfl, rfl, rfl, rfl, rfl, rfl, rfl⟩

theorem initSim_fields :
    ∃ s0, initSim = some s0 ∧ s0.generation = 0 ∧ s0.pause = false ∧ s0.iterate = false ∧
      s0.p_open = false ∧ s0.pressOnce = false := by
  unfold initSim
  rw [forEach_writeAt_offsets CELL_SPACE_WIDTH CELL_SPACE_HEIGHT rPentominoOffsets (by decide)]
  exact ⟨_, rfl, rfl, rfl, rfl, rfl, rfl⟩

/-- C8 (failing input). From the start of the program: the panel is opened, "pause" is
pressed, "Iterate" is pressed in one frame, the panel is closed with the `c` key in the next
frame, and two more frames pass with nothing pressed.  The simulation is paused from the
second frame on and "Iterate" was pressed once, yet each of the last three frames computes a
tick and the generation counter goes from 0 to 3. -/
theorem iterate_latched_when_panel_closes :
    ∃ s0 s1 s2 s3 s4 s5 s6,
      initSim = some s0 ∧
      frame CELL_SPACE_WIDTH CELL_SPACE_HEIGHT s0 (pressC false) = some s1 ∧
      frame CELL_SPACE_WIDTH CELL_SPACE_HEIGHT s1 (clickPause false) = some s2 ∧
      frame CELL_SPACE_WIDTH CELL_SPACE_HEIGHT s2 (clickIterate true) = some s3 ∧
      frame CELL_SPACE_WIDTH CELL_SPACE_HEIGHT s3 (pressC true) = some s4 ∧
      frame CELL_SPACE_WIDTH CELL_SPACE_HEIGHT s4 (timerOnly true) = some s5 ∧
      frame CELL_SPACE_WIDTH CELL_SPACE_HEIGHT s5 (timerOnly true) = some s6 ∧
      (s2.pause = true ∧ s3.pause = true ∧ s4.pause = true ∧ s5.pause = true ∧
        s6.pause = true) ∧
      (s2.generation = 0 ∧ s3.generation = 0 ∧ s4.generation = 1 ∧ s5.generation = 2 ∧
        s6.generation = 3) ∧
      s4.spaces = nextSpaces CELL_SPACE_WIDTH CELL_SPACE_HEIGHT true s3.spaces s3.aliveSpaces ∧
      s5.spaces = nextSpaces CELL_SPACE_WIDTH CELL_SPACE_HEIGHT true s4.spaces s4.aliveSpaces ∧
      s6.spaces = nextSpaces CELL_SPACE_WIDTH CELL_SPACE_HEIGHT true s5.spaces s5.aliveSpaces := by
  obtain ⟨s0, e0, g0, pa0, it0, po0, pr0⟩ := initSim_fields
  obtain ⟨s1, e1, -, -, g1, po1, pr1, pa1, it1⟩ := frame_controls_fields CELL_SPACE_WIDTH
    CELL_SPACE_HEIGHT s0 (pressC false) quadCount_program rfl rfl rfl rfl
  simp [pressC, tickDue, panelShown, g0, pa0, it0, po0, pr0] at g1 po1 pr1 pa1 it1
  obtain ⟨s2, e2, -, -, g2, po2, pr2, pa2, it2⟩ := frame_controls_fields CELL_SPACE_WIDTH
    CELL_SPACE_HEIGHT s1 (clickPause false) quadCount_program rfl rfl rfl rfl
  simp [clickPause, tickDue, panelShown, g1, pa1, it1, po1, pr1] at g2 po2 pr2 pa2 it2
  obtain ⟨s3, e3, -, -, g3, po3, pr3, pa3, it3⟩ := frame_controls_fields CELL_SPACE_WIDTH
    CELL_SPACE_HEIGHT s2 (clickIterate true) quadCount_program rfl rfl rfl rfl
  simp [clickIterate, tickDue, panelShown, g2, pa2, it2, po2, pr2] at g3 po3 pr3 pa3 it3
  obtain ⟨s4, e4, sp4, -, g4, po4, pr4, pa4, it4⟩ := frame_controls_fields CELL_SPACE_WIDTH
    CELL_SPACE_HEIGHT s3 (pressC true) quadCount_program rfl rfl rfl rfl
  simp [pressC, tickDue, panelShown, g3, pa3, it3, po3, pr3] at sp4 g4 po4 pr4 pa4 it4
  obtain ⟨s5, e5, sp5, -, g5, po5, pr5, pa5, it5⟩ := frame_controls_fields CELL_SPACE_WIDTH
    CELL_SPACE_HEIGHT s4 (timerOnly true) quadCount_program rfl rfl rfl rfl
  simp [timerOnly, tickDue, panelShown, g4, pa4, it4, po4, pr4] at sp5 g5 po5 pr5 pa5 it5
  obtain ⟨s6, e6, sp6, -, g6, po6, pr6, pa6, it6⟩ := frame_controls_fields CELL_SPACE_WIDTH
    CELL_SPACE_HEIGHT s5 (timerOnly true) quadCount_program rfl rfl rfl rfl
  simp [timerOnly, tickDue, panelShown, g5, pa5, it5, po5, pr5] at sp6 g6 po6 pr6 pa6 it6
  exact ⟨s0, s1, s2, s3, s4, s5, s6, e0, e1, e2, e3, e4, e5, e6, ⟨pa2, pa3, pa4, pa5, pa6⟩,
    ⟨g2, g3, g4, g5, g6⟩, sp4, sp5, sp6⟩

/-! ## C2 and C9: the border ring -/

theorem drawRectImmediate_eq (l : DrawList) (pos size : OglsVec2) (color : OglsVec3) :
    drawRectImmediate l pos size color = some (immediateRect pos size color) := by
  simp only [drawRectImmediate, drawRect, DrawList.clear]
  rw [push_back_eq_some _ _ (by simp) (by simp) (by simp)]
  simp [immediateRect]

theorem frame_clickFillAll (W H : Nat) (s : Sim) (c : Bool) (hWH : 6 * quadCount W H < 2 ^ 32)
    (hp : s.p_open = true) :
    ∃ s1, frame W H s (clickFillAll c) = some s1 ∧
      s1.spaces = filled W H true (nextSpaces W H (tickDue s c) s.spaces s.aliveSpaces) ∧
      s1.aliveSpaces = filled W H true (nextAlive W H (tickDue s c) s.spaces s.aliveSpaces) ∧
      s1.generation = (if tickDue s c then (s.generation + 1) % 2 ^ 32 else s.generation) ∧
      s1.p_open = true ∧ s1.pressOnce = false ∧ s1.pause = s.pause ∧ s1.iterate = false := by
  obtain ⟨l, _, e⟩ := simPhase_spec W H s c hWH
  simp [frame, clickFillAll, e, uiPhase, panelToggle, settingsPanel, closeBox, iterateButton,
    editorPanel, cursorUp, cursorLeft, cursorRight, cursorDown, cursorToCenter, sliders,
    drawCursor,
    drawRectImmediate_eq, fillBoth_eq, clampCursor, slide, hp]

/-- The run used for the border properties: from the start of the program the panel is opened,
"Fill all cells" is pressed, and one frame with the timer elapsed follows. -/
theorem fillAll_then_tick :
    ∃ s0 s1 s2 s3,
      initSim = some s0 ∧
      frame CELL_SPACE_WIDTH CELL_SPACE_HEIGHT s0 (pressC false) = some s1 ∧
      frame CELL_SPACE_WIDTH CELL_SPACE_HEIGHT s1 (clickFillAll false) = some s2 ∧
      frame CELL_SPACE_WIDTH CELL_SPACE_HEIGHT s2 (timerOnly true) = some s3 ∧
      (∀ x y, x < CELL_SPACE_WIDTH → y < CELL_SPACE_HEIGHT →
        s2.spaces x y = true ∧ s2.aliveSpaces x y = true) ∧
      s3.spaces = nextSpaces CELL_SPACE_WIDTH CELL_SPACE_HEIGHT true s2.spaces s2.aliveSpaces ∧
      s3.aliveSpaces =
        nextAlive CELL_SPACE_WIDTH CELL_SPACE_HEIGHT true s2.spaces s2.aliveSpaces ∧
      s2.pause = false ∧ s3.pause = false := by
  obtain ⟨s0, e0, g0, pa0, it0, po0, pr0⟩ := initSim_fields
  obtain ⟨s1, e1, -, -, g1, po1, pr1, pa1, it1⟩ := frame_controls_fields CELL_SPACE_WIDTH
    CELL_SPACE_HEIGHT s0 (pressC false) quadCount_program rfl rfl rfl rfl
  simp [pressC, tickDue, panelShown, g0, pa0, it0, po0, pr0] at g1 po1 pr1 pa1 it1
  obtain ⟨s2, e2, sp2, al2, -, po2, pr2, pa2, it2⟩ := frame_clickFillAll CELL_SPACE_WIDTH
    CELL_SPACE_HEIGHT s1 false quadCount_program po1
  rw [pa1] at pa2
  obtain ⟨s3, e3, sp3, al3, -, -, -, pa3, -⟩ := frame_controls_fields CELL_SPACE_WIDTH
    CELL_SPACE_HEIGHT s2 (timerOnly true) quadCount_program rfl rfl rfl rfl
  simp [timerOnly, tickDue, panelShown, pa2, it2, po2, pr2] at sp3 al3 pa3
  refine ⟨s0, s1, s2, s3, e0, e1, e2, e3, ?_, sp3, al3, pa2, pa3⟩
  intro x y hx hy
  rw [sp2, al2]
  simp [filled, hx, hy]

/-- C2 (failing input). From the start of the program the panel is opened, "Fill all
cells" is pressed, and one frame with the timer elapsed and the simulation not paused
follows.  That frame computes a tick and returns; afterwards the ring cells `(5, 119)`,
`(119, 5)` and `(119, 119)` are still alive, while `(0, 5)` and `(5, 0)` are dead. -/
theorem border_ring_not_cleared :
    ∃ s0 s1 s2 s3,
      initSim = some s0 ∧
      frame CELL_SPACE_WIDTH CELL_SPACE_HEIGHT s0 (pressC false) = some s1 ∧
      frame CELL_SPACE_WIDTH CELL_SPACE_HEIGHT s1 (clickFillAll false) = some s2 ∧
      frame CELL_SPACE_WIDTH CELL_SPACE_HEIGHT s2 (timerOnly true) = some s3 ∧
      tickDue s2 true = true ∧
      s3.spaces 5 119 = true ∧ s3.spaces 119 5 = true ∧ s3.spaces 119 119 = true ∧
      s3.spaces 0 5 = false ∧ s3.spaces 5 0 = false := by
  obtain ⟨s0, s1, s2, s3, e0, e1, e2, e3, hfull, sp3, -, hp2, -⟩ := fillAll_then_tick
  have h1 := (hfull 5 119 (by decide) (by decide)).1
  have h2 := (hfull 119 5 (by decide) (by decide)).1
  have h3 := (hfull 119 119 (by decide) (by decide)).1
  refine ⟨s0, s1, s2, s3, e0, e1, e2, e3, by simp [tickDue, hp2], ?_, ?_, ?_, ?_, ?_⟩ <;>
    rw [sp3] <;>
    simp [nextSpaces, isCleared, isInterior, CELL_SPACE_WIDTH, CELL_SPACE_HEIGHT, h1, h2, h3]

/-- C9 (failing input). From the start of the program the panel is opened, "Fill all
cells" is pressed and one frame passes.  The state in which the next frame starts is
reachable, a tick is due in it with the timer elapsed, and the shadow array differs from
the cell array on the border: `aliveSpaces[0][5]` and `aliveSpaces[5][0]` are `true` while
`spaces[0][5].alive` and `spaces[5][0].alive` are `false`.  The dead border cells keep
counting as neighbours: the dead cell `(1, 5)` has no alive neighbour in `spaces` but three
in `aliveSpaces`, the dead border cells `(0, 4)`, `(0, 5)`, `(0, 6)`. -/
theorem shadow_border_out_of_sync :
    ∃ s0 s1 s2 s3,
      initSim = some s0 ∧
      frame CELL_SPACE_WIDTH CELL_SPACE_HEIGHT s0 (pressC false) = some s1 ∧
      frame CELL_SPACE_WIDTH CELL_SPACE_HEIGHT s1 (clickFillAll false) = some s2 ∧
      frame CELL_SPACE_WIDTH CELL_SPACE_HEIGHT s2 (timerOnly true) = some s3 ∧
      Reachable s3 ∧ tickDue s3 true = true ∧
      (s3.aliveSpaces 0 5 = true ∧ s3.spaces 0 5 = false) ∧
      (s3.aliveSpaces 5 0 = true ∧ s3.spaces 5 0 = false) ∧
      (s3.spaces 0 4 = false ∧ s3.spaces 0 6 = false ∧ s3.spaces 1 5 = false ∧
        countNeighbors s3.aliveSpaces 1 5 = 3 ∧ countNeighbors s3.spaces 1 5 = 0) := by
  obtain ⟨s0, s1, s2, s3, e0, e1, e2, e3, hfull, sp3, al3, -, pa3⟩ := fillAll_then_tick
  have hs : ∀ x y, x < CELL_SPACE_WIDTH → y < CELL_SPACE_HEIGHT → s2.spaces x y = true :=
    fun x y hx hy => (hfull x y hx hy).1
  have ha : ∀ x y, x < CELL_SPACE_WIDTH → y < CELL_SPACE_HEIGHT → s2.aliveSpaces x y = true :=
    fun x y hx hy => (hfull x y hx hy).2
  have hn : ∀ x y, 1 ≤ x → x ≤ 3 → 1 ≤ y → y ≤ 7 → countNeighbors s2.aliveSpaces x y = 8 := by
    intro x y h1 h2 h3 h4
    unfold countNeighbors
    rw [ha (x - 1) y (by simp only [CELL_SPACE_WIDTH]; omega)
        (by simp only [CELL_SPACE_HEIGHT]; omega),
      ha (x + 1) y (by simp only [CELL_SPACE_WIDTH]; omega)
        (by simp only [CELL_SPACE_HEIGHT]; omega),
      ha x (y - 1) (by simp only [CELL_SPACE_WIDTH]; omega)
        (by simp only [CELL_SPACE_HEIGHT]; omega),
      ha x (y + 1) (by simp only [CELL_SPACE_WIDTH]; omega)
        (by simp only [CELL_SPACE_HEIGHT]; omega),
      ha (x - 1) (y - 1) (by simp only [CELL_SPACE_WIDTH]; omega)
        (by simp only [CELL_SPACE_HEIGHT]; omega),
      ha (x - 1) (y + 1) (by simp only [CELL_SPACE_WIDTH]; omega)
        (by simp only [CELL_SPACE_HEIGHT]; omega),
      ha (x + 1) (y - 1) (by simp only [CELL_SPACE_WIDTH]; omega)
        (by simp only [CELL_SPACE_HEIGHT]; omega),
      ha (x + 1) (y + 1) (by simp only [CELL_SPACE_WIDTH]; omega)
        (by simp only [CELL_SPACE_HEIGHT]; omega)]
    rfl
  -- the shadow array after the tick: alive on the border, dead next to it
  have hal : ∀ x y, x ≤ 2 → 4 ≤ y → y ≤ 6 →
      s3.aliveSpaces x y = decide (x = 0) := by
    intro x y h1 h2 h3
    rw [al3]
    rcases Nat.eq_zero_or_pos x with h0 | h0
    · subst h0
      simp [nextAlive, isInterior, ha 0 y (by decide) (by simp only [CELL_SPACE_HEIGHT]; omega)]
    · have hi : isInterior CELL_SPACE_WIDTH CELL_SPACE_HEIGHT x y = true := by
        simp only [isInterior, CELL_SPACE_WIDTH, CELL_SPACE_HEIGHT, Bool.and_eq_true,
          decide_eq_true_eq]
        omega
      have hx0 : x ≠ 0 := by omega
      simp [nextAlive, hi, hn x y (by omega) (by omega) (by omega) (by omega),
        hs x y (by simp only [CELL_SPACE_WIDTH]; omega)
          (by simp only [CELL_SPACE_HEIGHT]; omega), updateAlive, hx0]
  have hsp : ∀ x y, x ≤ 2 → 4 ≤ y → y ≤ 6 → s3.spaces x y = false := by
    intro x y h1 h2 h3
    rw [sp3]
    rcases Nat.eq_zero_or_pos x with h0 | h0
    · subst h0
      have : isCleared CELL_SPACE_WIDTH CELL_SPACE_HEIGHT 0 y = true := by
        rw [isCleared_iff]
        exact Or.inr ⟨rfl, by simp only [CELL_SPACE_HEIGHT]; omega⟩
      simp [nextSpaces, this]
    · have hi : isInterior CELL_SPACE_WIDTH CELL_SPACE_HEIGHT x y = true := by
        simp only [isInterior, CELL_SPACE_WIDTH, CELL_SPACE_HEIGHT, Bool.and_eq_true,
          decide_eq_true_eq]
        omega
      simp [nextSpaces, hi, hn x y (by omega) (by omega) (by omega) (by omega),
        hs x y (by simp only [CELL_SPACE_WIDTH]; omega)
          (by simp only [CELL_SPACE_HEIGHT]; omega), updateAlive]
  have h05 := hfull 0 5 (by decide) (by decide)
  have h50 := hfull 5 0 (by decide) (by decide)
  have hr : Reachable s3 :=
    Reachable.step s2 s3 _ (Reachable.step s1 s2 _ (Reachable.step s0 s1 _
      (Reachable.start s0 e0) e1) e2) e3
  refine ⟨s0, s1, s2, s3, e0, e1, e2, e3, hr, by simp [tickDue, pa3], ⟨?_, ?_⟩, ⟨?_, ?_⟩,
    ⟨hsp 0 4 (by decide) (by decide) (by decide), hsp 0 6 (by decide) (by decide) (by decide),
      hsp 1 5 (by decide) (by decide) (by decide), ?_, ?_⟩⟩
  · rw [al3]; simp [nextAlive, isInterior, h05.2]
  · rw [sp3]; simp [nextSpaces, isCleared, CELL_SPACE_HEIGHT]
  · rw [al3]; simp [nextAlive, isInterior, h50.2]
  · rw [sp3]; simp [nextSpaces, isCleared, CELL_SPACE_WIDTH]
  · unfold countNeighbors
    simp [hal]
  · unfold countNeighbors
    simp [hsp]

/-- After the first half of any frame, the shadow array equals the cell array on every
interior cell. -/
theorem simPhase_interior_in_sync (W H : Nat) (s : Sim) (calculate : Bool)
    (hWH : 6 * quadCount W H < 2 ^ 32) :
    ∃ s1, simPhase W H s calculate = some s1 ∧
      ∀ x y, 1 ≤ x ∧ x ≤ W - 2 → 1 ≤ y ∧ y ≤ H - 2 → s1.aliveSpaces x y = s1.spaces x y := by
  obtain ⟨l1, _, e⟩ := simPhase_spec W H s calculate hWH
  refine ⟨_, e, ?_⟩
  intro x y hx hy
  have hi : isInterior W H x y = true := by
    simp only [isInterior, Bool.and_eq_true, decide_eq_true_eq]; omega
  have hc : isCleared W H x y = false := by
    rw [← Bool.not_eq_true, isCleared_iff]; omega
  cases ht : tickDue s calculate <;> simp [nextSpaces, nextAlive, hi, hc, ht]

/-! ## C10: the draw list of a frame fits the GPU buffers -/

theorem mem_quadIndices (k v : Nat) (h : v ∈ quadIndices k) : v < 4 * k := by
  unfold quadIndices at h
  simp only [List.mem_flatMap, List.mem_range, List.mem_cons, List.mem_singleton,
    List.not_mem_nil, or_false] at h
  obtain ⟨q, hq, hv⟩ := h
  omega

theorem offsetIndices_quads (cmds : List DrawCommand)
    (hq : ∀ c ∈ cmds, c.pIndices = [0, 1, 2, 0, 2, 3] ∧ c.indexCount = 6 ∧ c.vertexCount = 4) :
    ∀ b, offsetIndices b cmds =
      (List.range cmds.length).flatMap
        (fun q => [b + 4 * q, b + 4 * q + 1, b + 4 * q + 2, b + 4 * q, b + 4 * q + 2,
          b + 4 * q + 3]) := by
  induction cmds with
  | nil => intro b; rfl
  | cons c cs ih =>
    intro b
    obtain ⟨h1, h2, h3⟩ := hq c (List.mem_cons_self _ _)
    rw [offsetIndices, ih (fun d hd => hq d (List.mem_cons_of_mem _ hd)), h1, h2, h3,
      List.length_cons, List.range_succ_eq_map, List.flatMap_cons, List.flatMap_map]
    simp only [List.take, List.map_cons, List.map_nil, Nat.mul_zero, Nat.add_zero, Nat.zero_add]
    congr 1
    · simp [Nat.add_comm]
    · apply List.flatMap_congr
      intro q _
      simp only [Function.comp_apply, Nat.succ_eq_add_one]
      have e : b + 4 + 4 * q = b + 4 * (q + 1) := by ring
      rw [e]

/-- C10. On the 120 x 120 grid, for every state at the start of a frame and whether or not
the timer elapsed, the first half of the frame returns and the draw list it hands to
`submitDrawList` holds 14404 quads: `vertex_size()` is 1152320 bytes, at most
`sizeof(Vertex) * s_MaxVertices = 20 * 262140`; `index_size()` is 345696 bytes, at most
`4 * s_MaxIndices = 4 * 1572840`; and no stored index wraps: the stored indices are the local
indices of each command plus the number of vertices accumulated before it, as natural
numbers, each below the 57616 vertices of the list. -/
theorem frame_draw_list_fits (s : Sim) (calculate : Bool) :
    ∃ s1, simPhase CELL_SPACE_WIDTH CELL_SPACE_HEIGHT s calculate = some s1 ∧
      s1.list.drawcmd_count = 14404 ∧
      s1.list.vertex_size = 1152320 ∧
      s1.list.vertex_size ≤ sizeofVertex * s_MaxVertices ∧
      sizeofVertex * s_MaxVertices = 20 * 262140 ∧
      s1.list.index_size = 345696 ∧
      s1.list.index_size ≤ sizeofUint32 * s_MaxIndices ∧
      sizeofUint32 * s_MaxIndices = 4 * 1572840 ∧
      s1.list.m_Indices = offsetIndices 0 s1.list.m_DrawCommands ∧
      s1.list.m_Vertices = 57616 ∧
      ∀ v ∈ s1.list.m_Indices, v < 57616 := by
  obtain ⟨l1, ⟨hv, hi, hr, hc, hs⟩, e⟩ :=
    simPhase_spec CELL_SPACE_WIDTH CELL_SPACE_HEIGHT s calculate quadCount_program
  have hk : quadCount CELL_SPACE_WIDTH CELL_SPACE_HEIGHT = 14404 := by decide
  rw [hk] at hv hi hr hc
  have hlen : l1.m_Indices.length = 6 * 14404 := by rw [hi, quadIndices_length]
  refine ⟨_, e, hc, ?_, ?_, by decide, ?_, ?_, by decide, ?_, hv, ?_⟩
  · simp only [DrawList.vertex_size, hr, sizeofFloat]
  · simp only [DrawList.vertex_size, hr]; decide
  · simp only [DrawList.index_size, hlen, sizeofUint32]
  · simp only [DrawList.index_size, hlen]; decide
  · show l1.m_Indices = offsetIndices 0 l1.m_DrawCommands
    rw [offsetIndices_quads _ hs 0, hc, hi]
    unfold quadIndices
    simp only [Nat.zero_add]
  · intro v hvm
    have hvm1 : v ∈ l1.m_Indices := hvm
    rw [hi] at hvm1
    have := mem_quadIndices _ _ hvm1
    omega

/-! ## Paused single steps with the settings window open -/

/-- While the simulation is paused and the settings window stays open (the `c` key and the
close box untouched, no header open, no "Clear", no "Reset", no "pause"), a run of frames
returns and the generation counter plus the pending tick grows by the number of frames in
which "Iterate" is pressed: every press is one tick, computed in the following frame. -/
theorem paused_open_run_counts (W H : Nat) (hWH : 6 * quadCount W H < 2 ^ 32)
    (inps : List Input) :
    ∀ s : Sim, s.pause = true → s.p_open = true →
      (∀ inp ∈ inps, inp.keyC = false ∧ inp.closeSettings = false ∧ inp.btnPause = false ∧
        inp.hdrEditor = false ∧ inp.hdrPresets = false ∧ inp.btnReset = false ∧
        inp.btnClear = false) →
      ∃ s1, run W H s inps = some s1 ∧ s1.pause = true ∧ s1.p_open = true ∧
        (s1.generation + pendingTick s1) % 2 ^ 32 =
          (s.generation + pendingTick s + iterateClicks inps) % 2 ^ 32 := by
  induction inps with
  | nil =>
    intro s hp ho _
    exact ⟨s, rfl, hp, ho, by simp [iterateClicks]⟩
  | cons inp rest ih =>
    intro s hp ho hin
    obtain ⟨k1, k2, k3, k4, k5, k6, k7⟩ := hin inp (List.mem_cons_self _ _)
    obtain ⟨s1, e1, -, -, g1, po1, -, pa1, it1⟩ :=
      frame_controls_fields W H s inp hWH k4 k5 k6 k7
    have hshown : panelShown s inp = true := by simp [panelShown, k1, ho]
    simp only [hshown, k2, k3, Bool.not_false, Bool.and_true, Bool.and_false,
      Bool.false_eq_true, if_false, if_true] at po1 pa1 it1
    obtain ⟨s2, e2, pa2, po2, h2⟩ := ih s1 (pa1.trans hp) po1
      (fun i hi => hin i (List.mem_cons_of_mem _ hi))
    refine ⟨s2, by simp only [run, forEach_cons, e1, Option.some_bind]; exact e2, pa2, po2, ?_⟩
    rw [h2, g1]
    have htick : tickDue s inp.calculate = s.iterate := by simp [tickDue, hp]
    rw [htick]
    simp only [pendingTick, it1, iterateClicks, List.filter_cons]
    cases s.iterate <;> cases inp.btnIterate <;> simp <;> omega

/-! ## The shadow array on interior cells -/

theorem inSync_writeBoth (x y i j : Nat) (v : Bool) (s : Sim) (h : InSync x y s) :
    InSync x y (writeBoth s i j v) := by
  unfold InSync writeBoth at *
  simp only [setAlive_apply, h]

theorem inSync_writeAt (W H : Nat) (x y : Nat) (a b : Int) (v : Bool) (s s1 : Sim)
    (e : writeAt W H s a b v = some s1) (h : InSync x y s) : InSync x y s1 := by
  unfold writeAt at e
  split at e
  · cases e
    exact inSync_writeBoth x y _ _ v s h
  · cases e

theorem inSync_toggleAt (W H : Nat) (x y : Nat) (a b : Int) (s s1 : Sim)
    (e : toggleAt W H s a b = some s1) (h : InSync x y s) : InSync x y s1 := by
  unfold toggleAt at e
  split at e
  · cases e
    unfold InSync at *
    simp only [setAlive_apply, h]
    by_cases hc : x = a.toNat ∧ y = b.toNat
    · obtain ⟨rfl, rfl⟩ := hc
      simp [h]
    · simp [hc]
  · cases e

theorem inSync_fillBoth (W H : Nat) (x y : Nat) (v : Bool) (s : Sim) (h : InSync x y s) :
    InSync x y (fillBoth W H v s) := by
  rw [fillBoth_eq]
  unfold InSync at *
  simp only [filled, h]

theorem forEach_keeps {σ α : Type} (body : σ → α → Option σ) (Q : σ → Prop)
    (hbody : ∀ st a st1, body st a = some st1 → Q st → Q st1) :
    ∀ (l : List α) (st st1 : σ), forEach body l st = some st1 → Q st → Q st1 := by
  intro l
  induction l with
  | nil =>
    intro st st1 e h
    cases e
    exact h
  | cons a rest ih =>
    intro st st1 e h
    rw [forEach_cons] at e
    cases hb : body st a with
    | none => rw [hb] at e; cases e
    | some st2 =>
      rw [hb, Option.some_bind] at e
      exact ih st2 st1 e (hbody st a st2 hb h)

theorem inSync_loadPattern (W H : Nat) (x y : Nat) (offsets : List (Int × Int)) (s s1 : Sim)
    (e : loadPattern W H offsets s = some s1) (h : InSync x y s) : InSync x y s1 := by
  unfold loadPattern at e
  exact forEach_keeps _ (InSync x y) (fun st d st1 e1 h1 => inSync_writeAt W H x y _ _ true st st1 e1 h1)
    offsets _ s1 e (inSync_fillBoth W H x y false s h)

theorem inSync_fillRandomly (W H : Nat) (x y : Nat) (rand : Nat → Nat) (s s1 : Sim)
    (e : fillRandomly W H rand s = some s1) (h : InSync x y s) : InSync x y s1 := by
  unfold fillRandomly at e
  cases hf : forEach (fillRandomCell W H rand s.distribution s.concentration s.concRadius)
      (allCells W H) { sim := s, calls := 0 } with
  | none => rw [hf] at e; cases e
  | some st1 =>
    rw [hf] at e
    cases e
    refine forEach_keeps _ (fun t => InSync x y t.sim) ?_ (allCells W H) _ st1 hf h
    intro st ij st2 e2 h2
    unfold fillRandomCell at e2
    split at e2
    · cases e2
    · simp only at e2
      split at e2
      · refine forEach_keeps _ (fun t => InSync x y t.sim) ?_ _ _ st2 e2
          (inSync_writeBoth x y _ _ _ st.sim h2)
        intro t kl t1 e3 h3
        unfold contaminate at e3
        simp only [Option.map_eq_some'] at e3
        obtain ⟨u, hu, rfl⟩ := e3
        exact inSync_writeAt W H x y _ _ _ t.sim u hu h3
      · cases e2
        exact inSync_writeBoth x y _ _ _ st.sim h2

theorem inSync_ite_toggleAt (W H : Nat) (x y : Nat) (c : Bool) (a b : Int) (t u : Sim)
    (e : (if c then toggleAt W H t a b else some t) = some u) (h : InSync x y t) :
    InSync x y u := by
  split at e
  · exact inSync_toggleAt W H x y a b t u e h
  · cases e; exact h

theorem inSync_ite_writeAt (W H : Nat) (x y : Nat) (c : Bool) (a b : Int) (v : Bool)
    (t u : Sim) (e : (if c then writeAt W H t a b v else some t) = some u)
    (h : InSync x y t) : InSync x y u := by
  split at e
  · exact inSync_writeAt W H x y a b v t u e h
  · cases e; exact h

theorem inSync_ite_fillRandomly (W H : Nat) (x y : Nat) (c : Bool) (rand : Nat → Nat)
    (t u : Sim) (e : (if c then fillRandomly W H rand t else some t) = some u)
    (h : InSync x y t) : InSync x y u := by
  split at e
  · exact inSync_fillRandomly W H x y rand t u e h
  · cases e; exact h

theorem inSync_ite_loadPattern (W H : Nat) (x y : Nat) (c : Bool) (offsets : List (Int × Int))
    (t u : Sim) (e : (if c then loadPattern W H offsets t else some t) = some u)
    (h : InSync x y t) : InSync x y u := by
  split at e
  · exact inSync_loadPattern W H x y offsets t u e h
  · cases e; exact h

theorem inSync_ite_fillBoth (W H : Nat) (x y : Nat) (c v : Bool) (t : Sim)
    (h : InSync x y t) : InSync x y (if c then fillBoth W H v t else t) := by
  split
  · exact inSync_fillBoth W H x y v t h
  · exact h

theorem inSync_cursorUp (x y : Nat) (c : Bool) (t : Sim) (h : InSync x y t) :
    InSync x y (cursorUp c t) := by
  unfold cursorUp; split <;> exact h

theorem inSync_cursorLeft (x y : Nat) (c : Bool) (t : Sim) (h : InSync x y t) :
    InSync x y (cursorLeft c t) := by
  unfold cursorLeft; split <;> exact h

theorem inSync_cursorRight (x y : Nat) (c : Bool) (t : Sim) (h : InSync x y t) :
    InSync x y (cursorRight c t) := by
  unfold cursorRight; split <;> exact h

theorem inSync_cursorDown (x y : Nat) (c : Bool) (t : Sim) (h : InSync x y t) :
    InSync x y (cursorDown c t) := by
  unfold cursorDown; split <;> exact h

theorem inSync_moves (x y : Nat) (a b c d : Bool) (t : Sim) (h : InSync x y t) :
    InSync x y (cursorDown d (cursorRight c (cursorLeft b (cursorUp a t)))) :=
  inSync_cursorDown x y d _ (inSync_cursorRight x y c _ (inSync_cursorLeft x y b _
    (inSync_cursorUp x y a t h)))

theorem inSync_editorPanel (W H : Nat) (x y : Nat) (s s1 : Sim) (inp : Input)
    (e : editorPanel W H s inp = some s1) (h : InSync x y s) : InSync x y s1 := by
  unfold editorPanel at e
  simp only [Option.bind_eq_some] at e
  obtain ⟨a, ha, b, hb, c, hc, d, hd, he⟩ := e
  have h1 : InSync x y a :=
    inSync_ite_toggleAt W H x y _ _ _ _ a ha (inSync_moves x y _ _ _ _ s h)
  have h2 : InSync x y b :=
    inSync_ite_writeAt W H x y _ _ _ _ _ b hb (inSync_moves x y _ _ _ _ a h1)
  have h3 : InSync x y c := inSync_ite_writeAt W H x y _ _ _ _ b c hc h2
  have h4 : InSync x y d := by
    refine inSync_ite_fillRandomly W H x y _ _ _ d hd ?_
    refine inSync_ite_fillBoth W H x y _ _ _ (inSync_ite_fillBoth W H x y _ _ _ ?_)
    unfold cursorToCenter
    split
    · exact h3
    · exact h3
  unfold drawCursor at he
  simp only [Option.map_eq_some'] at he
  obtain ⟨l, -, rfl⟩ := he
  exact h4

theorem inSync_presetsPanel (W H : Nat) (x y : Nat) (s s1 : Sim) (inp : Input)
    (e : presetsPanel W H s inp = some s1) (h : InSync x y s) : InSync x y s1 := by
  unfold presetsPanel at e
  simp only [Option.bind_eq_some] at e
  obtain ⟨a, ha, b, hb, c, hc, d, hd, he⟩ := e
  have h1 := inSync_ite_loadPattern W H x y _ _ s a ha h
  have h2 := inSync_ite_loadPattern W H x y _ _ a b hb h1
  have h3 := inSync_ite_loadPattern W H x y _ _ b c hc h2
  have h4 := inSync_ite_loadPattern W H x y _ _ c d hd h3
  exact inSync_ite_loadPattern W H x y _ _ d s1 he h4

theorem inSync_uiPhase (W H : Nat) (x y : Nat) (s s1 : Sim) (inp : Input)
    (e : uiPhase W H s inp = some s1) (h : InSync x y s) : InSync x y s1 := by
  unfold uiPhase at e
  have h0 : InSync x y (panelToggle s inp.keyC) := by
    unfold InSync panelToggle
    split_ifs <;> exact h
  simp only at e
  split at e
  · unfold settingsPanel at e
    simp only [Option.bind_eq_some] at e
    obtain ⟨a, ha, b, hb, hc⟩ := e
    have hpre : InSync x y (if inp.btnClear then
        fillBoth W H false (iterateButton inp.btnIterate
          (if inp.btnPause then pauseButton (closeBox inp.closeSettings
            (panelToggle s inp.keyC)) else closeBox inp.closeSettings (panelToggle s inp.keyC)))
        else iterateButton inp.btnIterate
          (if inp.btnPause then pauseButton (closeBox inp.closeSettings
            (panelToggle s inp.keyC)) else closeBox inp.closeSettings
              (panelToggle s inp.keyC))) := by
      refine inSync_ite_fillBoth W H x y _ _ _ ?_
      have hcb : InSync x y (closeBox inp.closeSettings (panelToggle s inp.keyC)) := by
        unfold closeBox; split <;> exact h0
      have hpb : InSync x y (if inp.btnPause then pauseButton (closeBox inp.closeSettings
          (panelToggle s inp.keyC)) else closeBox inp.closeSettings
            (panelToggle s inp.keyC)) := by
        split
        · unfold pauseButton; split <;> exact hcb
        · exact hcb
      unfold iterateButton
      simp only
      split <;> exact hpb
    have h1 : InSync x y a := by
      split at ha
      · exact inSync_editorPanel W H x y _ a inp ha hpre
      · cases ha
        exact hpre
    have h2 : InSync x y b := by
      split at hb
      · exact inSync_presetsPanel W H x y a b inp hb h1
      · cases hb; exact h1
    split at hc
    · unfold resetButton at hc
      exact inSync_loadPattern W H x y _ _ s1 hc h2
    · cases hc; exact h2
  · cases e; exact h0

/-- After any frame that returns, the shadow array equals the cell array on every interior
cell: the first half of the frame copies the interior, and every operation of the settings
window writes both arrays alike. -/
theorem frame_interior_in_sync (W H : Nat) (hWH : 6 * quadCount W H < 2 ^ 32) (s s1 : Sim)
    (inp : Input) (e : frame W H s inp = some s1) :
    ∀ x y, 1 ≤ x ∧ x ≤ W - 2 → 1 ≤ y ∧ y ≤ H - 2 → s1.aliveSpaces x y = s1.spaces x y := by
  intro x y hx hy
  obtain ⟨t, e1, h1⟩ := simPhase_interior_in_sync W H s inp.calculate hWH
  unfold frame at e
  rw [e1, Option.some_bind] at e
  exact inSync_uiPhase W H x y t s1 inp e (h1 x y hx hy)

/-- In every reachable state the shadow array equals the cell array on every interior
cell. -/
theorem reachable_interior_in_sync (s : Sim) (h : Reachable s) :
    ∀ x y, 1 ≤ x ∧ x ≤ CELL_SPACE_WIDTH - 2 → 1 ≤ y ∧ y ≤ CELL_SPACE_HEIGHT - 2 →
      s.aliveSpaces x y = s.spaces x y := by
  induction h with
  | start s e =>
    intro x y _ _
    unfold initSim at e
    exact forEach_keeps _ (InSync x y)
      (fun st d st1 e1 h1 => inSync_writeAt _ _ x y _ _ true st st1 e1 h1)
      rPentominoOffsets blankSim s e rfl
  | step s s1 inp _ e _ =>
    exact frame_interior_in_sync CELL_SPACE_WIDTH CELL_SPACE_HEIGHT quadCount_program s s1 inp e

/-! ## Single-precision rounding -/

theorem roundHalfEven_intCast (m : Int) : roundHalfEven (m : ℚ) = m := by
  unfold roundHalfEven
  simp

theorem int_log_two_eq (r : ℚ) (e : Int) (h1 : (2 : ℚ) ^ e ≤ |r|) (h2 : |r| < (2 : ℚ) ^ (e + 1)) :
    Int.log 2 |r| = e := by
  have hpos : (0 : ℚ) < |r| := lt_of_lt_of_le (zpow_pos (by norm_num) e) h1
  have a : e ≤ Int.log 2 |r| :=
    (Int.zpow_le_iff_le_log (by norm_num) hpos).mp (by simpa using h1)
  have b : Int.log 2 |r| < e + 1 :=
    (Int.lt_zpow_iff_log_lt (by norm_num) hpos).mp (by simpa using h2)
  omega

theorem roundFloat_of_binade (r : ℚ) (e : Int) (h1 : (2 : ℚ) ^ e ≤ |r|)
    (h2 : |r| < (2 : ℚ) ^ (e + 1)) (he : -126 ≤ e) :
    roundFloat r = (roundHalfEven (r / 2 ^ (e - 23)) : ℚ) * 2 ^ (e - 23) := by
  unfold roundFloat
  rw [int_log_two_eq r e h1 h2, max_eq_left he]

theorem roundFloat_zero : roundFloat 0 = 0 := by
  unfold roundFloat
  simp [roundHalfEven]

theorem roundFloat_intCast (n : Int) (h : |n| < 2 ^ 24) : roundFloat (n : ℚ) = n := by
  by_cases h0 : n = 0
  · subst h0
    simpa using roundFloat_zero
  · have hpos : (0 : ℚ) < |(n : ℚ)| := by
      rw [abs_pos]
      exact_mod_cast h0
    have h1 : (1 : ℚ) ≤ |(n : ℚ)| := by
      have : 1 ≤ |n| := Int.one_le_abs h0
      exact_mod_cast this
    have h24 : |(n : ℚ)| < (2 : ℚ) ^ (24 : Int) := by
      have h3 : |(n : ℚ)| < 2 ^ 24 := by exact_mod_cast h
      norm_num at h3 ⊢
      exact h3
    have a : (0 : Int) ≤ Int.log 2 |(n : ℚ)| :=
      (Int.zpow_le_iff_le_log (by norm_num) hpos).mp (by simpa using h1)
    have b : Int.log 2 |(n : ℚ)| < 24 :=
      (Int.lt_zpow_iff_log_lt (by norm_num) hpos).mp (by simpa using h24)
    obtain ⟨k, hk⟩ : ∃ k : Nat, (k : Int) = 23 - Int.log 2 |(n : ℚ)| :=
      ⟨(23 - Int.log 2 |(n : ℚ)|).toNat, Int.toNat_of_nonneg (by omega)⟩
    unfold roundFloat
    simp only
    rw [max_eq_left (by omega)]
    have hexp : Int.log 2 |(n : ℚ)| - 23 = -(k : Int) := by omega
    rw [hexp, zpow_neg, zpow_natCast]
    have hdiv : (n : ℚ) / ((2 : ℚ) ^ k)⁻¹ = ((n * 2 ^ k : Int) : ℚ) := by
      push_cast
      field_simp
    rw [hdiv, roundHalfEven_intCast]
    push_cast
    field_simp

theorem roundFloat_natCast (n : Nat) (h : n < 2 ^ 24) : roundFloat (n : ℚ) = n := by
  have := roundFloat_intCast (n : Int) (by
    rw [abs_of_nonneg (by positivity)]
    exact_mod_cast h)
  simpa using this

theorem roundFloat_16777217 : roundFloat 16777217 = 16777216 := by
  rw [roundFloat_of_binade 16777217 24 (by norm_num [abs_of_pos]) (by norm_num [abs_of_pos])
    (by norm_num)]
  have hf : ⌊(16777217 : ℚ) / 2 ^ ((24 : Int) - 23)⌋ = 8388608 := by
    rw [Int.floor_eq_iff]
    norm_num
  unfold roundHalfEven
  simp only [hf]
  norm_num

theorem roundFloat_16777216 : roundFloat 16777216 = 16777216 := by
  rw [roundFloat_of_binade 16777216 24 (by norm_num [abs_of_pos]) (by norm_num [abs_of_pos])
    (by norm_num)]
  have hq : (16777216 : ℚ) / 2 ^ ((24 : Int) - 23) = ((8388608 : Int) : ℚ) := by norm_num
  rw [hq, roundHalfEven_intCast]
  norm_num

/-- The `float` products and sums that place the quads of a grid are exact: for every
index below `2 ^ 20`, `i * 13`, `i * 13 + 3` and `i * 13 + 10` are `float` values. -/
theorem cell_coordinates_exact (i : Nat) (h : i < 2 ^ 20) :
    roundFloat ((i : ℚ) * 13) = (i : ℚ) * 13 ∧
      floatAdd ((i : ℚ) * 13) 3 = (i : ℚ) * 13 + 3 ∧
      floatAdd ((i : ℚ) * 13) 10 = (i : ℚ) * 13 + 10 := by
  have e0 : (i : ℚ) * 13 = ((i * 13 : Nat) : ℚ) := by push_cast; ring
  have e3 : (i : ℚ) * 13 + 3 = ((i * 13 + 3 : Nat) : ℚ) := by push_cast; ring
  have e10 : (i : ℚ) * 13 + 10 = ((i * 13 + 10 : Nat) : ℚ) := by push_cast; ring
  refine ⟨?_, ?_, ?_⟩
  · rw [e0, roundFloat_natCast _ (by omega)]
  · unfold floatAdd
    rw [e3, roundFloat_natCast _ (by omega)]
  · unfold floatAdd
    rw [e10, roundFloat_natCast _ (by omega)]

/-! ## C12: the quad of drawRect -/

theorem drawRect_eq_push_back (list : DrawList) (pos size : OglsVec2) (color : OglsVec3) :
    drawRect list pos size color = list.push_back (rectCommand pos size color) := rfl

theorem push_back_rectCommand (l : DrawList) (pos size : OglsVec2) (color : OglsVec3)
    (hroom : l.m_Indices.length + 6 < 2 ^ 32) :
    l.push_back (rectCommand pos size color) = some
      { m_DrawCommands := l.m_DrawCommands ++ [rectCommand pos size color]
        m_Indices := l.m_Indices ++
          [0, 1, 2, 0, 2, 3].map (fun v => (v + l.m_Vertices) % 2 ^ 32)
        m_VerticesRaw := l.m_VerticesRaw ++ (rectCommand pos size color).pVertices
        m_Vertices := (l.m_Vertices + 4) % 2 ^ 64 } := by
  have h1 : ¬ (2 ^ 32 ≤ l.m_Indices.length + 6) := by omega
  simp only [DrawList.push_back, rectCommand]
  rw [if_neg (by simp), if_neg h1, if_neg (by simp)]
  simp

/-- C12 (as stated, refuted). Position `(2 ^ 24, 0)` and size `(1, 1)` are `float`
values with `w, h > 0`, but the `float` sum `2 ^ 24 + 1` is `2 ^ 24`: the exact sum `16777217`
needs 25 significant bits and the tie goes to the even neighbour.  `drawRect` stores vertex
2 at `(2 ^ 24, 0)`, where vertex 1 is, and vertex 3 at `(2 ^ 24, 1)`, where vertex 0 is: both
triangles have area zero. -/
theorem drawRect_sum_absorbed :
    roundFloat 16777216 = 16777216 ∧ roundFloat 1 = 1 ∧ roundFloat 0 = 0 ∧
    floatAdd 16777216 1 = 16777216 ∧ floatAdd 0 1 = 1 ∧
    ∃ l1 c, drawRect emptyList ⟨16777216, 0⟩ ⟨1, 1⟩ COLOR_FG = some l1 ∧
      l1.m_DrawCommands = [c] ∧ l1.m_VerticesRaw = c.pVertices ∧
      vertexPos c.pVertices 0 = (16777216, 1) ∧
      vertexPos c.pVertices 1 = (16777216, 0) ∧
      vertexPos c.pVertices 2 = (16777216, 0) ∧
      vertexPos c.pVertices 3 = (16777216, 1) ∧
      vertexPos c.pVertices 2 ≠ (16777216 + 1, 0) ∧
      triangleTwiceArea c.pVertices c.pIndices 0 = 0 ∧
      triangleTwiceArea c.pVertices c.pIndices 1 = 0 := by
  have hx : floatAdd 16777216 1 = 16777216 := by
    unfold floatAdd
    norm_num
    exact roundFloat_16777217
  have hy : floatAdd 0 1 = 1 := by
    unfold floatAdd
    norm_num
    simpa using roundFloat_natCast 1 (by norm_num)
  refine ⟨roundFloat_16777216,
    by simpa using roundFloat_natCast 1 (by norm_num), roundFloat_zero, hx, hy, ?_⟩
  rw [drawRect_eq_push_back, push_back_rectCommand emptyList _ _ _ (by simp [emptyList])]
  have hv2 : vertexPos (rectCommand ⟨16777216, 0⟩ ⟨1, 1⟩ COLOR_FG).pVertices 2 =
      (16777216, 0) := by
    simp [vertexPos, rectCommand, hx]
  refine ⟨_, rectCommand ⟨16777216, 0⟩ ⟨1, 1⟩ COLOR_FG, rfl, rfl, rfl, ?_, ?_, hv2, ?_, ?_, ?_,
    ?_⟩
  · simp [vertexPos, rectCommand, hy]
  · simp [vertexPos, rectCommand]
  · simp [vertexPos, rectCommand, hx, hy]
  · rw [hv2]
    norm_num
  · simp [triangleTwiceArea, trianglePos, twiceArea, vertexPos, rectCommand, hx, hy]
  · simp [triangleTwiceArea, trianglePos, twiceArea, vertexPos, rectCommand, hx, hy]

/-- C12 (amended). For a position `(x, y)` and a size `(w, h)` with `w, h > 0` whose `float`
sums `x + w` and `y + h` are exact, on a list with room for six more indices, `drawRect`
returns and appends one command of exactly 4 vertices with 5 floats each: the positions
`(x, y + h)`, `(x, y)`, `(x + w, y)`, `(x + w, y + h)` in this order, every vertex carrying
the colour `(r, g, b)`, and the local indices `0, 1, 2, 0, 2, 3`.  With the coordinates read
as exact numbers, the two triangles `(0, 1, 2)` and `(0, 2, 3)` both have twice the signed
area `w * h`, which is positive: non-zero areas of the same orientation whose sum is
`w * h`; and every point of the rectangle lies in one of the two. -/
theorem drawRect_two_triangles (l : DrawList) (pos size : OglsVec2) (color : OglsVec3)
    (hw : 0 < size.x) (hh : 0 < size.y)
    (hsx : ExactSum pos.x size.x) (hsy : ExactSum pos.y size.y)
    (hroom : l.m_Indices.length + 6 < 2 ^ 32) :
    ∃ l1 c, drawRect l pos size color = some l1 ∧
      l1.m_DrawCommands = l.m_DrawCommands ++ [c] ∧
      l1.m_VerticesRaw = l.m_VerticesRaw ++ c.pVertices ∧
      l1.m_Indices = l.m_Indices ++ c.pIndices.map (fun v => (v + l.m_Vertices) % 2 ^ 32) ∧
      l1.m_Vertices = (l.m_Vertices + 4) % 2 ^ 64 ∧
      c.vertexCount = 4 ∧ c.vertexAttributeCount = 5 ∧ c.indexCount = 6 ∧
      c.pVertices.length = 4 * 5 ∧
      c.pIndices = [0, 1, 2, 0, 2, 3] ∧
      vertexPos c.pVertices 0 = (pos.x, pos.y + size.y) ∧
      vertexPos c.pVertices 1 = (pos.x, pos.y) ∧
      vertexPos c.pVertices 2 = (pos.x + size.x, pos.y) ∧
      vertexPos c.pVertices 3 = (pos.x + size.x, pos.y + size.y) ∧
      (∀ k, k < 4 → vertexColor c.pVertices k = (color.r, color.g, color.b)) ∧
      triangleTwiceArea c.pVertices c.pIndices 0 = size.x * size.y ∧
      triangleTwiceArea c.pVertices c.pIndices 1 = size.x * size.y ∧
      0 < size.x * size.y ∧
      triangleTwiceArea c.pVertices c.pIndices 0 / 2 +
        triangleTwiceArea c.pVertices c.pIndices 1 / 2 = size.x * size.y ∧
      (∀ p : ℚ × ℚ, pos.x ≤ p.1 → p.1 ≤ pos.x + size.x → pos.y ≤ p.2 →
        p.2 ≤ pos.y + size.y →
        InTriangle (trianglePos c.pVertices c.pIndices 0).1
            (trianglePos c.pVertices c.pIndices 0).2.1
            (trianglePos c.pVertices c.pIndices 0).2.2 p ∨
          InTriangle (trianglePos c.pVertices c.pIndices 1).1
            (trianglePos c.pVertices c.pIndices 1).2.1
            (trianglePos c.pVertices c.pIndices 1).2.2 p) := by
  have hx := hsx.1
  have hy := hsy.1
  rw [drawRect_eq_push_back, push_back_rectCommand l pos size color hroom]
  refine ⟨_, rectCommand pos size color, rfl, rfl, rfl, rfl, rfl, rfl, rfl, rfl, rfl, rfl, ?_, ?_,
    ?_, ?_, ?_, ?_, ?_, ?_, ?_, ?_⟩
  · simp [vertexPos, rectCommand, hy]
  · simp [vertexPos, rectCommand]
  · simp [vertexPos, rectCommand, hx]
  · simp [vertexPos, rectCommand, hx, hy]
  · intro k hk
    interval_cases k <;> simp [vertexColor, rectCommand]
  · simp [triangleTwiceArea, trianglePos, twiceArea, vertexPos, rectCommand, hx, hy]
  · simp [triangleTwiceArea, trianglePos, twiceArea, vertexPos, rectCommand, hx, hy]
  · exact mul_pos hw hh
  · simp [triangleTwiceArea, trianglePos, twiceArea, vertexPos, rectCommand, hx, hy]
  · intro p h1 h2 h3 h4
    simp only [InTriangle, trianglePos, twiceArea, vertexPos, rectCommand, hx, hy]
    simp
    have a1 : 0 ≤ size.y * (p.1 - pos.x) := mul_nonneg hh.le (by linarith)
    have a2 : 0 ≤ size.x * (p.2 - pos.y) := mul_nonneg hw.le (by linarith)
    have a3 : 0 ≤ size.y * (pos.x + size.x - p.1) := mul_nonneg hh.le (by linarith)
    have a4 : 0 ≤ size.x * (pos.y + size.y - p.2) := mul_nonneg hw.le (by linarith)
    rcases le_total (size.y * (p.1 - pos.x) + size.x * (p.2 - pos.y)) (size.x * size.y) with h | h
    · left
      refine ⟨by nlinarith, by nlinarith, by nlinarith⟩
    · right
      refine ⟨by nlinarith, by nlinarith, by nlinarith⟩

/-- C12 (amended) at a concrete call: the quad of cell `(1, 1)` on an empty list; the sums
`13 + 10` are exact. -/
theorem drawRect_two_triangles_witness :
    ExactSum 13 10 ∧
    ∃ l1 c, drawRect emptyList (cellPos 1 1) ⟨10, 10⟩ COLOR_FG = some l1 ∧
      l1.m_DrawCommands = [c] ∧ c.pIndices = [0, 1, 2, 0, 2, 3] ∧
      vertexPos c.pVertices 2 = (23, 13) ∧
      triangleTwiceArea c.pVertices c.pIndices 0 = 100 ∧
      triangleTwiceArea c.pVertices c.pIndices 1 = 100 := by
  have hs : ExactSum 13 10 := by
    constructor
    · unfold floatAdd
      norm_num
      simpa using roundFloat_natCast 23 (by norm_num)
    · norm_num [abs_of_pos]
  have hs1 : ExactSum (cellPos 1 1).x (10 : ℚ) := by
    simpa [cellPos, CELL_SPACE_SCALE] using hs
  have hs2 : ExactSum (cellPos 1 1).y (10 : ℚ) := by
    simpa [cellPos, CELL_SPACE_SCALE] using hs
  obtain ⟨l1, c, h, hc, _, _, _, _, _, _, _, hi, _, _, hv2, _, _, ha, hb, _⟩ :=
    drawRect_two_triangles emptyList (cellPos 1 1) ⟨10, 10⟩ COLOR_FG (by norm_num) (by norm_num)
      hs1 hs2 (by simp [emptyList])
  refine ⟨hs, l1, c, h, ?_, hi, ?_, ?_, ?_⟩
  · simpa [emptyList] using hc
  · rw [hv2]
    norm_num [cellPos, CELL_SPACE_SCALE]
  · rw [ha]; norm_num
  · rw [hb]; norm_num

/-! ## C13: the presets -/

theorem preset_offsets_inGrid (p : Preset) :
    ∀ d ∈ p.offsets,
      inGrid CELL_SPACE_WIDTH CELL_SPACE_HEIGHT (((CELL_SPACE_WIDTH / 2 : Nat) : Int) + d.1)
        (((CELL_SPACE_HEIGHT / 2 : Nat) : Int) + d.2) = true := by
  cases p <;> decide

theorem presets_chain (b1 b2 b3 b4 b5 : Bool) (f1 f2 f3 f4 f5 : Sim → Option Sim) (s : Sim)
    (h : [b1, b2, b3, b4, b5].count true = 1) :
    ((if b1 = true then f1 s else some s).bind fun s =>
      (if b2 = true then f2 s else some s).bind fun s =>
        (if b3 = true then f3 s else some s).bind fun s =>
          (if b4 = true then f4 s else some s).bind fun s =>
            if b5 = true then f5 s else some s) =
      if b1 then f1 s else if b2 then f2 s else if b3 then f3 s else if b4 then f4 s
      else f5 s := by
  cases b1 <;> cases b2 <;> cases b3 <;> cases b4 <;> cases b5 <;> simp at h <;> simp

theorem presetsPanel_press (W H : Nat) (p : Preset) (s : Sim) :
    presetsPanel W H s p.press = loadPattern W H p.offsets s := by
  unfold presetsPanel
  rw [presets_chain _ _ _ _ _ _ _ _ _ _ s (by cases p <;> rfl)]
  cases p <;> rfl

theorem patternCells_alive_iff (W H : Nat) (offsets : List (Int × Int)) (g : Cells) (x y : Nat)
    (hx : x < W) (hy : y < H) :
    patternCells W H offsets g x y = true ↔
      ∃ d ∈ offsets, (x : Int) = ((W / 2 : Nat) : Int) + d.1 ∧
        (y : Int) = ((H / 2 : Nat) : Int) + d.2 := by
  unfold patternCells filled
  constructor
  · intro h
    by_cases hm : ((x : Int) - ((W / 2 : Nat) : Int), (y : Int) - ((H / 2 : Nat) : Int)) ∈ offsets
    · exact ⟨_, hm, by simp, by simp⟩
    · rw [if_neg hm, if_pos ⟨hx, hy⟩] at h
      exact absurd h (by simp)
  · rintro ⟨d, hd, h1, h2⟩
    have e : ((x : Int) - ((W / 2 : Nat) : Int), (y : Int) - ((H / 2 : Nat) : Int)) = d := by
      rw [h1, h2]
      simp
    rw [if_pos (e ▸ hd)]

theorem patternCells_same (W H : Nat) (offsets : List (Int × Int)) (g1 g2 : Cells) (x y : Nat)
    (hx : x < W) (hy : y < H) :
    patternCells W H offsets g1 x y = patternCells W H offsets g2 x y := by
  unfold patternCells filled
  simp only [hx, hy, and_self, if_true]

/-- C13. For each of the five presets and every prior state, pressing its button on the
120 x 120 grid returns: every offset of the preset, taken from the centre `(W / 2, H / 2)`,
is a coordinate of the grid, as is every coordinate of the clearing loops.  Afterwards a
cell of the grid is alive exactly when it lies at one of the preset's offsets from the
centre, and the shadow array equals the cell array on the whole grid. -/
theorem preset_loads_exactly (p : Preset) (s : Sim) :
    (∀ d ∈ p.offsets,
      inGrid CELL_SPACE_WIDTH CELL_SPACE_HEIGHT (((CELL_SPACE_WIDTH / 2 : Nat) : Int) + d.1)
        (((CELL_SPACE_HEIGHT / 2 : Nat) : Int) + d.2) = true) ∧
    (∀ ij ∈ allCells CELL_SPACE_WIDTH CELL_SPACE_HEIGHT,
      ij.1 < CELL_SPACE_WIDTH ∧ ij.2 < CELL_SPACE_HEIGHT) ∧
    ∃ s1, presetsPanel CELL_SPACE_WIDTH CELL_SPACE_HEIGHT s p.press = some s1 ∧
      ∀ x y, x < CELL_SPACE_WIDTH → y < CELL_SPACE_HEIGHT →
        (s1.spaces x y = true ↔
          ∃ d ∈ p.offsets, (x : Int) = ((CELL_SPACE_WIDTH / 2 : Nat) : Int) + d.1 ∧
            (y : Int) = ((CELL_SPACE_HEIGHT / 2 : Nat) : Int) + d.2) ∧
        s1.aliveSpaces x y = s1.spaces x y := by
  refine ⟨preset_offsets_inGrid p, ?_, ?_⟩
  · rintro ⟨i, j⟩ h
    exact (mem_allCells _ _ i j).mp h
  · rw [presetsPanel_press, loadPattern_eq _ _ _ (preset_offsets_inGrid p)]
    refine ⟨_, rfl, ?_⟩
    intro x y hx hy
    exact ⟨patternCells_alive_iff _ _ _ _ x y hx hy, patternCells_same _ _ _ _ _ x y hx hy⟩

/-! ## C14: the quads of the sweep show the resulting state -/

theorem drawRect_appends (l l1 : DrawList) (pos size : OglsVec2) (color : OglsVec3)
    (e : drawRect l pos size color = some l1) :
    l1.m_DrawCommands = l.m_DrawCommands ++ [rectCommand pos size color] ∧
      l1.m_VerticesRaw = l.m_VerticesRaw ++ (rectCommand pos size color).pVertices := by
  rw [drawRect_eq_push_back] at e
  unfold DrawList.push_back at e
  split_ifs at e
  cases e
  exact ⟨rfl, by simp [rectCommand]⟩

theorem continues_refl (l : DrawList) : l.Continues l :=
  ⟨List.prefix_refl _, List.prefix_refl _⟩

theorem continues_trans (a b c : DrawList) (h1 : a.Continues b) (h2 : b.Continues c) :
    a.Continues c :=
  ⟨h1.1.trans h2.1, h1.2.trans h2.2⟩

theorem drawRect_continues (l l1 : DrawList) (pos size : OglsVec2) (color : OglsVec3)
    (e : drawRect l pos size color = some l1) : l.Continues l1 := by
  obtain ⟨h1, h2⟩ := drawRect_appends l l1 pos size color e
  exact ⟨by rw [h1]; exact List.prefix_append _ _, by rw [h2]; exact List.prefix_append _ _⟩

theorem borderStepX_continues (H : Nat) (l : DrawList) (st st1 : Cells × DrawList) (i : Nat)
    (e : borderStepX H st i = some st1) (h : l.Continues st.2) : l.Continues st1.2 := by
  unfold borderStepX at e
  cases h1 : drawRect st.2 (markerPos i 0) ⟨4, 4⟩ COLOR_RED with
  | none => rw [h1] at e; cases e
  | some l1 =>
    rw [h1, Option.some_bind] at e
    cases h2 : drawRect l1 (markerPos i (H - 1)) ⟨4, 4⟩ COLOR_RED with
    | none => rw [h2] at e; cases e
    | some l2 =>
      rw [h2] at e
      cases e
      exact continues_trans _ _ _ h
        (continues_trans _ _ _ (drawRect_continues _ _ _ _ _ h1) (drawRect_continues _ _ _ _ _ h2))

theorem borderStepY_continues (W : Nat) (l : DrawList) (st st1 : Cells × DrawList) (i : Nat)
    (e : borderStepY W st i = some st1) (h : l.Continues st.2) : l.Continues st1.2 := by
  unfold borderStepY at e
  cases h1 : drawRect st.2 (markerPos 0 i) ⟨4, 4⟩ COLOR_RED with
  | none => rw [h1] at e; cases e
  | some l1 =>
    rw [h1, Option.some_bind] at e
    cases h2 : drawRect l1 (markerPos (W - 1) i) ⟨4, 4⟩ COLOR_RED with
    | none => rw [h2] at e; cases e
    | some l2 =>
      rw [h2] at e
      cases e
      exact continues_trans _ _ _ h
        (continues_trans _ _ _ (drawRect_continues _ _ _ _ _ h1) (drawRect_continues _ _ _ _ _ h2))

theorem borderPass_continues (W H : Nat) (st st1 : Cells × DrawList)
    (e : borderPass W H st = some st1) : st.2.Continues st1.2 := by
  unfold borderPass at e
  cases h1 : forEach (borderStepX H) (List.range W) st with
  | none => rw [h1] at e; cases e
  | some st2 =>
    rw [h1, Option.some_bind] at e
    have a := forEach_keeps (borderStepX H) (fun t => st.2.Continues t.2)
      (fun t i t1 e1 h => borderStepX_continues H st.2 t t1 i e1 h) _ _ _ h1 (continues_refl _)
    exact forEach_keeps (borderStepY W) (fun t => st.2.Continues t.2)
      (fun t i t1 e1 h => borderStepY_continues W st.2 t t1 i e1 h) _ _ _ e a

theorem sweepCell_appends (doTick : Bool) (alive : Cells) (st st1 : Cells × DrawList)
    (ij : Nat × Nat) (e : sweepCell doTick alive st ij = some st1) :
    st1.1 = sweepCellGrid doTick alive st.1 ij ∧
      st1.2.m_DrawCommands = st.2.m_DrawCommands ++ [cellQuad st1.1 ij] ∧
      st1.2.m_VerticesRaw = st.2.m_VerticesRaw ++ (cellQuad st1.1 ij).pVertices := by
  unfold sweepCell at e
  simp only at e
  have key : ∀ (g : Cells),
      (if g ij.1 ij.2 = true then drawRect st.2 (cellPos ij.1 ij.2) ⟨10, 10⟩ COLOR_FG
        else drawRect st.2 (cellPos ij.1 ij.2) ⟨10, 10⟩ COLOR_FG2) =
      drawRect st.2 (cellPos ij.1 ij.2) ⟨10, 10⟩
        (if g ij.1 ij.2 = true then COLOR_FG else COLOR_FG2) := by
    intro g
    split_ifs <;> rfl
  rw [key] at e
  cases h : drawRect st.2 (cellPos ij.1 ij.2) ⟨10, 10⟩
      (if (if doTick = true then
            setAlive st.1 ij.1 ij.2
              (updateAlive (st.1 ij.1 ij.2) (countNeighbors alive ij.1 ij.2))
          else st.1) ij.1 ij.2 = true then COLOR_FG else COLOR_FG2) with
  | none => rw [h] at e; cases e
  | some l1 =>
    rw [h] at e
    cases e
    obtain ⟨h1, h2⟩ := drawRect_appends _ _ _ _ _ h
    exact ⟨rfl, h1, h2⟩

theorem foldl_sweepCellGrid_not_mem (doTick : Bool) (alive : Cells) (order : List (Nat × Nat))
    (g : Cells) (x y : Nat) (h : (x, y) ∉ order) :
    order.foldl (sweepCellGrid doTick alive) g x y = g x y := by
  induction order generalizing g with
  | nil => rfl
  | cons a rest ih =>
    rw [List.foldl_cons, ih _ (fun hm => h (List.mem_cons_of_mem _ hm))]
    unfold sweepCellGrid
    split_ifs
    · rw [setAlive_apply, if_neg]
      rintro ⟨rfl, rfl⟩
      exact h (List.mem_cons_self _ _)
    · rfl

theorem sweep_appends (doTick : Bool) (alive : Cells) (order : List (Nat × Nat))
    (hnd : order.Nodup) (st st1 : Cells × DrawList)
    (e : sweep doTick alive order st = some st1) :
    st1.1 = order.foldl (sweepCellGrid doTick alive) st.1 ∧
      st1.2.m_DrawCommands = st.2.m_DrawCommands ++ order.map (cellQuad st1.1) ∧
      st1.2.m_VerticesRaw =
        st.2.m_VerticesRaw ++ (order.map (cellQuad st1.1)).flatMap (fun c => c.pVertices) := by
  unfold sweep at e
  induction order generalizing st with
  | nil =>
    cases e
    simp
  | cons a rest ih =>
    obtain ⟨ha, hrest⟩ := List.nodup_cons.mp hnd
    rw [forEach_cons] at e
    cases hb : sweepCell doTick alive st a with
    | none => rw [hb] at e; cases e
    | some st2 =>
      rw [hb, Option.some_bind] at e
      obtain ⟨g2, c2, r2⟩ := sweepCell_appends doTick alive st st2 a hb
      obtain ⟨g1, c1, r1⟩ := ih hrest st2 e
      have same : cellQuad st1.1 a = cellQuad st2.1 a := by
        unfold cellQuad
        rw [g1, foldl_sweepCellGrid_not_mem doTick alive rest st2.1 a.1 a.2 ha]
      refine ⟨?_, ?_, ?_⟩
      · rw [g1, g2, List.foldl_cons]
      · rw [c1, c2, List.map_cons, same, List.append_assoc, List.singleton_append]
      · rw [r1, r2, List.map_cons, List.flatMap_cons, same, List.append_assoc]

theorem quad_segment (L : List DrawCommand) (hlen : ∀ c ∈ L, c.pVertices.length = 20) :
    ∀ (k : Nat) (c : DrawCommand), L[k]? = some c →
      ((L.flatMap (fun c => c.pVertices)).drop (20 * k)).take 20 = c.pVertices ∧
        20 * k + 20 ≤ (L.flatMap (fun c => c.pVertices)).length := by
  induction L with
  | nil =>
    intro k c h
    simp at h
  | cons d rest ih =>
    intro k c h
    have hd : d.pVertices.length = 20 := hlen d (List.mem_cons_self _ _)
    rw [List.flatMap_cons]
    cases k with
    | zero =>
      rw [List.getElem?_cons_zero] at h
      cases h
      refine ⟨?_, ?_⟩
      · rw [Nat.mul_zero, List.drop_zero, List.take_left' hd]
      · rw [List.length_append, hd]
        omega
    | succ k =>
      rw [List.getElem?_cons_succ] at h
      obtain ⟨h1, h2⟩ := ih (fun c hc => hlen c (List.mem_cons_of_mem _ hc)) k c h
      have e : 20 * (k + 1) = d.pVertices.length + 20 * k := by rw [hd]; ring
      refine ⟨?_, ?_⟩
      · rw [e, List.drop_append, h1]
      · rw [List.length_append, hd]
        omega

theorem cellQuad_length (g : Cells) (ij : Nat × Nat) : (cellQuad g ij).pVertices.length = 20 :=
  rfl

theorem simPhase_cell_quads (W H : Nat) (hWH : 6 * quadCount W H < 2 ^ 32) (s : Sim)
    (calculate : Bool) :
    ∃ s1, simPhase W H s calculate = some s1 ∧
      s1.list.m_DrawCommands.take (interiorCells W H).length =
        (interiorCells W H).map (cellQuad s1.spaces) ∧
      s1.list.m_VerticesRaw.take
          (20 * (interiorCells W H).length) =
        ((interiorCells W H).map (cellQuad s1.spaces)).flatMap
          (fun c => c.pVertices) ∧
      ∀ x y, isInterior W H x y = true →
        ∃ k, (interiorCells W H)[k]? = some (x, y) ∧
          s1.list.m_DrawCommands[k]? =
            some (rectCommand ⟨(x : ℚ) * 13, (y : ℚ) * 13⟩ ⟨10, 10⟩
              (if s1.spaces x y then COLOR_FG else COLOR_FG2)) ∧
          (s1.list.m_VerticesRaw.drop (20 * k)).take 20 =
            (rectCommand ⟨(x : ℚ) * 13, (y : ℚ) * 13⟩ ⟨10, 10⟩
              (if s1.spaces x y then COLOR_FG else COLOR_FG2)).pVertices := by
  obtain ⟨l1, _, e⟩ := simPhase_eq W H s calculate hWH
  refine ⟨_, e, ?_⟩
  have e1 := e
  simp only [simPhase] at e1
  cases hsw : sweep (tickDue s calculate) s.aliveSpaces
      (interiorCells W H) (s.spaces, s.list.clear) with
  | none => rw [hsw] at e1; cases e1
  | some st =>
    rw [hsw, Option.some_bind] at e1
    cases hb : borderPass W H st with
    | none => rw [hb] at e1; cases e1
    | some st2 =>
      rw [hb, Option.map_some'] at e1
      have hl : st2.2 = l1 := congrArg Sim.list (Option.some.inj e1)
      obtain ⟨g1, c1, r1⟩ := sweep_appends _ _ _
        (nodup_interiorCells W H) _ _ hsw
      obtain ⟨⟨cs, hc⟩, ⟨fs, hf⟩⟩ := borderPass_continues _ _ _ _ hb
      rw [hl] at hc hf
      simp only [DrawList.clear, List.nil_append] at g1 c1 r1
      -- the border pass leaves the flags of the interior cells as the sweep set them
      have same : ∀ ij ∈ interiorCells W H,
          cellQuad st.1 ij =
            cellQuad (borderGrid W H
              ((interiorCells W H).foldl
                (sweepCellGrid (tickDue s calculate) s.aliveSpaces) s.spaces)) ij := by
        rintro ⟨i, j⟩ hm
        have hij := (mem_interiorCells _ _ i j).mp hm
        have hkeep : borderGrid W H
            ((interiorCells W H).foldl
              (sweepCellGrid (tickDue s calculate) s.aliveSpaces) s.spaces) i j =
            st.1 i j := by
          rw [borderGrid_apply, if_neg (by omega), g1]
        unfold cellQuad
        simp only [hkeep]
      have hmap := List.map_congr_left same
      rw [hmap] at c1 r1
      have hlen : ∀ c ∈ (interiorCells W H).map
          (cellQuad (borderGrid W H
            ((interiorCells W H).foldl
              (sweepCellGrid (tickDue s calculate) s.aliveSpaces) s.spaces))),
          c.pVertices.length = 20 := by
        intro c hc1
        obtain ⟨ij, _, rfl⟩ := List.mem_map.mp hc1
        rfl
      refine ⟨?_, ?_, ?_⟩
      · show l1.m_DrawCommands.take _ = _
        rw [← hc, c1]
        exact List.take_left' (List.length_map _ _)
      · show l1.m_VerticesRaw.take _ = _
        rw [← hf, r1]
        refine List.take_left' ?_
        rw [List.length_flatMap]
        simp [Function.comp_def, cellQuad_length, List.map_const', List.sum_replicate]
        ring
      · intro x y hxy
        obtain ⟨k, hk⟩ := List.getElem?_of_mem ((isInterior_iff _ _ x y).mp hxy)
        have hq : ((interiorCells W H).map
            (cellQuad (borderGrid W H
              ((interiorCells W H).foldl
                (sweepCellGrid (tickDue s calculate) s.aliveSpaces) s.spaces))))[k]? =
            some (cellQuad (borderGrid W H
              ((interiorCells W H).foldl
                (sweepCellGrid (tickDue s calculate) s.aliveSpaces) s.spaces)) (x, y)) := by
          rw [List.getElem?_map, hk]
          rfl
        have hklt : k < ((interiorCells W H).map
            (cellQuad (borderGrid W H
              ((interiorCells W H).foldl
                (sweepCellGrid (tickDue s calculate) s.aliveSpaces) s.spaces)))).length := by
          rw [List.length_map]
          exact (List.getElem?_eq_some.mp hk).1
        obtain ⟨seg, bound⟩ := quad_segment _ hlen k _ hq
        have hpos : cellPos x y = ⟨(x : ℚ) * 13, (y : ℚ) * 13⟩ := rfl
        refine ⟨k, hk, ?_, ?_⟩
        · show l1.m_DrawCommands[k]? = _
          rw [← hc, c1, List.getElem?_append_left hklt, hq]
          rfl
        · show (l1.m_VerticesRaw.drop (20 * k)).take 20 = _
          rw [← hf, r1, List.drop_append_of_le_length (by omega),
            List.take_append_of_le_length (by rw [List.length_drop]; omega), seg]
          rfl

theorem rectCommand_cell_exact (x y : Nat) (hx : x < 2 ^ 20) (hy : y < 2 ^ 20)
    (color : OglsVec3) :
    (rectCommand ⟨(x : ℚ) * 13, (y : ℚ) * 13⟩ ⟨10, 10⟩ color).pVertices =
      [ (x : ℚ) * 13, (y : ℚ) * 13 + 10, color.r, color.g, color.b,
        (x : ℚ) * 13, (y : ℚ) * 13, color.r, color.g, color.b,
        (x : ℚ) * 13 + 10, (y : ℚ) * 13, color.r, color.g, color.b,
        (x : ℚ) * 13 + 10, (y : ℚ) * 13 + 10, color.r, color.g, color.b ] := by
  have ex := (cell_coordinates_exact x hx).2.2
  have ey := (cell_coordinates_exact y hy).2.2
  simp only [rectCommand, ex, ey]

/-- C14. In every frame, whether or not it computes a tick, the first half of the frame
returns, and the draw list it leaves starts with one quad per interior cell, in the order
of the sweep: the commands and the floats of the list begin with those of the quads
`rectCommand (x * 13, y * 13) (10, 10) colour`, where `colour` is `COLOR_FG` when the alive
flag of the cell in the resulting state is true and `COLOR_FG2` otherwise.  For every
interior cell `(x, y)`, visited as number `k`, command number `k` of the list is that quad
and the floats `20 k, ..., 20 k + 19` of the list are its four vertices `(13 x, 13 y + 10)`,
`(13 x, 13 y)`, `(13 x + 10, 13 y)`, `(13 x + 10, 13 y + 10)`, each with the colour: the
`float` sums are exact on the grid. -/
theorem cell_quads_show_resulting_state (s : Sim) (calculate : Bool) :
    ∃ s1, simPhase CELL_SPACE_WIDTH CELL_SPACE_HEIGHT s calculate = some s1 ∧
      s1.list.m_DrawCommands.take (interiorCells CELL_SPACE_WIDTH CELL_SPACE_HEIGHT).length =
        (interiorCells CELL_SPACE_WIDTH CELL_SPACE_HEIGHT).map (cellQuad s1.spaces) ∧
      s1.list.m_VerticesRaw.take
          (20 * (interiorCells CELL_SPACE_WIDTH CELL_SPACE_HEIGHT).length) =
        ((interiorCells CELL_SPACE_WIDTH CELL_SPACE_HEIGHT).map (cellQuad s1.spaces)).flatMap
          (fun c => c.pVertices) ∧
      ∀ x y, isInterior CELL_SPACE_WIDTH CELL_SPACE_HEIGHT x y = true →
        ∃ k, (interiorCells CELL_SPACE_WIDTH CELL_SPACE_HEIGHT)[k]? = some (x, y) ∧
          s1.list.m_DrawCommands[k]? =
            some (rectCommand ⟨(x : ℚ) * 13, (y : ℚ) * 13⟩ ⟨10, 10⟩
              (if s1.spaces x y then COLOR_FG else COLOR_FG2)) ∧
          (s1.list.m_VerticesRaw.drop (20 * k)).take 20 =
            (rectCommand ⟨(x : ℚ) * 13, (y : ℚ) * 13⟩ ⟨10, 10⟩
              (if s1.spaces x y then COLOR_FG else COLOR_FG2)).pVertices ∧
          (rectCommand ⟨(x : ℚ) * 13, (y : ℚ) * 13⟩ ⟨10, 10⟩
              (if s1.spaces x y then COLOR_FG else COLOR_FG2)).pVertices =
            [ (x : ℚ) * 13, (y : ℚ) * 13 + 10,
              (if s1.spaces x y then COLOR_FG else COLOR_FG2).r,
              (if s1.spaces x y then COLOR_FG else COLOR_FG2).g,
              (if s1.spaces x y then COLOR_FG else COLOR_FG2).b,
              (x : ℚ) * 13, (y : ℚ) * 13,
              (if s1.spaces x y then COLOR_FG else COLOR_FG2).r,
              (if s1.spaces x y then COLOR_FG else COLOR_FG2).g,
              (if s1.spaces x y then COLOR_FG else COLOR_FG2).b,
              (x : ℚ) * 13 + 10, (y : ℚ) * 13,
              (if s1.spaces x y then COLOR_FG else COLOR_FG2).r,
              (if s1.spaces x y then COLOR_FG else COLOR_FG2).g,
              (if s1.spaces x y then COLOR_FG else COLOR_FG2).b,
              (x : ℚ) * 13 + 10, (y : ℚ) * 13 + 10,
              (if s1.spaces x y then COLOR_FG else COLOR_FG2).r,
              (if s1.spaces x y then COLOR_FG else COLOR_FG2).g,
              (if s1.spaces x y then COLOR_FG else COLOR_FG2).b ] := by
  obtain ⟨s1, e, h1, h2, h3⟩ :=
    simPhase_cell_quads CELL_SPACE_WIDTH CELL_SPACE_HEIGHT quadCount_program s calculate
  refine ⟨s1, e, h1, h2, ?_⟩
  intro x y hxy
  obtain ⟨k, a, b, c⟩ := h3 x y hxy
  have hb := (mem_interiorCells _ _ x y).mp ((isInterior_iff _ _ x y).mp hxy)
  simp only [CELL_SPACE_WIDTH, CELL_SPACE_HEIGHT] at hb
  exact ⟨k, a, b, c, rectCommand_cell_exact x y (by omega) (by omega) _⟩

/-- C14 at a concrete frame: cell `(1, 1)` is alive and alone before a tick, it dies in
the tick, and its quad in the list of that frame carries the dead colour. -/
theorem cell_quads_show_resulting_state_witness :
    loneCell.spaces 1 1 = true ∧
    ∃ (s1 : Sim) (k : Nat), simPhase CELL_SPACE_WIDTH CELL_SPACE_HEIGHT loneCell true = some s1 ∧
      s1.spaces 1 1 = false ∧
      (interiorCells CELL_SPACE_WIDTH CELL_SPACE_HEIGHT)[k]? = some (1, 1) ∧
      s1.list.m_DrawCommands[k]? =
        some (rectCommand ⟨((1 : Nat) : ℚ) * 13, ((1 : Nat) : ℚ) * 13⟩ ⟨10, 10⟩ COLOR_FG2) := by
  refine ⟨by decide, ?_⟩
  obtain ⟨s1, e, _, _, hcell⟩ := cell_quads_show_resulting_state loneCell true
  obtain ⟨l, _, e2⟩ := simPhase_spec CELL_SPACE_WIDTH CELL_SPACE_HEIGHT loneCell true
    quadCount_program
  have hs : s1.spaces 1 1 = false := by
    rw [e2] at e
    have h := congrArg Sim.spaces (Option.some.inj e)
    rw [← h]
    show nextSpaces CELL_SPACE_WIDTH CELL_SPACE_HEIGHT (tickDue loneCell true) loneCell.spaces
      loneCell.aliveSpaces 1 1 = false
    decide
  obtain ⟨k, hk, hcmd, _⟩ := hcell 1 1 (by decide)
  rw [hs] at hcmd
  exact ⟨s1, k, e, hs, hk, hcmd⟩

/-! ## Frames of the Editor header on the bottom row -/

theorem clampCursor_of_inGrid (W H : Nat) (s : Sim) (h : inGrid W H s.editx s.edity = true) :
    clampCursor W H s = s := by
  simp only [inGrid, Bool.and_eq_true, decide_eq_true_eq] at h
  obtain ⟨⟨⟨h1, h2⟩, h3⟩, h4⟩ := h
  unfold clampCursor
  simp only
  rw [if_neg (by omega), if_neg (by omega), if_neg (by omega), if_neg (by omega)]

/-- A frame with the settings window open, no tick pending, and the cursor moved by the
keys `j` and `h` to a cell `(cx, cy)` of the grid: the frame returns, the cursor is at
`(cx, cy)`, and the grid is the no-tick closed form with "Place Cell" and then "Remove all
cells" applied. -/
theorem frame_editorInput (W H : Nat) (hWH : 6 * quadCount W H < 2 ^ 32) (s : Sim)
    (j h place removeAll : Bool) (cx cy : Nat)
    (hp : s.p_open = true) (hit : s.iterate = false)
    (hx : s.editx - (if h then 1 else 0) = (cx : Int))
    (hy : s.edity - (if j then 1 else 0) = (cy : Int))
    (hcx : cx < W) (hcy : cy < H) :
    ∃ s1, frame W H s (editorInput j h false place removeAll) = some s1 ∧
      s1.editx = (cx : Int) ∧ s1.edity = (cy : Int) ∧
      s1.spaces =
        (if removeAll then filled W H false else id)
          ((if place then fun g => setAlive g cx cy true else id)
            (nextSpaces W H false s.spaces s.aliveSpaces)) ∧
      s1.aliveSpaces =
        (if removeAll then filled W H false else id)
          ((if place then fun g => setAlive g cx cy true else id)
            (nextAlive W H false s.spaces s.aliveSpaces)) ∧
      s1.p_open = true ∧ s1.iterate = false ∧ s1.pause = s.pause ∧
      s1.generation = s.generation := by
  obtain ⟨l, _, e⟩ := simPhase_spec W H s false hWH
  have htd : tickDue s false = false := by simp [tickDue, hit]
  rw [htd] at e
  have hin : inGrid W H (cx : Int) (cy : Int) = true := by
    simp [inGrid, hcx, hcy]
  cases j <;> cases h <;> cases place <;> cases removeAll <;>
    simp at hx hy <;>
    simp [frame, editorInput, e, uiPhase, panelToggle, settingsPanel, closeBox, iterateButton,
      editorPanel, cursorUp, cursorLeft, cursorRight, cursorDown, cursorToCenter, sliders,
      drawCursor, drawRectImmediate_eq, fillBoth_eq, slide, hp, hx, hy, hin,
      clampCursor_of_inGrid, writeAt_eq_some, writeBoth]

theorem initSim_cursor :
    ∃ s0, initSim = some s0 ∧ s0.pause = false ∧ s0.iterate = false ∧
      s0.p_open = false ∧ s0.pressOnce = false ∧ s0.editx = 60 ∧ s0.edity = 60 := by
  unfold initSim
  rw [forEach_writeAt_offsets CELL_SPACE_WIDTH CELL_SPACE_HEIGHT rPentominoOffsets (by decide)]
  exact ⟨_, rfl, rfl, rfl, rfl, rfl, rfl, rfl⟩

theorem nextSpaces_false_apply (W H : Nat) (sp al : Cells) (x y : Nat) :
    nextSpaces W H false sp al x y = if isCleared W H x y then false else sp x y := by
  simp [nextSpaces]

theorem nextAlive_false_apply (W H : Nat) (sp al : Cells) (x y : Nat) :
    nextAlive W H false sp al x y = if isInterior W H x y then sp x y else al x y := by
  simp [nextAlive]

theorem liveExactly_nextSpaces_row0 (W H : Nat) (sp al : Cells) (L : List (Nat × Nat))
    (hs : LiveExactly W H sp L) (hL : ∀ p ∈ L, p.2 = 0) :
    LiveExactly W H (nextSpaces W H false sp al) [] := by
  intro x y hx hy
  rw [nextSpaces_false_apply]
  by_cases hc : isCleared W H x y = true
  · rw [if_pos hc]
    simp
  · rw [if_neg hc]
    have hy0 : y ≠ 0 := by
      intro h0
      exact hc ((isCleared_iff W H x y).mpr (Or.inl ⟨h0, hx⟩))
    constructor
    · intro h
      exact absurd (hL _ ((hs x y hx hy).mp h)) hy0
    · intro h
      simp at h

theorem liveExactly_nextAlive_row0 (W H : Nat) (sp al : Cells) (Ls La : List (Nat × Nat))
    (hs : LiveExactly W H sp Ls) (hLs : ∀ p ∈ Ls, p.2 = 0)
    (ha : LiveExactly W H al La) (hLa : ∀ p ∈ La, p.2 = 0) :
    LiveExactly W H (nextAlive W H false sp al) La := by
  intro x y hx hy
  rw [nextAlive_false_apply]
  by_cases hi : isInterior W H x y = true
  · rw [if_pos hi]
    have hy1 : y ≠ 0 := by
      have := (mem_interiorCells W H x y).mp ((isInterior_iff W H x y).mp hi)
      omega
    constructor
    · intro h
      exact absurd (hLs _ ((hs x y hx hy).mp h)) hy1
    · intro h
      exact absurd (hLa _ h) hy1
  · rw [if_neg hi]
    exact ha x y hx hy

theorem liveExactly_setAlive (W H : Nat) (g : Cells) (L : List (Nat × Nat)) (cx cy : Nat)
    (hg : LiveExactly W H g L) : LiveExactly W H (setAlive g cx cy true) ((cx, cy) :: L) := by
  intro x y hx hy
  rw [setAlive_apply]
  by_cases h : x = cx ∧ y = cy
  · rw [if_pos h]
    simp [h.1, h.2]
  · rw [if_neg h, hg x y hx hy]
    simp only [List.mem_cons, Prod.mk.injEq]
    constructor
    · intro hm
      exact Or.inr hm
    · rintro (hm | hm)
      · exact absurd hm h
      · exact hm

theorem liveExactly_filled_false (W H : Nat) (g : Cells) :
    LiveExactly W H (filled W H false g) [] := by
  intro x y hx hy
  simp [filled, hx, hy]

/-- One frame of cursor keys and "Place Cell" while every live cell lies in row 0: the
border pass has cleared row 0 of the cell array, the shadow array keeps its row 0, and the
placed cell is alive in both. -/
theorem editing_step (s : Sim) (cx cy : Nat) (Ls La : List (Nat × Nat))
    (hE : Editing s cx cy Ls La) (hLs : ∀ p ∈ Ls, p.2 = 0) (hLa : ∀ p ∈ La, p.2 = 0)
    (j h place : Bool) (cx1 cy1 : Nat)
    (hx : (cx : Int) - (if h then 1 else 0) = (cx1 : Int))
    (hy : (cy : Int) - (if j then 1 else 0) = (cy1 : Int))
    (hcx : cx1 < CELL_SPACE_WIDTH) (hcy : cy1 < CELL_SPACE_HEIGHT) :
    ∃ s1, frame CELL_SPACE_WIDTH CELL_SPACE_HEIGHT s (editorInput j h false place false) =
        some s1 ∧
      Editing s1 cx1 cy1 (if place then [(cx1, cy1)] else [])
        (if place then (cx1, cy1) :: La else La) := by
  obtain ⟨hp, hit, hpa, hex, hey, hs, ha⟩ := hE
  obtain ⟨s1, e, ex1, ey1, sp1, al1, p1, it1, pa1, _⟩ :=
    frame_editorInput CELL_SPACE_WIDTH CELL_SPACE_HEIGHT quadCount_program s j h place false
      cx1 cy1 hp hit (by rw [hex]; exact hx) (by rw [hey]; exact hy) hcx hcy
  refine ⟨s1, e, p1, it1, by rw [pa1, hpa], ex1, ey1, ?_, ?_⟩
  · rw [sp1]
    have h0 := liveExactly_nextSpaces_row0 _ _ s.spaces s.aliveSpaces Ls hs hLs
    cases place
    · exact h0
    · exact liveExactly_setAlive _ _ _ _ cx1 cy1 h0
  · rw [al1]
    have h0 := liveExactly_nextAlive_row0 _ _ s.spaces s.aliveSpaces Ls La hs hLs ha hLa
    cases place
    · exact h0
    · exact liveExactly_setAlive _ _ _ _ cx1 cy1 h0

theorem frame_pressC_opens (s : Sim) (hpo : s.p_open = false) (hpr : s.pressOnce = false) :
    ∃ s1, frame CELL_SPACE_WIDTH CELL_SPACE_HEIGHT s (pressC false) = some s1 ∧
      s1.p_open = true ∧ s1.iterate = false ∧ s1.pause = s.pause ∧ s1.editx = s.editx ∧
      s1.edity = s.edity := by
  obtain ⟨l, e⟩ := frame_controls CELL_SPACE_WIDTH CELL_SPACE_HEIGHT s (pressC false)
    quadCount_program rfl rfl rfl rfl
  refine ⟨_, e, ?_, ?_, ?_, rfl, rfl⟩
  · simp [pressC, panelShown, hpo, hpr]
  · simp [pressC, panelShown, hpo, hpr]
  · simp [pressC, panelShown, hpo, hpr]

theorem reachable_editing_start : ∃ s, Reachable s ∧ Editing s 60 60 [] [] := by
  obtain ⟨s0, e0, pa0, it0, po0, pr0, x0, y0⟩ := initSim_cursor
  obtain ⟨s1, e1, p1, it1, pa1, x1, y1⟩ := frame_pressC_opens s0 po0 pr0
  have r1 := Reachable.step s0 s1 (pressC false) (Reachable.start s0 e0) e1
  obtain ⟨s2, e2, ex2, ey2, sp2, al2, p2, it2, pa2, _⟩ :=
    frame_editorInput CELL_SPACE_WIDTH CELL_SPACE_HEIGHT quadCount_program s1 false false false
      true 60 60 p1 it1 (by simp [x1, x0]) (by simp [y1, y0]) (by decide) (by decide)
  refine ⟨s2, Reachable.step s1 s2 _ r1 e2, p2, it2, ?_, ex2, ey2, ?_, ?_⟩
  · rw [pa2, pa1, pa0]
  · rw [sp2]
    exact liveExactly_filled_false _ _ _
  · rw [al2]
    exact liveExactly_filled_false _ _ _

theorem reachable_editing_down (n : Nat) (hn : n ≤ 60) :
    ∃ s, Reachable s ∧ Editing s 60 (60 - n) [] [] := by
  induction n with
  | zero => exact reachable_editing_start
  | succ m ih =>
    obtain ⟨s, r, hE⟩ := ih (by omega)
    obtain ⟨s1, e, hE1⟩ := editing_step s 60 (60 - m) [] [] hE (by simp) (by simp) true false
      false 60 (60 - (m + 1)) (by simp) (by simp; omega) (by decide)
      (by simp [CELL_SPACE_HEIGHT]; omega)
    exact ⟨s1, Reachable.step s s1 _ r e, hE1⟩

theorem reachable_cursor_bottom : ∃ s, Reachable s ∧ Editing s 60 0 [] [] :=
  reachable_editing_down 60 (le_refl 60)

theorem frame_space_below_grid (s : Sim) (cx : Nat) (Ls La : List (Nat × Nat))
    (hE : Editing s cx 0 Ls La) :
    frame CELL_SPACE_WIDTH CELL_SPACE_HEIGHT s (editorInput true false true false false) =
      none := by
  obtain ⟨hp, hit, hpa, hex, hey, hs, ha⟩ := hE
  obtain ⟨l, _, e⟩ := simPhase_spec CELL_SPACE_WIDTH CELL_SPACE_HEIGHT s false quadCount_program
  simp [frame, editorInput, e, uiPhase, panelToggle, settingsPanel, closeBox, iterateButton,
    editorPanel, cursorUp, cursorLeft, cursorRight, cursorDown, toggleAt, inGrid, hp, hey]

theorem frame_place_at_bottom (s : Sim) (Ls La : List (Nat × Nat))
    (hE : Editing s 60 0 Ls La) :
    ∃ s1, frame CELL_SPACE_WIDTH CELL_SPACE_HEIGHT s (editorInput true false false true false) =
        some s1 ∧ s1.editx = 60 ∧ s1.edity = 0 ∧ s1.spaces 60 0 = true ∧
      s1.aliveSpaces 60 0 = true := by
  obtain ⟨hp, hit, hpa, hex, hey, hs, ha⟩ := hE
  obtain ⟨l, _, e⟩ := simPhase_spec CELL_SPACE_WIDTH CELL_SPACE_HEIGHT s false quadCount_program
  simp only [CELL_SPACE_WIDTH, CELL_SPACE_HEIGHT] at e ⊢
  simp [frame, editorInput, e, uiPhase, panelToggle, settingsPanel, closeBox, iterateButton,
    editorPanel, cursorUp, cursorLeft, cursorRight, cursorDown, cursorToCenter, sliders,
    drawCursor, drawRectImmediate_eq, slide, clampCursor, writeAt, writeBoth, inGrid, hp, hex,
    hey, setAlive_apply]

/-! ## C11: single-cell edits and the clamp of the cursor -/

theorem inGrid_clampCursor (W H : Nat) (hW : 0 < W) (hH : 0 < H) (s : Sim) :
    inGrid W H (clampCursor W H s).editx (clampCursor W H s).edity = true := by
  unfold clampCursor
  simp only [inGrid, Bool.and_eq_true, decide_eq_true_eq]
  split_ifs <;> omega

theorem inGrid_center (W H : Nat) (hW : 0 < W) (hH : 0 < H) :
    inGrid W H ((W / 2 : Nat) : Int) ((H / 2 : Nat) : Int) = true := by
  simp only [inGrid, Bool.and_eq_true, decide_eq_true_eq]
  omega

theorem cursorAt_writeAt (W H : Nat) (a b x y : Int) (v : Bool) (s s1 : Sim)
    (e : writeAt W H s x y v = some s1) (h : CursorAt a b s) : CursorAt a b s1 := by
  unfold writeAt at e
  split at e
  · cases e
    exact h
  · cases e

theorem cursorAt_toggleAt (W H : Nat) (a b x y : Int) (s s1 : Sim)
    (e : toggleAt W H s x y = some s1) (h : CursorAt a b s) : CursorAt a b s1 := by
  unfold toggleAt at e
  split at e
  · cases e
    exact h
  · cases e

theorem cursorAt_fillBoth (W H : Nat) (a b : Int) (v : Bool) (s : Sim) (h : CursorAt a b s) :
    CursorAt a b (fillBoth W H v s) := by
  rw [fillBoth_eq]
  exact h

theorem cursorAt_loadPattern (W H : Nat) (a b : Int) (offsets : List (Int × Int)) (s s1 : Sim)
    (e : loadPattern W H offsets s = some s1) (h : CursorAt a b s) : CursorAt a b s1 := by
  unfold loadPattern at e
  exact forEach_keeps _ (CursorAt a b)
    (fun st d st1 e1 h1 => cursorAt_writeAt W H a b _ _ true st st1 e1 h1)
    offsets _ s1 e (cursorAt_fillBoth W H a b false s h)

theorem cursorAt_fillRandomly (W H : Nat) (a b : Int) (rand : Nat → Nat) (s s1 : Sim)
    (e : fillRandomly W H rand s = some s1) (h : CursorAt a b s) : CursorAt a b s1 := by
  unfold fillRandomly at e
  cases hf : forEach (fillRandomCell W H rand s.distribution s.concentration s.concRadius)
      (allCells W H) { sim := s, calls := 0 } with
  | none => rw [hf] at e; cases e
  | some st1 =>
    rw [hf] at e
    cases e
    refine forEach_keeps _ (fun t => CursorAt a b t.sim) ?_ (allCells W H) _ st1 hf h
    intro st ij st2 e2 h2
    unfold fillRandomCell at e2
    split at e2
    · cases e2
    · simp only at e2
      split at e2
      · refine forEach_keeps _ (fun t => CursorAt a b t.sim) ?_ _ _ st2 e2 h2
        intro t kl t1 e3 h3
        unfold contaminate at e3
        simp only [Option.map_eq_some'] at e3
        obtain ⟨u, hu, rfl⟩ := e3
        exact cursorAt_writeAt W H a b _ _ _ t.sim u hu h3
      · cases e2
        exact h2

theorem cursorAt_ite_writeAt (W H : Nat) (a b : Int) (c : Bool) (x y : Int) (v : Bool)
    (t u : Sim) (e : (if c then writeAt W H t x y v else some t) = some u)
    (h : CursorAt a b t) : CursorAt a b u := by
  split at e
  · exact cursorAt_writeAt W H a b x y v t u e h
  · cases e; exact h

theorem cursorAt_ite_loadPattern (W H : Nat) (a b : Int) (c : Bool)
    (offsets : List (Int × Int)) (t u : Sim)
    (e : (if c then loadPattern W H offsets t else some t) = some u)
    (h : CursorAt a b t) : CursorAt a b u := by
  split at e
  · exact cursorAt_loadPattern W H a b offsets t u e h
  · cases e; exact h

theorem cursorAt_presetsPanel (W H : Nat) (a b : Int) (s s1 : Sim) (inp : Input)
    (e : presetsPanel W H s inp = some s1) (h : CursorAt a b s) : CursorAt a b s1 := by
  unfold presetsPanel at e
  simp only [Option.bind_eq_some] at e
  obtain ⟨p, hp, q, hq, c, hc, d, hd, he⟩ := e
  have h1 := cursorAt_ite_loadPattern W H a b _ _ s p hp h
  have h2 := cursorAt_ite_loadPattern W H a b _ _ p q hq h1
  have h3 := cursorAt_ite_loadPattern W H a b _ _ q c hc h2
  have h4 := cursorAt_ite_loadPattern W H a b _ _ c d hd h3
  exact cursorAt_ite_loadPattern W H a b _ _ d s1 he h4

/-- Whatever the cursor and the inputs, when the "Editor" header returns the cursor is on
the grid: the clamp follows every cursor movement. -/
theorem editorPanel_cursor_inGrid (W H : Nat) (hW : 0 < W) (hH : 0 < H) (s s1 : Sim)
    (inp : Input) (e : editorPanel W H s inp = some s1) :
    inGrid W H s1.editx s1.edity = true := by
  unfold editorPanel at e
  simp only [Option.bind_eq_some] at e
  obtain ⟨p, _, q, hq, c, hc, d, hd, he⟩ := e
  have h2 := cursorAt_ite_writeAt W H _ _ _ _ _ _ _ q hq ⟨rfl, rfl⟩
  have h3 := cursorAt_ite_writeAt W H _ _ _ _ _ _ q c hc h2
  have h4 : inGrid W H d.editx d.edity = true := by
    have hcen : inGrid W H (cursorToCenter W H inp.btnCursorToCenter c).editx
        (cursorToCenter W H inp.btnCursorToCenter c).edity = true := by
      unfold cursorToCenter
      split
      · exact inGrid_center W H hW hH
      · rw [h3.1, h3.2]
        exact inGrid_clampCursor W H hW hH _
    have hfill : CursorAt (cursorToCenter W H inp.btnCursorToCenter c).editx
        (cursorToCenter W H inp.btnCursorToCenter c).edity
        (if inp.btnRemoveAll then
          fillBoth W H false
            (if inp.btnFillAll then fillBoth W H true (cursorToCenter W H inp.btnCursorToCenter c)
              else cursorToCenter W H inp.btnCursorToCenter c)
        else
          (if inp.btnFillAll then fillBoth W H true (cursorToCenter W H inp.btnCursorToCenter c)
            else cursorToCenter W H inp.btnCursorToCenter c)) := by
      have h5 : CursorAt (cursorToCenter W H inp.btnCursorToCenter c).editx
          (cursorToCenter W H inp.btnCursorToCenter c).edity
          (if inp.btnFillAll then fillBoth W H true (cursorToCenter W H inp.btnCursorToCenter c)
            else cursorToCenter W H inp.btnCursorToCenter c) := by
        split
        · exact cursorAt_fillBoth W H _ _ true _ ⟨rfl, rfl⟩
        · exact ⟨rfl, rfl⟩
      split
      · exact cursorAt_fillBoth W H _ _ false _ h5
      · exact h5
    have hd2 : CursorAt (cursorToCenter W H inp.btnCursorToCenter c).editx
        (cursorToCenter W H inp.btnCursorToCenter c).edity d := by
      split at hd
      · exact cursorAt_fillRandomly W H _ _ _ _ d hd hfill
      · cases hd
        exact hfill
    rw [hd2.1, hd2.2]
    exact hcen
  unfold drawCursor at he
  simp only [Option.map_eq_some'] at he
  obtain ⟨l, -, rfl⟩ := he
  exact h4

theorem settingsPanel_cursor_inGrid (W H : Nat) (hW : 0 < W) (hH : 0 < H) (s s1 : Sim)
    (inp : Input) (e : settingsPanel W H s inp = some s1)
    (h : inGrid W H s.editx s.edity = true) : inGrid W H s1.editx s1.edity = true := by
  unfold settingsPanel at e
  simp only [Option.bind_eq_some] at e
  obtain ⟨p, hp, q, hq, hc⟩ := e
  have hpre : CursorAt s.editx s.edity (if inp.btnClear then
      fillBoth W H false (iterateButton inp.btnIterate
        (if inp.btnPause then pauseButton (closeBox inp.closeSettings s)
          else closeBox inp.closeSettings s))
      else iterateButton inp.btnIterate
        (if inp.btnPause then pauseButton (closeBox inp.closeSettings s)
          else closeBox inp.closeSettings s)) := by
    have hcb : CursorAt s.editx s.edity (closeBox inp.closeSettings s) := by
      unfold closeBox; split <;> exact ⟨rfl, rfl⟩
    have hpb : CursorAt s.editx s.edity (if inp.btnPause then
        pauseButton (closeBox inp.closeSettings s) else closeBox inp.closeSettings s) := by
      split
      · unfold pauseButton; split <;> exact hcb
      · exact hcb
    have hib : CursorAt s.editx s.edity (iterateButton inp.btnIterate
        (if inp.btnPause then pauseButton (closeBox inp.closeSettings s)
          else closeBox inp.closeSettings s)) := by
      unfold iterateButton
      simp only
      split <;> exact hpb
    split
    · exact cursorAt_fillBoth W H _ _ false _ hib
    · exact hib
  have h1 : inGrid W H p.editx p.edity = true := by
    split at hp
    · exact editorPanel_cursor_inGrid W H hW hH _ p inp hp
    · cases hp
      rw [hpre.1, hpre.2]
      exact h
  have h2 : CursorAt p.editx p.edity q := by
    split at hq
    · exact cursorAt_presetsPanel W H _ _ p q inp hq ⟨rfl, rfl⟩
    · cases hq
      exact ⟨rfl, rfl⟩
  have h3 : CursorAt p.editx p.edity s1 := by
    split at hc
    · unfold resetButton at hc
      exact cursorAt_loadPattern W H _ _ _ _ s1 hc h2
    · cases hc
      exact h2
  rw [h3.1, h3.2]
  exact h1

theorem frame_cursor_inGrid (W H : Nat) (hW : 0 < W) (hH : 0 < H)
    (hWH : 6 * quadCount W H < 2 ^ 32) (s s1 : Sim) (inp : Input)
    (e : frame W H s inp = some s1) (h : inGrid W H s.editx s.edity = true) :
    inGrid W H s1.editx s1.edity = true := by
  obtain ⟨t, e1, hx, hy⟩ : ∃ t, simPhase W H s inp.calculate = some t ∧ t.editx = s.editx ∧
      t.edity = s.edity := by
    obtain ⟨l, _, e1⟩ := simPhase_spec W H s inp.calculate hWH
    exact ⟨_, e1, rfl, rfl⟩
  unfold frame at e
  rw [e1, Option.some_bind] at e
  unfold uiPhase at e
  simp only at e
  have h0 : CursorAt s.editx s.edity (panelToggle t inp.keyC) := by
    unfold panelToggle
    split_ifs <;> exact ⟨hx, hy⟩
  by_cases hp : (panelToggle t inp.keyC).p_open = true
  · rw [if_pos hp] at e
    refine settingsPanel_cursor_inGrid W H hW hH _ s1 inp e ?_
    rw [h0.1, h0.2]
    exact h
  · rw [if_neg hp] at e
    cases e
    rw [h0.1, h0.2]
    exact h

/-- In every reachable state the edit cursor is on the grid. -/
theorem reachable_cursor_inGrid (s : Sim) (h : Reachable s) :
    inGrid CELL_SPACE_WIDTH CELL_SPACE_HEIGHT s.editx s.edity = true := by
  induction h with
  | start s e =>
    obtain ⟨s0, e0, _, _, _, _, hx, hy⟩ := initSim_cursor
    rw [e0] at e
    cases e
    rw [hx, hy]
    decide
  | step s s1 inp _ e ih =>
    exact frame_cursor_inGrid CELL_SPACE_WIDTH CELL_SPACE_HEIGHT (by decide) (by decide)
      quadCount_program s s1 inp e ih

/-- "Place Cell" and "Remove Cell" follow the clamp: whatever the cursor and the other
inputs, without the space key and "Fill Randomly" the "Editor" header returns. -/
theorem editorPanel_place_remove_safe (W H : Nat) (hW : 0 < W) (hH : 0 < H) (s : Sim)
    (inp : Input) (hsp : inp.keySpace = false) (hfr : inp.btnFillRandomly = false) :
    ∃ s1, editorPanel W H s inp = some s1 := by
  have hin := inGrid_clampCursor W H hW hH
  cases hpl : inp.btnPlace <;> cases hrm : inp.btnRemove <;>
    simp [editorPanel, hsp, hfr, hpl, hrm, writeAt, writeBoth, hin, drawCursor,
      drawRectImmediate_eq]

/-- The space key alone is safe: with the cursor on the grid and none of the keys `k`,
`h`, `l`, `j` pressed in the same frame, the "Editor" header returns ("Fill Randomly"
apart). -/
theorem editorPanel_space_alone_safe (W H : Nat) (hW : 0 < W) (hH : 0 < H) (s : Sim)
    (inp : Input) (h : inGrid W H s.editx s.edity = true)
    (hK : inp.keyK = false) (hH1 : inp.keyH = false) (hL : inp.keyL = false)
    (hJ : inp.keyJ = false) (hfr : inp.btnFillRandomly = false) :
    ∃ s1, editorPanel W H s inp = some s1 := by
  have hin := inGrid_clampCursor W H hW hH
  cases hsp : inp.keySpace <;> cases hpl : inp.btnPlace <;> cases hrm : inp.btnRemove <;>
    simp [editorPanel, hK, hH1, hL, hJ, hsp, hfr, hpl, hrm, cursorUp, cursorLeft, cursorRight,
      cursorDown, toggleAt, h, writeAt, writeBoth, hin, drawCursor, drawRectImmediate_eq]

/-- C11 (failing input). A state `s` is reachable from the start of the program in which
the settings window is open and the cursor stands on the grid at `(60, 0)`.  In a frame
with the "Editor" header open in which the key `j` and the space key are both pressed, the
key moves the cursor to `(60, -1)` and the space key toggles that coordinate before the
clamp runs: `(60, -1)` is outside the grid, the access is undefined, and the frame has no
defined result.  With "Place Cell" in the place of the space key the same frame returns
and writes `(60, 0)`, because "Place Cell" comes after the clamp. -/
theorem space_toggle_precedes_clamp :
    ∃ s, Reachable s ∧ s.p_open = true ∧ s.editx = 60 ∧ s.edity = 0 ∧
      inGrid CELL_SPACE_WIDTH CELL_SPACE_HEIGHT s.editx s.edity = true ∧
      (cursorDown true s).editx = 60 ∧ (cursorDown true s).edity = -1 ∧
      inGrid CELL_SPACE_WIDTH CELL_SPACE_HEIGHT (cursorDown true s).editx
        (cursorDown true s).edity = false ∧
      (∀ t : Sim, toggleAt CELL_SPACE_WIDTH CELL_SPACE_HEIGHT t 60 (-1) = none) ∧
      frame CELL_SPACE_WIDTH CELL_SPACE_HEIGHT s (editorInput true false true false false) =
        none ∧
      ∃ s1, frame CELL_SPACE_WIDTH CELL_SPACE_HEIGHT s
          (editorInput true false false true false) = some s1 ∧
        s1.editx = 60 ∧ s1.edity = 0 ∧ s1.spaces 60 0 = true ∧ s1.aliveSpaces 60 0 = true := by
  obtain ⟨s, r, hE⟩ := reachable_cursor_bottom
  have hx : s.editx = 60 := by simpa using hE.2.2.2.1
  have hy : s.edity = 0 := by simpa using hE.2.2.2.2.1
  refine ⟨s, r, hE.1, hx, hy, ?_, ?_, ?_, ?_, ?_, frame_space_below_grid s 60 [] [] hE,
    frame_place_at_bottom s [] [] hE⟩
  · rw [hx, hy]
    decide
  · simp [cursorDown, hx]
  · simp [cursorDown, hy]
  · simp [cursorDown, hx, hy, inGrid]
  · intro t
    simp [toggleAt, inGrid]

/-! ## C15: the grid with no live cell -/

/-- When the cell array and the shadow array are both dead on the whole grid, the first
half of a frame, with or without a tick, leaves both dead on the whole grid. -/
theorem dead_grid_and_shadow_stay_dead (W H : Nat) (hWH : 6 * quadCount W H < 2 ^ 32)
    (s : Sim) (calculate : Bool)
    (hsp : ∀ x y, x < W → y < H → s.spaces x y = false)
    (hal : ∀ x y, x < W → y < H → s.aliveSpaces x y = false) :
    ∃ s1, simPhase W H s calculate = some s1 ∧
      ∀ x y, x < W → y < H → s1.spaces x y = false ∧ s1.aliveSpaces x y = false := by
  obtain ⟨l, _, e⟩ := simPhase_spec W H s calculate hWH
  refine ⟨_, e, ?_⟩
  intro x y hx hy
  have hupd : isInterior W H x y = true →
      updateAlive (s.spaces x y) (countNeighbors s.aliveSpaces x y) = false := by
    intro hi
    have hxy := (mem_interiorCells W H x y).mp ((isInterior_iff W H x y).mp hi)
    have hcn : countNeighbors s.aliveSpaces x y = countNeighbors (fun _ _ => false) x y := by
      refine countNeighbors_congr _ _ _ _ ?_
      intro p hp
      simp only [mooreNeighbours, List.mem_cons, List.mem_singleton, List.not_mem_nil,
        or_false] at hp
      rcases hp with rfl | rfl | rfl | rfl | rfl | rfl | rfl | rfl <;>
        exact hal _ _ (by omega) (by omega)
    rw [hcn, hsp x y hx hy]
    rfl
  constructor
  · show nextSpaces W H (tickDue s calculate) s.spaces s.aliveSpaces x y = false
    unfold nextSpaces
    split_ifs with h1 h2
    · rfl
    · simp only [Bool.and_eq_true] at h2
      exact hupd h2.2
    · exact hsp x y hx hy
  · show nextAlive W H (tickDue s calculate) s.spaces s.aliveSpaces x y = false
    unfold nextAlive
    split_ifs with h1 h2
    · exact hupd h1
    · exact hsp x y hx hy
    · exact hal x y hx hy

/-- C15 (failing input). A state `s` is reachable from the start of the program (the
settings window opened, "Remove all cells", the cursor moved to `(60, 0)` with the key `j`,
then "Place Cell" at `(60, 0)`, `(59, 0)` and `(58, 0)` with the key `h` in between, each
in a frame of its own, and one more frame) in which the simulation runs and every cell of
the grid is dead, while the shadow array still holds `(58, 0)`, `(59, 0)` and `(60, 0)`
alive: the border pass cleared them in the cell array only.  The next frame with the timer
elapsed computes a tick, and after it cell `(59, 1)` is alive. -/
theorem dead_grid_comes_alive :
    ∃ s s1, Reachable s ∧ s.pause = false ∧
      (∀ x y, x < CELL_SPACE_WIDTH → y < CELL_SPACE_HEIGHT → s.spaces x y = false) ∧
      s.aliveSpaces 58 0 = true ∧ s.aliveSpaces 59 0 = true ∧ s.aliveSpaces 60 0 = true ∧
      frame CELL_SPACE_WIDTH CELL_SPACE_HEIGHT s (timerOnly true) = some s1 ∧
      s1.generation = (s.generation + 1) % 2 ^ 32 ∧
      s1.spaces 59 1 = true := by
  obtain ⟨s3, r3, hE3⟩ := reachable_cursor_bottom
  obtain ⟨s4, e4, hE4⟩ := editing_step s3 60 0 [] [] hE3 (by simp) (by simp) false false true
    60 0 (by simp) (by simp) (by decide) (by decide)
  obtain ⟨s5, e5, hE5⟩ := editing_step s4 60 0 _ _ hE4 (by simp) (by simp) false true false
    59 0 (by simp) (by simp) (by decide) (by decide)
  obtain ⟨s6, e6, hE6⟩ := editing_step s5 59 0 _ _ hE5 (by simp) (by simp) false false true
    59 0 (by simp) (by simp) (by decide) (by decide)
  obtain ⟨s7, e7, hE7⟩ := editing_step s6 59 0 _ _ hE6 (by simp) (by simp) false true false
    58 0 (by simp) (by simp) (by decide) (by decide)
  obtain ⟨s8, e8, hE8⟩ := editing_step s7 58 0 _ _ hE7 (by simp) (by simp) false false true
    58 0 (by simp) (by simp) (by decide) (by decide)
  obtain ⟨s9, e9, hE9⟩ := editing_step s8 58 0 _ _ hE8 (by simp) (by simp) false false false
    58 0 (by simp) (by simp) (by decide) (by decide)
  simp only [if_true, Bool.false_eq_true, if_false] at hE9
  obtain ⟨hp, hit, hpa, -, -, hs, ha⟩ := hE9
  have r9 : Reachable s9 :=
    Reachable.step s8 s9 _ (Reachable.step s7 s8 _ (Reachable.step s6 s7 _
      (Reachable.step s5 s6 _ (Reachable.step s4 s5 _ (Reachable.step s3 s4 _ r3 e4) e5) e6)
      e7) e8) e9
  have hdead : ∀ x y, x < CELL_SPACE_WIDTH → y < CELL_SPACE_HEIGHT → s9.spaces x y = false := by
    intro x y hx hy
    have := hs x y hx hy
    simpa using this
  have hal := (liveExactly_iff _ _ _ _).mp ha
  obtain ⟨l, _, e⟩ := frame_timerOnly CELL_SPACE_WIDTH CELL_SPACE_HEIGHT s9 true
    quadCount_program
  have htick : tickDue s9 true = true := by simp [tickDue, hpa]
  rw [htick] at e
  have hcn : countNeighbors s9.aliveSpaces 59 1 =
      countNeighbors (ofList [(58, 0), (59, 0), (60, 0)]) 59 1 := by
    refine countNeighbors_congr _ _ _ _ ?_
    intro p hp
    simp only [mooreNeighbours, List.mem_cons, List.mem_singleton, List.not_mem_nil,
      or_false] at hp
    rcases hp with rfl | rfl | rfl | rfl | rfl | rfl | rfl | rfl <;>
      exact hal _ _ (by decide) (by decide)
  refine ⟨s9, _, r9, hpa, hdead, ?_, ?_, ?_, e, by simp, ?_⟩
  · rw [hal 58 0 (by decide) (by decide)]; decide
  · rw [hal 59 0 (by decide) (by decide)]; decide
  · rw [hal 60 0 (by decide) (by decide)]; decide
  · show nextSpaces CELL_SPACE_WIDTH CELL_SPACE_HEIGHT true s9.spaces s9.aliveSpaces 59 1 = true
    unfold nextSpaces
    rw [if_neg (by decide), if_pos (by decide), hcn, hdead 59 1 (by decide) (by decide)]
    decide

end Cgol
